import Mathlib

/-! Usage-data normalisation of the OVH cloud-project usage tables.

Shallow embedding of the price aggregation code of

* `ovh/table_ovh_cloud_project_usage_current.go`
* `ovh/table_ovh_cloud_project_usage_forecast.go`
* `ovh/table_ovh_cloud_project_usage_history.go`

and of the first-element extractors of `ovh/table_ovh_cloud_project_usage_plans.go`,
with the fetch (hydrate) functions of the four tables.

The Go transforms work on decoded JSON held in `interface{}` values and add
prices as `float64`.  The embedding has three layers:

1. `F64`: IEEE-754 binary64 values with round-to-nearest-even addition (Go's
   `float64` and its `+`), so that the order of additions and signed zeros are
   those of the program;
2. `Value` / `Dyn`: the dynamic Go values a transform can meet;
3. the transforms themselves, one Lean function per Go function, with the
   `(interface{}, error)` result as `Except Error Value`.
-/

namespace Ovh

/-! ## binary64 -/

/-- Significand/exponent pairs `m * 2 ^ e` that are the canonical form of a
nonzero finite binary64 number: normal (53-bit significand) or subnormal. -/
def canonicalF64 (m : Nat) (e : Int) : Prop :=
  (2 ^ 52 ≤ m ∧ m < 2 ^ 53 ∧ -1074 ≤ e ∧ e ≤ 971) ∨ (0 < m ∧ m < 2 ^ 52 ∧ e = -1074)

instance instDecidableCanonicalF64 (m : Nat) (e : Int) : Decidable (canonicalF64 m e) := by
  unfold canonicalF64; infer_instance

/-- Go `float64`.  All NaN payloads are identified; `fin neg m e _` is
`(-1) ^ neg * m * 2 ^ e`. -/
inductive F64 where
  | nan
  | inf (neg : Bool)
  | zero (neg : Bool)
  | fin (neg : Bool) (m : Nat) (e : Int) (h : canonicalF64 m e)
  deriving DecidableEq

namespace F64

/-- Number of binary digits of `n` added to `acc`, by halving (`fuel` bounds
the halvings). -/
def bitLenAux : Nat → Nat → Nat → Nat
  | 0, _, acc => acc
  | fuel + 1, n, acc => if n = 0 then acc else bitLenAux fuel (n / 2) (acc + 1)

/-- Number of binary digits of `n` (`0` for `0`). -/
def bitLen (n : Nat) : Nat := bitLenAux n n 0

/-- Quotient `n / 2 ^ k` rounded to nearest, ties to even. -/
def roundShift (n k : Nat) : Nat :=
  let q := n / 2 ^ k
  let r := n % 2 ^ k
  let half := 2 ^ (k - 1)
  if r > half ∨ (r = half ∧ q % 2 = 1) then q + 1 else q

/-- The binary64 with sign `neg`, significand `m` (at most `2 ^ 53`, after
rounding) and exponent `e`: a significand that rounding carried to `2 ^ 53` is
renormalised, and an exponent above the largest one gives infinity. -/
def pack (neg : Bool) (m : Nat) (e : Int) : F64 :=
  let m2 := if m = 2 ^ 53 then 2 ^ 52 else m
  let e2 := if m = 2 ^ 53 then e + 1 else e
  if m2 = 0 then zero neg
  else if h : canonicalF64 m2 e2 then fin neg m2 e2 h
  else inf neg

/-- The binary64 nearest to `(-1) ^ neg * n * 2 ^ e` (ties to even): keeps 53
significant bits, no bit below `2 ^ -1074`, overflows to infinity. -/
def roundDyadic (neg : Bool) (n : Nat) (e : Int) : F64 :=
  if n = 0 then zero neg else
  let bits : Int := (bitLen n : Nat)
  let e1 := max (e + bits - 53) (-1074)
  pack neg (if e1 ≤ e then n * 2 ^ (e - e1).toNat else roundShift n (e1 - e).toNat) e1

/-- The binary64 nearest to `(-1) ^ neg * (num / den) * 2 ^ e`: the quotient is
taken with more than 55 bits and a sticky last bit, then rounded once. -/
def roundQuot (neg : Bool) (num den : Nat) (e : Int) : F64 :=
  if num = 0 then zero neg else
  let s := bitLen den + 56
  let q := (num * 2 ^ s) / den
  let sticky := if (num * 2 ^ s) % den = 0 then 0 else 1
  roundDyadic neg (2 * q + sticky) (e - (s : Int) - 1)

/-- IEEE-754 addition, round to nearest even: Go's `+` on `float64`. -/
def add : F64 → F64 → F64
  | nan, _ => nan
  | _, nan => nan
  | inf a, inf b => if a = b then inf a else nan
  | inf a, _ => inf a
  | _, inf b => inf b
  | zero a, zero b => zero (a && b)
  | zero _, y => y
  | x, zero _ => x
  | fin s1 m1 e1 _, fin s2 m2 e2 _ =>
    let e := min e1 e2
    let v1 : Int := m1 * 2 ^ (e1 - e).toNat
    let v2 : Int := m2 * 2 ^ (e2 - e).toNat
    let v : Int := (if s1 then -v1 else v1) + (if s2 then -v2 else v2)
    if v = 0 then zero false else roundDyadic (decide (v < 0)) v.natAbs e

instance : Add F64 := ⟨add⟩

/-- The Go constant `0.0`, also the zero value of a `float64` variable. -/
instance : Zero F64 := ⟨zero false⟩

/-- Go conversion `float64(v)` of an integer. -/
def ofInt (v : Int) : F64 :=
  if v = 0 then zero false else roundDyadic (decide (v < 0)) v.natAbs 0

/-- The binary64 nearest to `(-1) ^ neg * mant * 10 ^ exp10`: the value of a
decimal literal, as the Go compiler, `strconv.ParseFloat` and the JSON decoder
read it.  `5.5` is `ofDecimal false 55 (-1)`. -/
def ofDecimal (neg : Bool) (mant : Nat) (exp10 : Int) : F64 :=
  if 0 ≤ exp10 then roundDyadic neg (mant * 10 ^ exp10.toNat) 0
  else roundQuot neg mant (10 ^ (-exp10).toNat) 0

/-- The position of a number on the line, counted in units of `2 ^ -1074`:
every finite binary64 is a whole number of them, of magnitude below
`2 ^ 2098`; the infinities are placed at `2 ^ 2098` and `-2 ^ 2098`; NaN has no
position. -/
def scaled : F64 → Option Int
  | nan => none
  | inf neg => some (if neg then -(2 ^ 2098) else 2 ^ 2098)
  | zero _ => some 0
  | fin neg m e _ =>
    some (if neg then -((m * 2 ^ (e + 1074).toNat : Nat) : Int)
          else ((m * 2 ^ (e + 1074).toNat : Nat) : Int))

/-- Go's `x <= y` on `float64`, as a boolean: false when `x` or `y` is NaN, and
`-0` equals `+0`. -/
def leb (x y : F64) : Bool :=
  match scaled x, scaled y with
  | some a, some b => decide (a ≤ b)
  | _, _ => false

/-- Go's `x <= y` on `float64`. -/
instance : LE F64 := ⟨fun x y => leb x y = true⟩

instance instDecidableLe (x y : F64) : Decidable (x ≤ y) :=
  inferInstanceAs (Decidable (leb x y = true))

/-- The exact value of a finite binary64 as a rational number; NaN and the
infinities have none. -/
def toRat : F64 → Option ℚ
  | fin neg m e _ => some ((if neg then -1 else 1) * (m : ℚ) * (2 : ℚ) ^ e)
  | zero _ => some 0
  | _ => none

end F64

/-! ## Dynamic values -/

/-- A Go `error` value, by its message. -/
abbrev Error := String

/-- A Go `time.Time`, by its RFC 3339 text. -/
abbrev Timestamp := String

/-- The Go values held in an `interface{}` that the code can meet: the trees
`encoding/json` decodes (`nil`, `bool`, `float64` or `json.Number`, `string`,
`[]interface{}`, `map[string]interface{}`), the other numeric types
`convertToFloat64` switches on or formats (`otherInt` is a value of any integer
type but `int` and `int64`: `int8` to `int32`, `uint` to `uint64`), and the
`*time.Time` fields that the usage-plan extractors return (`timePtr none` is
the nil pointer).  A map is its list of entries, read by `List.lookup`; a nil
map or slice reads as the empty one. -/
inductive Value where
  | null
  | bool (b : Bool)
  | float64 (x : F64)
  | float32 (x : F64)
  | int (v : Int)
  | int64 (v : Int)
  | otherInt (v : Int)
  | number (s : String)
  | str (s : String)
  | arr (items : List Value)
  | obj (fields : List (String × Value))
  | timePtr (t : Option Timestamp)

/-- Go struct `CloudProjectUsageCurrent`. -/
structure CloudProjectUsageCurrent where
  ProjectID : String
  LastUpdate : String
  HourlyUsage : List (String × Value)
  MonthlyUsage : List (String × Value)
  ResourcesUsage : List Value
  Period : List (String × Value)
  UsableCredits : List (String × Value)

/-- Go struct `CloudProjectUsageForecast`. -/
structure CloudProjectUsageForecast where
  ProjectID : String
  LastUpdate : String
  HourlyUsage : List (String × Value)
  MonthlyUsage : List (String × Value)
  ResourcesUsage : List Value
  Period : List (String × Value)
  UsableCredits : List (String × Value)

/-- Go struct `CloudProjectUsageHistory`. -/
structure CloudProjectUsageHistory where
  ID : String
  ProjectID : String
  LastUpdate : Option String
  HourlyUsage : List (String × Value)
  MonthlyUsage : List (String × Value)
  ResourcesUsage : List Value
  Period : List (String × Value)
  UsableCredits : List (String × Value)

/-- Go struct `Period`. -/
structure Period where
  From : Option Timestamp
  To : Option Timestamp

/-- Go struct `PlanPrice`. -/
structure PlanPrice where
  CurrencyCode : String
  PriceInUcents : Int
  Text : String
  Value : F64

/-- Go struct `FlatFeeDetail`. -/
structure FlatFeeDetail where
  ID : String
  Period : Period
  PlanName : String
  Size : Int
  TotalPrice : PlanPrice
  UnitPrice : PlanPrice

/-- Go struct `FlatFee`. -/
structure FlatFee where
  Details : List FlatFeeDetail
  TotalPrice : PlanPrice

/-- Go struct `OverQuota`. -/
structure OverQuota where
  IDs : List String
  Quantity : Int
  TotalPrice : PlanPrice
  UnitPrice : PlanPrice

/-- Go struct `FlavorFees`. -/
structure FlavorFees where
  FlatFee : FlatFee
  OverQuota : OverQuota
  SavedAmount : PlanPrice
  TotalPrice : PlanPrice

/-- Go struct `UsagePeriod`. -/
structure UsagePeriod where
  PlansIDs : List String
  Begin : Option Timestamp
  ConsumptionSize : Int
  Coverage : String
  CumulPlanSize : Int
  End : Option Timestamp
  ResourceIDs : List String
  Utilization : String

/-- Go struct `PlanSubscription`. -/
structure PlanSubscription where
  Begin : Option Timestamp
  End : Option Timestamp
  ID : String
  Size : Int

/-- Go struct `FlavorUsage`. -/
structure FlavorUsage where
  Flavor : String
  Fees : FlavorFees
  Periods : List UsagePeriod
  Subscriptions : List PlanSubscription

/-- Go struct `CloudProjectUsagePlan`. -/
structure CloudProjectUsagePlan where
  ProjectID : String
  Period : Period
  TotalSavings : PlanPrice
  Flavors : List FlavorUsage

/-- The `Value` field of a `transform.TransformData`: a decoded JSON value (or
`nil`, as `val null`), one of the usage records, or the `[]FlavorUsage` of a
usage plan (a nil slice is the empty list). -/
inductive Dyn where
  | val (v : Value)
  | usageCurrent (r : CloudProjectUsageCurrent)
  | usageForecast (r : CloudProjectUsageForecast)
  | usageHistory (r : CloudProjectUsageHistory)
  | flavors (fs : List FlavorUsage)

/-- A column transform `func(context.Context, *transform.TransformData)
(interface{}, error)`; the context is not read by any of them. -/
abbrev TransformFunc := Dyn → Except Error Value

/-! ## `strconv.ParseFloat` -/

/-- Go `commonPrefixLenIgnoreCase(s, pre)` for a lower-case `pre`. -/
def commonLenIgnoreCase : List Char → List Char → Nat
  | c :: s, p :: pre =>
    let c := if 'A' ≤ c ∧ c ≤ 'Z' then Char.ofNat (c.toNat + 32) else c
    if c = p then commonLenIgnoreCase s pre + 1 else 0
  | _, _ => 0

/-- Length of an `inf` / `infinity` word at the head of `s`, if there is one. -/
def infinityLen (s : List Char) : Option Nat :=
  let n := commonLenIgnoreCase s "infinity".toList
  let n := if 3 < n ∧ n < 8 then 3 else n
  if n = 3 ∨ n = 8 then some n else none

/-- Go `strconv.special`: the value and the number of bytes read. -/
def special (s : List Char) : Option (F64 × Nat) :=
  match s with
  | [] => none
  | c :: rest =>
    if c = '+' ∨ c = '-' then
      (infinityLen rest).map fun n => (F64.inf (decide (c = '-')), n + 1)
    else if c = 'i' ∨ c = 'I' then
      (infinityLen s).map fun n => (F64.inf false, n)
    else if c = 'n' ∨ c = 'N' then
      if commonLenIgnoreCase s "nan".toList = 3 then some (F64.nan, 3) else none
    else none

/-- Value of a decimal digit byte. -/
def decDigit (c : Char) : Option Nat :=
  if '0' ≤ c ∧ c ≤ '9' then some (c.toNat - 48) else none

/-- Value of a hexadecimal letter byte (`a`-`f`, `A`-`F`). -/
def hexLetter (c : Char) : Option Nat :=
  if 'a' ≤ c ∧ c ≤ 'f' then some (c.toNat - 87)
  else if 'A' ≤ c ∧ c ≤ 'F' then some (c.toNat - 55) else none

/-- Local variables of the digit loop of `strconv.readFloat`.  `digits` is the
value of all significant digits read; the source keeps the first 19 (16 in
hexadecimal) and a `trunc` flag, and the conversions that follow round the
full digit string correctly. -/
structure Mantissa where
  digits : Nat
  nd : Nat
  dp : Int
  sawdot : Bool
  sawdigits : Bool
  underscores : Bool

/-- The digit loop of `strconv.readFloat`; returns the unread rest. -/
def readMantissa (hex : Bool) : List Char → Mantissa → Mantissa × List Char
  | [], st => (st, [])
  | c :: cs, st =>
    if c = '_' then readMantissa hex cs { st with underscores := true }
    else if c = '.' then
      if st.sawdot then (st, c :: cs)
      else readMantissa hex cs { st with sawdot := true, dp := st.nd }
    else
      match decDigit c with
      | some d =>
        if c = '0' ∧ st.nd = 0 then
          readMantissa hex cs { st with sawdigits := true, dp := st.dp - 1 }
        else
          readMantissa hex cs
            { st with sawdigits := true, nd := st.nd + 1,
                      digits := st.digits * (if hex then 16 else 10) + d }
      | none =>
        match (if hex then hexLetter c else none) with
        | some d =>
          readMantissa hex cs
            { st with sawdigits := true, nd := st.nd + 1, digits := st.digits * 16 + d }
        | none => (st, c :: cs)

/-- The exponent digit loop of `strconv.readFloat`: the exponent (no longer
accumulated once it has reached 10000), whether an underscore was seen, and
the unread rest. -/
def readExpDigits : List Char → Nat → Bool → Nat × Bool × List Char
  | [], e, u => (e, u, [])
  | c :: cs, e, u =>
    if c = '_' then readExpDigits cs e true
    else
      match decDigit c with
      | some d => readExpDigits cs (if e < 10000 then e * 10 + d else e) u
      | none => (e, u, c :: cs)

/-- The scan of `strconv.underscoreOK` over the number proper; `saw` is the
class of the last byte (`'0'` digit, `'_'` underscore, `'!'` other). -/
def underscoreScan (hex : Bool) : List Char → Char → Bool
  | [], saw => saw != '_'
  | c :: cs, saw =>
    if (decDigit c).isSome ∨ (hex ∧ (hexLetter c).isSome) then underscoreScan hex cs '0'
    else if c = '_' then
      if saw != '0' then false else underscoreScan hex cs '_'
    else if saw = '_' then false
    else underscoreScan hex cs '!'

/-- Go `strconv.underscoreOK`: underscores only between digits, or between a
base marker and a digit. -/
def underscoreOK (s : List Char) : Bool :=
  let s := match s with
    | c :: rest => if c = '-' ∨ c = '+' then rest else s
    | [] => s
  match s with
  | '0' :: b :: rest =>
    if b = 'b' ∨ b = 'B' ∨ b = 'o' ∨ b = 'O' ∨ b = 'x' ∨ b = 'X' then
      underscoreScan (decide (b = 'x' ∨ b = 'X')) rest '0'
    else underscoreScan false s '^'
  | _ => underscoreScan false s '^'

/-- Whether the digits open with the hexadecimal marker `0x` (at least one
more byte must follow it). -/
def hexMarker : List Char → Bool
  | '0' :: x :: _ :: _ => decide (x = 'x' ∨ x = 'X')
  | _ => false

/-- The error of the conversions of `strconv.atof64`: a rounded value that is
an infinity comes with a range error (`none`), any other with a nil error. -/
def rangeChecked : F64 → Option F64
  | .inf _ => none
  | f => some f

/-- The end of `strconv.readFloat` and the conversion of `strconv.atof64`, for
the whole text `s`, the mantissa `st` and the exponent `e`: the underscores
must be well placed, the value `digits * 10 ^ (dp - nd + e)` (in hexadecimal
`digits * 2 ^ (4 * (dp - nd) + e)`) is rounded to the nearest binary64, and a
result that overflows comes with a range error. -/
def convertMantissa (neg hex : Bool) (st : Mantissa) (s : List Char) (e : Int)
    (underscores : Bool) : Option F64 :=
  if underscores && !underscoreOK s then none else
  let dp : Int := if st.sawdot then st.dp else st.nd
  let scale : Int := if hex then 4 * (dp - st.nd) else dp - st.nd
  rangeChecked (if hex then F64.roundDyadic neg st.digits (scale + e)
                else F64.ofDecimal neg st.digits (scale + e))

/-- The exponent part of `strconv.readFloat` on the rest `s3` left by the
digit loop: nothing (not allowed in hexadecimal), or `e` / `p`, an optional
sign and digits up to the end of the text. -/
def readExponent (neg hex : Bool) (st : Mantissa) (s s3 : List Char) : Option F64 :=
  match s3 with
  | [] => if hex then none else convertMantissa neg hex st s 0 st.underscores
  | c :: s4 =>
    if (hex ∧ (c = 'p' ∨ c = 'P')) ∨ (¬ hex ∧ (c = 'e' ∨ c = 'E')) then
      match s4 with
      | [] => none
      | d :: s5 =>
        let esign : Int := if d = '-' then -1 else 1
        let s6 := if d = '+' ∨ d = '-' then s5 else s4
        match s6 with
        | [] => none
        | d0 :: _ =>
          if (decDigit d0).isNone then none else
          let r := readExpDigits s6 0 st.underscores
          if r.2.2 = [] then convertMantissa neg hex st s (esign * r.1) r.2.1 else none
    else none

/-- Go `strconv.readFloat` followed by the conversion, on a text that is not
one of the special words: an optional sign, an optional `0x`, the digits, the
exponent. -/
def readNumber (s : List Char) : Option F64 :=
  match s with
  | [] => none
  | c0 :: rest0 =>
    let neg := decide (c0 = '-')
    let s1 := if c0 = '+' ∨ c0 = '-' then rest0 else s
    let hex := hexMarker s1
    let s2 := if hex then s1.drop 2 else s1
    let r := readMantissa hex s2 ⟨0, 0, 0, false, false, false⟩
    if !r.1.sawdigits then none else readExponent neg hex r.1 s r.2

/-- Go `strconv.ParseFloat(s, 64)`: `some f` when the error is nil.  A text is
read as `inf`/`infinity`/`nan`, or as a decimal or hexadecimal floating-point
number that must span the whole string; the number is rounded to the nearest
binary64 (ties to even); a result that overflows comes with a range error. -/
def parseFloat (str : String) : Option F64 :=
  let s := str.toList
  match special s with
  | some (v, n) => if n = s.length then some v else none
  | none => readNumber s

/-! ## Decimal texts -/

/-- The byte of the decimal digit `d`. -/
def digitChar (d : Fin 10) : Char := Char.ofNat (48 + d.val)

/-- The number that the digit sequence `ds` writes, most significant digit
first. -/
def digitsValue (ds : List (Fin 10)) : Nat :=
  ds.foldl (fun n d => n * 10 + d.val) 0

/-- The decimal-formatted text with a `-` when `neg`, the integer digits `ip`
and, when `fp` is not empty, a `.` and the fraction digits `fp`.  It denotes
`(-1) ^ neg * digitsValue (ip ++ fp) / 10 ^ fp.length`. -/
def decimalText (neg : Bool) (ip fp : List (Fin 10)) : String :=
  String.mk ((if neg then ['-'] else []) ++ ip.map digitChar
    ++ (if fp.isEmpty then [] else '.' :: fp.map digitChar))

/-- One turn of the digit loop of `strconv.readFloat` on the decimal digit
`d`: a leading zero only moves the decimal point, any other digit is appended
to the mantissa. -/
def feedDigit (st : Mantissa) (d : Fin 10) : Mantissa :=
  if d.val = 0 ∧ st.nd = 0 then { st with sawdigits := true, dp := st.dp - 1 }
  else { st with sawdigits := true, nd := st.nd + 1, digits := st.digits * 10 + d.val }

/-- The decimal digits of `n`, most significant first, put before `acc`
(`fuel` bounds the divisions). -/
def natDigitsAux : Nat → Nat → List (Fin 10) → List (Fin 10)
  | 0, _, acc => acc
  | fuel + 1, n, acc =>
    if h : n < 10 then ⟨n, h⟩ :: acc
    else natDigitsAux fuel (n / 10) (⟨n % 10, Nat.mod_lt n (by decide)⟩ :: acc)

/-- The decimal digits of `n`, most significant first, without leading zeros
(`0` is the single digit `0`). -/
def natDigits (n : Nat) : List (Fin 10) := natDigitsAux (n + 1) n []

/-- The text `fmt.Sprintf("%v", v)` of an integer `v` of any integer type:
its decimal digits, after a `-` when it is negative. -/
def intText (v : Int) : String :=
  decimalText (decide (v < 0)) (natDigits v.natAbs) []

/-- The lower-case letter `c`, written in upper case when `upper`. -/
def letterCase (c : Char) (upper : Bool) : Char :=
  if upper then Char.ofNat (c.toNat - 32) else c

/-- The lower-case word `w` with the letters that `upper` marks written in
upper case: `caseVariant "inf" [true, false, false]` is `Inf`. -/
def caseVariant (w : String) (upper : List Bool) : List Char :=
  List.zipWith letterCase w.toList upper

/-- The text of a decimal number with an exponent: `decimalText neg ip fp`,
then `e` (`E` when `upper`), then the exponent sign `esign` (`none` for no sign,
`some false` for `+`, `some true` for `-`) and the exponent digits `ed`.  It
denotes the number of `decimalText neg ip fp` times `10` to the power
`digitsValue ed`, or to minus that power when the sign is `-`. -/
def exponentText (neg : Bool) (ip fp : List (Fin 10)) (upper : Bool) (esign : Option Bool)
    (ed : List (Fin 10)) : String :=
  String.mk ((decimalText neg ip fp).toList ++ (if upper then 'E' else 'e')
    :: ((match esign with
          | none => []
          | some s => [if s then '-' else '+']) ++ ed.map digitChar))

/-! ## Numeric normaliser -/

/-- The default branch of `convertToFloat64` on the text `strVal` that
`fmt.Sprintf("%v", v)` produced. -/
def parseOrZero (strVal : String) : F64 :=
  if strVal ≠ "" then
    match parseFloat strVal with
    | some price => price
    | none => 0
  else 0

/-- Go `convertToFloat64`.  In the default branch the argument is formatted
with `%v`: `<nil>` for nil and for a nil pointer, `true`/`false`, the decimal
digits of an integer, the text itself for a string or a `json.Number`, a text
opening with `[` for a slice and with `map[` for a map (only that opening is
kept here: `ParseFloat` rejects it at the first byte), and the `String()` text
of a time, `year-month-day ...` (the text of the zero time stands for all of
them: `ParseFloat` rejects the `-` that follows the year). -/
def convertToFloat64 : Value → F64
  | .float64 v => v
  | .float32 v => v
  | .int v => F64.ofInt v
  | .int64 v => F64.ofInt v
  | .otherInt v => parseOrZero (intText v)
  | .null => parseOrZero "<nil>"
  | .bool b => parseOrZero (if b then "true" else "false")
  | .number s => parseOrZero s
  | .str s => parseOrZero s
  | .arr _ => parseOrZero "["
  | .obj _ => parseOrZero "map["
  | .timePtr none => parseOrZero "<nil>"
  | .timePtr (some _) => parseOrZero "0001-01-01 00:00:00 +0000 UTC"

/-! ## Generic accessors (`table_ovh_cloud_project_usage_forecast.go`) -/

/-- Go `OperationTotalPrice`. -/
def OperationTotalPrice : String := "totalPrice"

/-- Go `OperationCount`. -/
def OperationCount : String := "count"

/-- Go `hourlyResourceTypes`. -/
def hourlyResourceTypes : List String :=
  ["volume", "instance", "storage", "snapshot",
   "instanceOption", "instanceBandwidth",
   "managedKubernetesService", "rancher"]

/-- Go `extractTotalPriceFromArray`. -/
def extractTotalPriceFromArray (items : List Value) (priceField : String) : F64 :=
  items.foldl (fun totalPrice item =>
    match item with
    | .obj itemMap =>
      match itemMap.lookup priceField with
      | some priceInterface => totalPrice + convertToFloat64 priceInterface
      | none => totalPrice
    | _ => totalPrice) 0

/-- Go `extractNestedPriceFromArray`. -/
def extractNestedPriceFromArray (items : List Value) (parentField childField : String) : F64 :=
  items.foldl (fun totalPrice item =>
    match item with
    | .obj itemMap =>
      match itemMap.lookup parentField with
      | some (.obj parentMap) =>
        match parentMap.lookup childField with
        | some childInterface => totalPrice + convertToFloat64 childInterface
        | none => totalPrice
      | _ => totalPrice
    | _ => totalPrice) 0

/-- Go `extractPriceFromFilteredArray`. -/
def extractPriceFromFilteredArray (items : List Value)
    (filterField filterValue priceField : String) : F64 :=
  items.foldl (fun totalPrice item =>
    match item with
    | .obj itemMap =>
      match itemMap.lookup filterField with
      | some (.str typeStr) =>
        if typeStr = filterValue then
          match itemMap.lookup priceField with
          | some priceInterface => totalPrice + convertToFloat64 priceInterface
          | none => totalPrice
        else totalPrice
      | _ => totalPrice
    | _ => totalPrice) 0

/-! ## Per-category projections -/

/-- The `switch operation` that `extractHourlyUsageField` runs on each of its
early exits: the `int` zero for a count, the `float64` zero otherwise. -/
def zeroResult (operation : String) : Value :=
  if operation = OperationCount then .int 0 else .float64 0

/-- Go `extractHourlyUsageField`. -/
def extractHourlyUsageField (resourceType operation : String) : TransformFunc
  | .val .null => .ok (zeroResult operation)
  | .val (.obj hourlyUsage) =>
    match hourlyUsage.lookup resourceType with
    | none => .ok (zeroResult operation)
    | some (.arr resourceList) =>
      if operation = OperationTotalPrice then
        .ok (.float64 (extractTotalPriceFromArray resourceList "totalPrice"))
      else if operation = OperationCount then
        .ok (.int resourceList.length)
      else .ok (.float64 0)
    | some _ => .ok (zeroResult operation)
  | _ => .ok (zeroResult operation)

/-- Go `calculateForecastTotalPrice`. -/
def calculateForecastTotalPrice (resourceType : String) : TransformFunc :=
  extractHourlyUsageField resourceType OperationTotalPrice

/-- Go `calculateUsageCount`. -/
def calculateUsageCount (resourceType : String) : TransformFunc :=
  extractHourlyUsageField resourceType OperationCount

/-- Go `extractUsageField`. -/
def extractUsageField (fieldName : String) : TransformFunc
  | .val .null => .ok .null
  | .val (.obj hourlyUsage) =>
    match hourlyUsage.lookup fieldName with
    | none => .ok .null
    | some field => .ok field
  | _ => .ok .null

/-- Go `calculateForecastQuantumPrice`. -/
def calculateForecastQuantumPrice : TransformFunc
  | .val .null => .ok (.float64 0)
  | .val (.obj hourlyUsage) =>
    match hourlyUsage.lookup "quantum" with
    | none => .ok (.float64 0)
    | some (.obj quantum) =>
      match quantum.lookup "notebook" with
      | some (.arr notebookList) =>
        .ok (.float64 (extractTotalPriceFromArray notebookList "totalPrice"))
      | _ => .ok (.float64 0)
    | some _ => .ok (.float64 0)
  | _ => .ok (.float64 0)

/-- Go `calculateCurrentQuantumPrice`. -/
def calculateCurrentQuantumPrice : TransformFunc
  | .val .null => .ok (.float64 0)
  | .val (.obj hourlyUsage) =>
    match hourlyUsage.lookup "quantum" with
    | none => .ok (.float64 0)
    | some (.obj quantum) =>
      match quantum.lookup "notebook" with
      | some (.arr notebookList) =>
        .ok (.float64 (extractTotalPriceFromArray notebookList "totalPrice"))
      | _ => .ok (.float64 0)
    | some _ => .ok (.float64 0)
  | _ => .ok (.float64 0)

/-- Go `calculateHistoricalQuantumPrice`. -/
def calculateHistoricalQuantumPrice : TransformFunc
  | .val .null => .ok (.float64 0)
  | .val (.obj hourlyUsage) =>
    match hourlyUsage.lookup "quantum" with
    | none => .ok (.float64 0)
    | some (.obj quantum) =>
      match quantum.lookup "notebook" with
      | some (.arr notebookList) =>
        .ok (.float64 (extractTotalPriceFromArray notebookList "totalPrice"))
      | _ => .ok (.float64 0)
    | some _ => .ok (.float64 0)
  | _ => .ok (.float64 0)

/-! ## Grand totals -/

/-- Go `calculateForecastGrandTotal`. -/
def calculateForecastGrandTotal : TransformFunc
  | .val .null => .ok (.float64 0)
  | .val (.obj hourlyUsage) =>
    let grandTotal : F64 := 0
    let grandTotal := hourlyResourceTypes.foldl (fun grandTotal resourceType =>
      match hourlyUsage.lookup resourceType with
      | some (.arr resourceList) =>
        grandTotal + extractTotalPriceFromArray resourceList "totalPrice"
      | _ => grandTotal) grandTotal
    let grandTotal :=
      match hourlyUsage.lookup "quantum" with
      | some (.obj quantum) =>
        match quantum.lookup "notebook" with
        | some (.arr notebookList) =>
          grandTotal + extractTotalPriceFromArray notebookList "totalPrice"
        | _ => grandTotal
      | _ => grandTotal
    .ok (.float64 grandTotal)
  | _ => .ok (.float64 0)

/-- Go `calculateCurrentGrandTotal`. -/
def calculateCurrentGrandTotal : TransformFunc
  | .val .null => .ok (.float64 0)
  | .val (.obj hourlyUsage) =>
    let grandTotal : F64 := 0
    let grandTotal := hourlyResourceTypes.foldl (fun grandTotal resourceType =>
      match hourlyUsage.lookup resourceType with
      | some (.arr resourceList) =>
        grandTotal + extractTotalPriceFromArray resourceList "totalPrice"
      | _ => grandTotal) grandTotal
    let grandTotal :=
      match hourlyUsage.lookup "quantum" with
      | some (.obj quantum) =>
        match quantum.lookup "notebook" with
        | some (.arr notebookList) =>
          grandTotal + extractTotalPriceFromArray notebookList "totalPrice"
        | _ => grandTotal
      | _ => grandTotal
    .ok (.float64 grandTotal)
  | _ => .ok (.float64 0)

/-- Go `calculateHistoricalGrandTotal`. -/
def calculateHistoricalGrandTotal : TransformFunc
  | .val .null => .ok (.float64 0)
  | .val (.obj hourlyUsage) =>
    let grandTotal : F64 := 0
    let grandTotal := hourlyResourceTypes.foldl (fun grandTotal resourceType =>
      match hourlyUsage.lookup resourceType with
      | some (.arr resourceList) =>
        grandTotal + extractTotalPriceFromArray resourceList "totalPrice"
      | _ => grandTotal) grandTotal
    let grandTotal :=
      match hourlyUsage.lookup "quantum" with
      | some (.obj quantum) =>
        match quantum.lookup "notebook" with
        | some (.arr notebookList) =>
          grandTotal + extractTotalPriceFromArray notebookList "totalPrice"
        | _ => grandTotal
      | _ => grandTotal
    .ok (.float64 grandTotal)
  | _ => .ok (.float64 0)

/-- Go `calculateMonthlySavingsPlanPrice`. -/
def calculateMonthlySavingsPlanPrice : TransformFunc
  | .val .null => .ok (.float64 0)
  | .val (.obj monthlyUsage) =>
    match monthlyUsage.lookup "savingsPlan" with
    | none => .ok (.float64 0)
    | some (.arr savingsPlanList) =>
      .ok (.float64 (extractNestedPriceFromArray savingsPlanList "totalPrice" "value"))
    | some _ => .ok (.float64 0)
  | _ => .ok (.float64 0)

/-- Go `calculateResourcesUsagePrice`. -/
def calculateResourcesUsagePrice : TransformFunc
  | .val .null => .ok (.float64 0)
  | .val (.arr resourcesUsage) =>
    .ok (.float64 (extractTotalPriceFromArray resourcesUsage "totalPrice"))
  | _ => .ok (.float64 0)

/-- Go `calculateResourcePrice`. -/
def calculateResourcePrice (resourceType : String) : TransformFunc
  | .val .null => .ok (.float64 0)
  | .val (.arr resourcesUsage) =>
    .ok (.float64 (extractPriceFromFilteredArray resourcesUsage "type" resourceType "totalPrice"))
  | _ => .ok (.float64 0)

/-- The closure `addToTotal` of the three comprehensive totals, with the
captured `grandTotal` passed in and the updated one returned: the result of
`calculationFunc` is added when its error is nil and it is a `float64`. -/
def addToTotal (grandTotal : F64) (calculationFunc : TransformFunc) (data : Dyn) : F64 :=
  match calculationFunc data with
  | .ok (.float64 total) => grandTotal + total
  | _ => grandTotal

/-- Go `calculateComprehensiveTotalPrice`. -/
def calculateComprehensiveTotalPrice : TransformFunc
  | .val .null => .ok (.float64 0)
  | .usageForecast response =>
    let grandTotal : F64 := 0
    let grandTotal := addToTotal grandTotal calculateForecastGrandTotal (.val (.obj response.HourlyUsage))
    let grandTotal :=
      addToTotal grandTotal calculateMonthlySavingsPlanPrice (.val (.obj response.MonthlyUsage))
    let grandTotal :=
      addToTotal grandTotal calculateResourcesUsagePrice (.val (.arr response.ResourcesUsage))
    .ok (.float64 grandTotal)
  | _ => .ok (.float64 0)

/-- Go `calculateComprehensiveCurrentTotalPrice`. -/
def calculateComprehensiveCurrentTotalPrice : TransformFunc
  | .val .null => .ok (.float64 0)
  | .usageCurrent response =>
    let grandTotal : F64 := 0
    let grandTotal := addToTotal grandTotal calculateCurrentGrandTotal (.val (.obj response.HourlyUsage))
    let grandTotal :=
      addToTotal grandTotal calculateMonthlySavingsPlanPrice (.val (.obj response.MonthlyUsage))
    let grandTotal :=
      addToTotal grandTotal calculateResourcesUsagePrice (.val (.arr response.ResourcesUsage))
    .ok (.float64 grandTotal)
  | _ => .ok (.float64 0)

/-- Go `calculateComprehensiveHistoricalTotalPrice`. -/
def calculateComprehensiveHistoricalTotalPrice : TransformFunc
  | .val .null => .ok (.float64 0)
  | .usageHistory response =>
    let grandTotal : F64 := 0
    let grandTotal := addToTotal grandTotal calculateHistoricalGrandTotal (.val (.obj response.HourlyUsage))
    let grandTotal :=
      addToTotal grandTotal calculateMonthlySavingsPlanPrice (.val (.obj response.MonthlyUsage))
    let grandTotal :=
      addToTotal grandTotal calculateResourcesUsagePrice (.val (.arr response.ResourcesUsage))
    .ok (.float64 grandTotal)
  | _ => .ok (.float64 0)

/-! ## First-flavor extractors (`table_ovh_cloud_project_usage_plans.go`) -/

/-- Go `extractFirstFlavorName`. -/
def extractFirstFlavorName : TransformFunc
  | .val .null => .ok .null
  | .flavors flavors =>
    match flavors with
    | [] => .ok .null
    | flavor0 :: _ => .ok (.str flavor0.Flavor)
  | _ => .ok .null

/-- Go `extractFlatFeeTotalPrice`. -/
def extractFlatFeeTotalPrice : TransformFunc
  | .val .null => .ok .null
  | .flavors flavors =>
    match flavors with
    | [] => .ok .null
    | flavor0 :: _ => .ok (.float64 flavor0.Fees.FlatFee.TotalPrice.Value)
  | _ => .ok .null

/-- Go `extractFlatFeeCurrency`. -/
def extractFlatFeeCurrency : TransformFunc
  | .val .null => .ok .null
  | .flavors flavors =>
    match flavors with
    | [] => .ok .null
    | flavor0 :: _ => .ok (.str flavor0.Fees.FlatFee.TotalPrice.CurrencyCode)
  | _ => .ok .null

/-- Go `extractOverQuotaQuantity`. -/
def extractOverQuotaQuantity : TransformFunc
  | .val .null => .ok .null
  | .flavors flavors =>
    match flavors with
    | [] => .ok .null
    | flavor0 :: _ => .ok (.int flavor0.Fees.OverQuota.Quantity)
  | _ => .ok .null

/-- Go `extractOverQuotaUnitPrice`. -/
def extractOverQuotaUnitPrice : TransformFunc
  | .val .null => .ok .null
  | .flavors flavors =>
    match flavors with
    | [] => .ok .null
    | flavor0 :: _ => .ok (.float64 flavor0.Fees.OverQuota.UnitPrice.Value)
  | _ => .ok .null

/-- Go `extractFlavorTotalPrice`. -/
def extractFlavorTotalPrice : TransformFunc
  | .val .null => .ok .null
  | .flavors flavors =>
    match flavors with
    | [] => .ok .null
    | flavor0 :: _ => .ok (.float64 flavor0.Fees.TotalPrice.Value)
  | _ => .ok .null

/-- Go `extractFlavorSavedAmount`. -/
def extractFlavorSavedAmount : TransformFunc
  | .val .null => .ok .null
  | .flavors flavors =>
    match flavors with
    | [] => .ok .null
    | flavor0 :: _ => .ok (.float64 flavor0.Fees.SavedAmount.Value)
  | _ => .ok .null

/-- Go `extractUsageCoverage`. -/
def extractUsageCoverage : TransformFunc
  | .val .null => .ok .null
  | .flavors flavors =>
    match flavors with
    | [] => .ok .null
    | flavor0 :: _ =>
      match flavor0.Periods with
      | [] => .ok .null
      | period0 :: _ => .ok (.str period0.Coverage)
  | _ => .ok .null

/-- Go `extractUsageUtilization`. -/
def extractUsageUtilization : TransformFunc
  | .val .null => .ok .null
  | .flavors flavors =>
    match flavors with
    | [] => .ok .null
    | flavor0 :: _ =>
      match flavor0.Periods with
      | [] => .ok .null
      | period0 :: _ => .ok (.str period0.Utilization)
  | _ => .ok .null

/-- Go `extractConsumptionSize`. -/
def extractConsumptionSize : TransformFunc
  | .val .null => .ok .null
  | .flavors flavors =>
    match flavors with
    | [] => .ok .null
    | flavor0 :: _ =>
      match flavor0.Periods with
      | [] => .ok .null
      | period0 :: _ => .ok (.int period0.ConsumptionSize)
  | _ => .ok .null

/-- Go `extractCumulPlanSize`. -/
def extractCumulPlanSize : TransformFunc
  | .val .null => .ok .null
  | .flavors flavors =>
    match flavors with
    | [] => .ok .null
    | flavor0 :: _ =>
      match flavor0.Periods with
      | [] => .ok .null
      | period0 :: _ => .ok (.int period0.CumulPlanSize)
  | _ => .ok .null

/-- Go `extractSubscriptionID`. -/
def extractSubscriptionID : TransformFunc
  | .val .null => .ok .null
  | .flavors flavors =>
    match flavors with
    | [] => .ok .null
    | flavor0 :: _ =>
      match flavor0.Subscriptions with
      | [] => .ok .null
      | subscription0 :: _ => .ok (.str subscription0.ID)
  | _ => .ok .null

/-- Go `extractSubscriptionSize`. -/
def extractSubscriptionSize : TransformFunc
  | .val .null => .ok .null
  | .flavors flavors =>
    match flavors with
    | [] => .ok .null
    | flavor0 :: _ =>
      match flavor0.Subscriptions with
      | [] => .ok .null
      | subscription0 :: _ => .ok (.int subscription0.Size)
  | _ => .ok .null

/-- Go `extractSubscriptionBegin`. -/
def extractSubscriptionBegin : TransformFunc
  | .val .null => .ok .null
  | .flavors flavors =>
    match flavors with
    | [] => .ok .null
    | flavor0 :: _ =>
      match flavor0.Subscriptions with
      | [] => .ok .null
      | subscription0 :: _ => .ok (.timePtr subscription0.Begin)
  | _ => .ok .null

/-- Go `extractSubscriptionEnd`. -/
def extractSubscriptionEnd : TransformFunc
  | .val .null => .ok .null
  | .flavors flavors =>
    match flavors with
    | [] => .ok .null
    | flavor0 :: _ =>
      match flavor0.Subscriptions with
      | [] => .ok .null
      | subscription0 :: _ => .ok (.timePtr subscription0.End)
  | _ => .ok .null

/-- Go `extractPlanName`. -/
def extractPlanName : TransformFunc
  | .val .null => .ok .null
  | .flavors flavors =>
    match flavors with
    | [] => .ok .null
    | flavor0 :: _ =>
      match flavor0.Fees.FlatFee.Details with
      | [] => .ok .null
      | detail0 :: _ => .ok (.str detail0.PlanName)
  | _ => .ok .null

/-! ## Fetch operations -/

/-- What a hydrate function reads from its `*plugin.QueryData`.
`EqualsQuals name` is `d.EqualsQuals[name].GetStringValue()`, the empty string
for a qualifier that is not set.  `connect` is the result of `connect(ctx, d)`:
an error, or a client, given by what `client.Get(endpoint, &response)` does
with a zero-valued `response` of type `α`: it returns an error, or it decodes
the payload into `response` (a field that the payload does not have keeps its
zero value).  Logging is not modelled. -/
structure QueryData (α : Type) where
  EqualsQuals : String → String
  connect : Except Error (String → Except Error α)

/-- What a list hydrate function does: the items it passes to
`d.StreamListItem`, in order, and the `(interface{}, error)` it returns. -/
structure ListResult (α : Type) where
  streamed : List α
  result : Except Error Value

/-- Go `listCloudProjectUsageCurrent`. -/
def listCloudProjectUsageCurrent (d : QueryData CloudProjectUsageCurrent) :
    ListResult CloudProjectUsageCurrent :=
  let projectID := d.EqualsQuals "project_id"
  match d.connect with
  | .error err => { streamed := [], result := .error err }
  | .ok client =>
    let endpoint := "/cloud/project/" ++ projectID ++ "/usage/current"
    match client endpoint with
    | .error err => { streamed := [], result := .error err }
    | .ok response =>
      let response := { response with ProjectID := projectID }
      { streamed := [response], result := .ok .null }

/-- Go `listCloudProjectUsageForecast`. -/
def listCloudProjectUsageForecast (d : QueryData CloudProjectUsageForecast) :
    ListResult CloudProjectUsageForecast :=
  let projectID := d.EqualsQuals "project_id"
  match d.connect with
  | .error err => { streamed := [], result := .error err }
  | .ok client =>
    let endpoint := "/cloud/project/" ++ projectID ++ "/usage/forecast"
    match client endpoint with
    | .error err => { streamed := [], result := .error err }
    | .ok response =>
      let response := { response with ProjectID := projectID }
      { streamed := [response], result := .ok .null }

/-- Go `listCloudProjectUsageHistory`. -/
def listCloudProjectUsageHistory (d : QueryData (List CloudProjectUsageHistory)) :
    ListResult CloudProjectUsageHistory :=
  let projectID := d.EqualsQuals "project_id"
  match d.connect with
  | .error err => { streamed := [], result := .error err }
  | .ok client =>
    let endpoint := "/cloud/project/" ++ projectID ++ "/usage/history"
    match client endpoint with
    | .error err => { streamed := [], result := .error err }
    | .ok usageRecords =>
      { streamed := usageRecords.map (fun usage => { usage with ProjectID := projectID }),
        result := .ok .null }

/-- Go `getCloudProjectUsageHistory`; `item` is `h.Item`, the listing item
being hydrated, or `none` (nil) for a direct get. -/
def getCloudProjectUsageHistory (d : QueryData CloudProjectUsageHistory)
    (item : Option CloudProjectUsageHistory) : Except Error CloudProjectUsageHistory :=
  let (projectID, usageID) :=
    match item with
    | some usage => (usage.ProjectID, usage.ID)
    | none => (d.EqualsQuals "project_id", d.EqualsQuals "usage_id")
  match d.connect with
  | .error err => .error err
  | .ok client =>
    let endpoint := "/cloud/project/" ++ projectID ++ "/usage/history/" ++ usageID
    match client endpoint with
    | .error err => .error err
    | .ok response =>
      let response := { response with ProjectID := projectID }
      let response := if response.ID = "" then { response with ID := usageID } else response
      .ok response

/-- Go `listCloudProjectUsagePlans`. -/
def listCloudProjectUsagePlans (d : QueryData CloudProjectUsagePlan) :
    ListResult CloudProjectUsagePlan :=
  let projectID := d.EqualsQuals "project_id"
  match d.connect with
  | .error err => { streamed := [], result := .error err }
  | .ok client =>
    let endpoint := "/cloud/project/" ++ projectID ++ "/usage/plans"
    match client endpoint with
    | .error err => { streamed := [], result := .error err }
    | .ok response => { streamed := [response], result := .ok .null }

/-! ## Vocabulary of the properties -/

/-- The value `e[f]` of an entry `e` that is a mapping containing the key `f`;
`none` for any other entry. -/
def fieldOf (f : String) : Value → Option Value
  | .obj entry => entry.lookup f
  | _ => none

/-- The value `e[parent][child]` of an entry `e` that is a mapping whose
`parent` field is itself a mapping containing the key `child`; `none` for any
other entry. -/
def nestedFieldOf (parent child : String) : Value → Option Value
  | .obj entry =>
    match entry.lookup parent with
    | some (.obj parentMap) => parentMap.lookup child
    | _ => none
  | _ => none

/-- Whether an entry is a mapping whose `field` is a string equal to `value`. -/
def fieldIsString (field value : String) : Value → Bool
  | .obj entry =>
    match entry.lookup field with
    | some (.str s) => decide (s = value)
    | _ => false
  | _ => false

/-- The left-to-right sum of the prices `ps`, starting at `0.0`. -/
def sumPrices (ps : List Value) : F64 :=
  ps.foldl (fun total p => total + convertToFloat64 p) 0

/-- The Go map assignment `m[k] = v` on the list of entries of `m`. -/
def mapSet (m : List (String × Value)) (k : String) (v : Value) : List (String × Value) :=
  (k, v) :: m.filter (fun entry => entry.1 != k)

/-- The array stored under the key `c` of the map `h`: empty when `c` is
missing and when the value under `c` is not an array. -/
def arrayUnder (h : List (String × Value)) (c : String) : List Value :=
  match h.lookup c with
  | some (.arr l) => l
  | _ => []

/-- The array `h["quantum"]["notebook"]`: empty when `quantum` is missing or is
not a mapping, and when `notebook` is missing or is not an array. -/
def notebookArray (h : List (String × Value)) : List Value :=
  match h.lookup "quantum" with
  | some (.obj quantum) => arrayUnder quantum "notebook"
  | _ => []

/-- The type names of the four per-type resource price columns
(`gateway_*_price`, `publicip_*_price`, `loadbalancer_*_price`,
`floatingip_*_price`). -/
def resourceTypeNames : List String :=
  ["gateway", "publicip", "octavia-loadbalancer", "floatingip"]

/-- Exact addition of two numbers that may be missing: missing when either
is. -/
def exactAdd : Option ℚ → Option ℚ → Option ℚ
  | some x, some y => some (x + y)
  | _, _ => none

/-- The prices `ps` added exactly, as rational numbers, from left to right
starting at `0`: `sumPrices` with the rounding of each addition left out.  There
is no exact sum when one of the prices converts to NaN or to an infinity. -/
def exactSum (ps : List Value) : Option ℚ :=
  ps.foldl (fun total p => exactAdd total (convertToFloat64 p).toRat) (some 0)

/-- The binary64 nearest to `n` units of `2 ^ -1074` (ties to even), itself in
these units and with the overflow to infinity as `2 ^ 2098`: what the rounding
of a non-negative sum does on the scale of `F64.scaled`. -/
def roundUnits (n : Nat) : Nat :=
  let k := F64.bitLen n - 53
  min (F64.roundShift n k * 2 ^ k) (2 ^ 2098)

/-- A price of `v` euros, for the examples. -/
def samplePrice (v : F64) : PlanPrice :=
  { CurrencyCode := "EUR", PriceInUcents := 0, Text := "", Value := v }

/-- A usage period with coverage `80.5` and utilization `60.0`, for the
examples. -/
def samplePeriod : UsagePeriod :=
  { PlansIDs := [], Begin := none, ConsumptionSize := 4, Coverage := "80.5",
    CumulPlanSize := 5, End := none, ResourceIDs := [], Utilization := "60.0" }

/-- A flavor with two usage periods, two subscriptions and two flat-fee
details, for the examples. -/
def sampleFlavor : FlavorUsage :=
  { Flavor := "b3-8"
    Fees :=
      { FlatFee :=
          { Details :=
              [ { ID := "d1", Period := { From := none, To := none }, PlanName := "Rancher",
                  Size := 1, TotalPrice := samplePrice (F64.ofInt 7),
                  UnitPrice := samplePrice (F64.ofInt 7) },
                { ID := "d2", Period := { From := none, To := none }, PlanName := "Other",
                  Size := 2, TotalPrice := samplePrice (F64.ofInt 4),
                  UnitPrice := samplePrice (F64.ofInt 2) } ]
            TotalPrice := samplePrice (F64.ofInt 11) }
        OverQuota :=
          { IDs := [], Quantity := 3, TotalPrice := samplePrice (F64.ofInt 6),
            UnitPrice := samplePrice (F64.ofInt 2) }
        SavedAmount := samplePrice (F64.ofInt 5)
        TotalPrice := samplePrice (F64.ofInt 17) }
    Periods :=
      [ samplePeriod,
        { PlansIDs := [], Begin := none, ConsumptionSize := 9, Coverage := "10.0",
          CumulPlanSize := 9, End := none, ResourceIDs := [], Utilization := "20.0" } ]
    Subscriptions :=
      [ { Begin := some "2024-01-01T00:00:00Z", End := none, ID := "sub-1", Size := 2 },
        { Begin := none, End := some "2025-01-01T00:00:00Z", ID := "sub-2", Size := 8 } ] }

/-- A history record with the id `id` and no other content, for the examples. -/
def sampleHistory (id : String) : CloudProjectUsageHistory :=
  ⟨id, "", none, [], [], [], [], []⟩

/-- A usage-plan payload that carries no project id, for the examples. -/
def samplePlan : CloudProjectUsagePlan :=
  ⟨"", ⟨none, none⟩, samplePrice 0, [sampleFlavor]⟩

/-- A client whose `Get` answers every endpoint with the payload `payload`. -/
def sampleClient {α : Type} (payload : α) : String → Except Error α :=
  fun _ => .ok payload

/-- The hourlyUsage of the end-to-end scenario:
`{volume: [{totalPrice: 10.0}, {totalPrice: 5.5}], instance: [{totalPrice: 100}]}`. -/
def sampleHourly : List (String × Value) :=
  [("volume", .arr [.obj [("totalPrice", .float64 (F64.ofInt 10))],
                    .obj [("totalPrice", .float64 (F64.ofDecimal false 55 (-1)))]]),
   ("instance", .arr [.obj [("totalPrice", .float64 (F64.ofInt 100))]])]

/-- A monthlyUsage with one savings plan of `4`:
`{savingsPlan: [{totalPrice: {value: 4}}]}`. -/
def sampleMonthly : List (String × Value) :=
  [("savingsPlan", .arr [.obj [("totalPrice", .obj [("value", .float64 (F64.ofInt 4))])]])]

/-- A resourcesUsage array: `[{type: gateway, totalPrice: 3}, {type: floatingip,
totalPrice: 1.2}, {type: gateway, totalPrice: 2}]`. -/
def sampleResources : List Value :=
  [.obj [("type", .str "gateway"), ("totalPrice", .float64 (F64.ofInt 3))],
   .obj [("type", .str "floatingip"), ("totalPrice", .float64 (F64.ofDecimal false 12 (-1)))],
   .obj [("type", .str "gateway"), ("totalPrice", .float64 (F64.ofInt 2))]]

/-! ## Lemmas on binary64 addition -/

namespace F64

theorem bitLenAux_spec (fuel : Nat) : ∀ (n acc : Nat), 0 < n → n ≤ fuel →
    ∃ b, bitLenAux fuel n acc = acc + b + 1 ∧ 2 ^ b ≤ n := by
  induction fuel with
  | zero => intro n acc h0 h1; omega
  | succ fuel ih =>
    intro n acc h0 h1
    have hn : n ≠ 0 := by omega
    simp only [bitLenAux, hn, if_false]
    by_cases h2 : n / 2 = 0
    · refine ⟨0, ?_, by simpa using h0⟩
      rw [h2]
      cases fuel <;> simp [bitLenAux]
    · have h3 : 0 < n / 2 := Nat.pos_of_ne_zero h2
      have h4 : n / 2 ≤ fuel := by omega
      obtain ⟨b, hb, hpow⟩ := ih (n / 2) (acc + 1) h3 h4
      refine ⟨b + 1, by rw [hb]; ring, ?_⟩
      rw [pow_succ]
      omega

theorem bitLen_spec (n : Nat) (h : 0 < n) : ∃ b, bitLen n = b + 1 ∧ 2 ^ b ≤ n := by
  obtain ⟨b, hb, hp⟩ := bitLenAux_spec n n 0 h le_rfl
  exact ⟨b, by simpa [bitLen] using hb, hp⟩

theorem le_roundShift (n k : Nat) : n / 2 ^ k ≤ roundShift n k := by
  unfold roundShift
  simp only
  split <;> omega

theorem pack_ne_zero (neg : Bool) (m : Nat) (e : Int) (hm : m ≠ 0) (b : Bool) :
    pack neg m e ≠ zero b := by
  unfold pack
  simp only
  split_ifs <;> simp_all

theorem roundDyadic_ne_zero (neg : Bool) (n : Nat) (e : Int) (hn : n ≠ 0) (he : -1074 ≤ e)
    (b : Bool) : roundDyadic neg n e ≠ zero b := by
  obtain ⟨k, hk, hp⟩ := bitLen_spec n (Nat.pos_of_ne_zero hn)
  have hm : (if max (e + ((bitLen n : Nat) : Int) - 53) (-1074) ≤ e
      then n * 2 ^ (e - max (e + ((bitLen n : Nat) : Int) - 53) (-1074)).toNat
      else roundShift n (max (e + ((bitLen n : Nat) : Int) - 53) (-1074) - e).toNat) ≠ 0 := by
    split
    · exact Nat.mul_ne_zero hn (by positivity)
    · rename_i hlt
      have h1 : max (e + ((bitLen n : Nat) : Int) - 53) (-1074)
          = e + ((bitLen n : Nat) : Int) - 53 := by
        rcases max_choice (e + ((bitLen n : Nat) : Int) - 53) (-1074) with h | h
        · exact h
        · omega
      rw [h1, hk]
      have h3 : 52 ≤ k := by rw [h1, hk] at hlt; omega
      have h2 : (e + ((k + 1 : Nat) : Int) - 53 - e).toNat = k - 52 := by omega
      rw [h2]
      have h4 : 0 < n / 2 ^ (k - 52) := by
        apply Nat.div_pos _ (by positivity)
        calc 2 ^ (k - 52) ≤ 2 ^ k := Nat.pow_le_pow_right (by norm_num) (by omega)
          _ ≤ n := hp
      have := le_roundShift n (k - 52)
      omega
  unfold roundDyadic
  simp only [hn, if_false]
  exact pack_ne_zero _ _ _ hm b

theorem canonicalF64_exp {m : Nat} {e : Int} (h : canonicalF64 m e) : -1074 ≤ e := by
  rcases h with h | h <;> omega

theorem add_def (x y : F64) : x + y = add x y := rfl

theorem zero_def : (0 : F64) = zero false := rfl

/-- Adding `+0` on the right changes nothing, except that `-0 + 0 = +0`. -/
theorem add_posZero (x : F64) (hx : x ≠ zero true) : x + 0 = x := by
  rw [add_def, zero_def]
  cases x with
  | nan => rfl
  | inf a => rfl
  | zero a => cases a <;> simp_all [add]
  | fin s m e h => rfl

/-- Adding to `+0` on the left changes nothing, except that `0 + -0 = +0`. -/
theorem posZero_add (x : F64) (hx : x ≠ zero true) : 0 + x = x := by
  rw [add_def, zero_def]
  cases x with
  | nan => rfl
  | inf a => rfl
  | zero a => cases a <;> simp_all [add]
  | fin s m e h => rfl

theorem roundSum_ne_negZero (v e : Int) (he : -1074 ≤ e) :
    (if v = 0 then zero false else roundDyadic (decide (v < 0)) v.natAbs e) ≠ zero true := by
  split
  · simp
  · rename_i hv
    exact roundDyadic_ne_zero _ _ _ (fun h0 => hv (Int.natAbs_eq_zero.mp h0)) he true

/-- A sum is `-0` only when its first term is. -/
theorem add_ne_negZero (x y : F64) (hx : x ≠ zero true) : x + y ≠ zero true := by
  rw [add_def]
  cases x with
  | nan => cases y <;> simp [add]
  | inf a => cases y <;> simp [add]; split <;> simp
  | zero a =>
    cases a
    · cases y <;> simp [add]
    · exact absurd rfl hx
  | fin s1 m1 e1 h1 =>
    cases y with
    | nan => simp [add]
    | inf b => simp [add]
    | zero b => simp [add]
    | fin s2 m2 e2 h2 =>
      simp only [add]
      exact roundSum_ne_negZero _ _ (le_min (canonicalF64_exp h1) (canonicalF64_exp h2))

end F64

/-! ### Folds -/

theorem extractTotalPriceFromArray_eq_foldl (items : List Value) (f : String) (acc : F64) :
    items.foldl (fun totalPrice item =>
      match item with
      | .obj itemMap =>
        match itemMap.lookup f with
        | some priceInterface => totalPrice + convertToFloat64 priceInterface
        | none => totalPrice
      | _ => totalPrice) acc
    = (items.filterMap (fieldOf f)).foldl (fun total p => total + convertToFloat64 p) acc := by
  induction items generalizing acc with
  | nil => rfl
  | cons item rest ih =>
    simp only [List.foldl_cons]
    rw [ih]
    cases item <;> simp only [fieldOf, List.filterMap_cons]
    rename_i fields
    cases hl : List.lookup f fields <;> simp [List.foldl_cons]

theorem extractTotalPriceFromArray_eq_sumPrices (items : List Value) (f : String) :
    extractTotalPriceFromArray items f = sumPrices (items.filterMap (fieldOf f)) :=
  extractTotalPriceFromArray_eq_foldl items f 0

theorem sumPrices_foldl_ne_negZero (ps : List Value) (acc : F64) (h : acc ≠ F64.zero true) :
    ps.foldl (fun total p => total + convertToFloat64 p) acc ≠ F64.zero true := by
  induction ps generalizing acc with
  | nil => exact h
  | cons p rest ih => exact ih _ (F64.add_ne_negZero _ _ h)

theorem zero_ne_negZero : (0 : F64) ≠ F64.zero true := by
  rw [F64.zero_def]; simp

theorem sumPrices_ne_negZero (ps : List Value) : sumPrices ps ≠ F64.zero true :=
  sumPrices_foldl_ne_negZero ps 0 zero_ne_negZero

theorem extractTotalPriceFromArray_ne_negZero (items : List Value) (f : String) :
    extractTotalPriceFromArray items f ≠ F64.zero true := by
  rw [extractTotalPriceFromArray_eq_sumPrices]
  exact sumPrices_ne_negZero _

/-! ### The three families are the same functions -/

theorem calculateForecastQuantumPrice_eq :
    calculateForecastQuantumPrice = calculateCurrentQuantumPrice := rfl

theorem calculateHistoricalQuantumPrice_eq :
    calculateHistoricalQuantumPrice = calculateCurrentQuantumPrice := rfl

theorem calculateForecastGrandTotal_eq :
    calculateForecastGrandTotal = calculateCurrentGrandTotal := rfl

theorem calculateHistoricalGrandTotal_eq :
    calculateHistoricalGrandTotal = calculateCurrentGrandTotal := rfl

/-! ### Claims -/

/-- C5: `extractTotalPriceFromArray` (the spec's `sumField`) is the
left-to-right sum, starting at `0.0`, of `convertToFloat64 (e[f])` over exactly
the elements `e` that are mappings containing the key `f`; it is `0.0` for the
empty (or nil) sequence; `[{totalPrice:1.5},{totalPrice:2},{other:9}]` sums to
`3.5`, with the prices held as `float64` or as `json.Number`. -/
theorem C5_extractTotalPriceFromArray_sum (items : List Value) (f : String) :
    extractTotalPriceFromArray items f = sumPrices (items.filterMap (fieldOf f))
    ∧ extractTotalPriceFromArray [] f = 0
    ∧ extractTotalPriceFromArray
        [.obj [("totalPrice", .float64 (F64.ofDecimal false 15 (-1)))],
         .obj [("totalPrice", .float64 (F64.ofInt 2))],
         .obj [("other", .float64 (F64.ofInt 9))]] "totalPrice"
      = F64.ofDecimal false 35 (-1)
    ∧ extractTotalPriceFromArray
        [.obj [("totalPrice", .number "1.5")],
         .obj [("totalPrice", .number "2")],
         .obj [("other", .number "9")]] "totalPrice"
      = F64.ofDecimal false 35 (-1) := by
  refine ⟨extractTotalPriceFromArray_eq_sumPrices items f, rfl, ?_, ?_⟩
  · simp [extractTotalPriceFromArray, List.lookup, convertToFloat64]
    decide
  · simp [extractTotalPriceFromArray, List.lookup, convertToFloat64]
    decide

/-- C4: for every hourlyUsage map `h` and category name `c`, the totalPrice
projection `extractHourlyUsageField c "totalPrice"` is
`extractTotalPriceFromArray (h[c]) "totalPrice"` when `h[c]` is an array, and
`0.0` when `c` is missing, when `h[c]` is not an array, and when the map is
absent (nil); `volume = [{totalPrice: 10.0},{totalPrice: 5.5}]` gives `15.5`. -/
theorem C4_totalPrice_projection (h : List (String × Value)) (c : String) :
    (∀ l, h.lookup c = some (.arr l) →
      extractHourlyUsageField c "totalPrice" (.val (.obj h))
        = .ok (.float64 (extractTotalPriceFromArray l "totalPrice")))
    ∧ (h.lookup c = none →
      extractHourlyUsageField c "totalPrice" (.val (.obj h)) = .ok (.float64 0))
    ∧ (∀ v, h.lookup c = some v → (∀ l, v ≠ .arr l) →
      extractHourlyUsageField c "totalPrice" (.val (.obj h)) = .ok (.float64 0))
    ∧ extractHourlyUsageField c "totalPrice" (.val .null) = .ok (.float64 0)
    ∧ extractHourlyUsageField "volume" "totalPrice"
        (.val (.obj [("volume", .arr [.obj [("totalPrice", .float64 (F64.ofInt 10))],
                                      .obj [("totalPrice", .float64 (F64.ofDecimal false 55 (-1)))]]),
                     ("instance", .arr [.obj [("totalPrice", .float64 (F64.ofInt 100))]])]))
      = .ok (.float64 (F64.ofDecimal false 155 (-1))) := by
  refine ⟨?_, ?_, ?_, ?_, ?_⟩
  · intro l hl
    simp [extractHourlyUsageField, hl, OperationTotalPrice]
  · intro hl
    simp [extractHourlyUsageField, hl, zeroResult, OperationCount]
  · intro v hl hv
    cases v <;> simp_all [extractHourlyUsageField, zeroResult, OperationCount]
  · simp [extractHourlyUsageField, zeroResult, OperationCount]
  · simp [extractHourlyUsageField, OperationTotalPrice, extractTotalPriceFromArray, List.lookup,
      convertToFloat64]
    decide

/-- C4, at `volume = [{totalPrice: 10.0},{totalPrice: 5.5}]`. -/
theorem C4_totalPrice_projection_witness :
    extractHourlyUsageField "volume" "totalPrice"
        (.val (.obj [("volume", .arr [.obj [("totalPrice", .float64 (F64.ofInt 10))],
                                      .obj [("totalPrice", .float64 (F64.ofDecimal false 55 (-1)))]])]))
      = .ok (.float64 (extractTotalPriceFromArray
          [.obj [("totalPrice", .float64 (F64.ofInt 10))],
           .obj [("totalPrice", .float64 (F64.ofDecimal false 55 (-1)))]] "totalPrice")) :=
  (C4_totalPrice_projection _ "volume").1 _ (by simp [List.lookup])

theorem extractPriceFromFilteredArray_eq_foldl (items : List Value)
    (filterField filterValue priceField : String) (acc : F64) :
    items.foldl (fun totalPrice item =>
      match item with
      | .obj itemMap =>
        match itemMap.lookup filterField with
        | some (.str typeStr) =>
          if typeStr = filterValue then
            match itemMap.lookup priceField with
            | some priceInterface => totalPrice + convertToFloat64 priceInterface
            | none => totalPrice
          else totalPrice
        | _ => totalPrice
      | _ => totalPrice) acc
    = (items.filter (fieldIsString filterField filterValue)).foldl (fun totalPrice item =>
      match item with
      | .obj itemMap =>
        match itemMap.lookup priceField with
        | some priceInterface => totalPrice + convertToFloat64 priceInterface
        | none => totalPrice
      | _ => totalPrice) acc := by
  induction items generalizing acc with
  | nil => rfl
  | cons item rest ih =>
    simp only [List.foldl_cons]
    rw [ih]
    cases item with
    | obj fields =>
      cases hl : List.lookup filterField fields with
      | none =>
        have hb : fieldIsString filterField filterValue (.obj fields) = false := by
          simp only [fieldIsString, hl]
        simp only [List.filter_cons, hb, hl]
        rfl
      | some v =>
        cases v with
        | str s =>
          by_cases hs : s = filterValue
          · have hb : fieldIsString filterField filterValue (.obj fields) = true := by
              simp only [fieldIsString, hl, hs, decide_True]
            simp only [List.filter_cons, hb, hl, hs, if_true, List.foldl_cons]
          · have hb : fieldIsString filterField filterValue (.obj fields) = false := by
              simp only [fieldIsString, hl, hs, decide_False]
            simp only [List.filter_cons, hb, hl, hs, if_false]
            rfl
        | _ =>
          have hb : fieldIsString filterField filterValue (.obj fields) = false := by
            simp only [fieldIsString, hl]
          simp only [List.filter_cons, hb, hl]
          rfl
    | _ => rfl

theorem extractPriceFromFilteredArray_eq_filter (items : List Value)
    (filterField filterValue priceField : String) :
    extractPriceFromFilteredArray items filterField filterValue priceField
      = extractTotalPriceFromArray
          (items.filter (fieldIsString filterField filterValue)) priceField :=
  extractPriceFromFilteredArray_eq_foldl items filterField filterValue priceField 0

/-- C6: for every resourcesUsage array `rs` and type name `t`,
`calculateResourcePrice t` is `extractTotalPriceFromArray` (`sumField`) over
the sub-sequence of the entries that are mappings whose `type` field is a
string equal to `t`; `[{type:gateway,totalPrice:3.0},
{type:floatingip,totalPrice:1.2},{type:gateway,totalPrice:2.0}]` gives
`gateway = 5.0` and `floatingip = 1.2`. -/
theorem C6_resource_type_total (rs : List Value) (t : String) :
    calculateResourcePrice t (.val (.arr rs))
      = .ok (.float64 (extractTotalPriceFromArray
          (rs.filter (fieldIsString "type" t)) "totalPrice"))
    ∧ calculateResourcePrice "gateway"
        (.val (.arr [.obj [("type", .str "gateway"), ("totalPrice", .float64 (F64.ofInt 3))],
                     .obj [("type", .str "floatingip"),
                           ("totalPrice", .float64 (F64.ofDecimal false 12 (-1)))],
                     .obj [("type", .str "gateway"), ("totalPrice", .float64 (F64.ofInt 2))]]))
      = .ok (.float64 (F64.ofInt 5))
    ∧ calculateResourcePrice "floatingip"
        (.val (.arr [.obj [("type", .str "gateway"), ("totalPrice", .float64 (F64.ofInt 3))],
                     .obj [("type", .str "floatingip"),
                           ("totalPrice", .float64 (F64.ofDecimal false 12 (-1)))],
                     .obj [("type", .str "gateway"), ("totalPrice", .float64 (F64.ofInt 2))]]))
      = .ok (.float64 (F64.ofDecimal false 12 (-1))) := by
  refine ⟨?_, ?_, ?_⟩
  · simp only [calculateResourcePrice, extractPriceFromFilteredArray_eq_filter]
  · simp [calculateResourcePrice, extractPriceFromFilteredArray, List.lookup, convertToFloat64]
    decide
  · simp [calculateResourcePrice, extractPriceFromFilteredArray, List.lookup, convertToFloat64]
    decide

/-- C7: `calculateResourcesUsagePrice` (total_resources_price) is
`extractTotalPriceFromArray resourcesUsage "totalPrice"` over all the entries,
whatever their `type`, and `0.0` when resourcesUsage is absent (nil) or not an
array; the gateway/floatingip/gateway array with prices `3.0`, `1.2`, `2.0`
gives `6.2`. -/
theorem C7_resources_total :
    (∀ rs : List Value, calculateResourcesUsagePrice (.val (.arr rs))
      = .ok (.float64 (extractTotalPriceFromArray rs "totalPrice")))
    ∧ calculateResourcesUsagePrice (.val .null) = .ok (.float64 0)
    ∧ (∀ d : Dyn, (∀ rs, d ≠ .val (.arr rs)) →
        calculateResourcesUsagePrice d = .ok (.float64 0))
    ∧ calculateResourcesUsagePrice
        (.val (.arr [.obj [("type", .str "gateway"), ("totalPrice", .float64 (F64.ofInt 3))],
                     .obj [("type", .str "floatingip"),
                           ("totalPrice", .float64 (F64.ofDecimal false 12 (-1)))],
                     .obj [("type", .str "gateway"), ("totalPrice", .float64 (F64.ofInt 2))]]))
      = .ok (.float64 (F64.ofDecimal false 62 (-1))) := by
  refine ⟨fun rs => rfl, rfl, ?_, ?_⟩
  · intro d hd
    cases d with
    | val v => cases v <;> simp_all [calculateResourcesUsagePrice]
    | _ => rfl
  · simp [calculateResourcesUsagePrice, extractTotalPriceFromArray, List.lookup, convertToFloat64]
    decide

/-- C7, at a value that is not an array (a string). -/
theorem C7_resources_total_witness :
    calculateResourcesUsagePrice (.val (.str "none")) = .ok (.float64 0) :=
  C7_resources_total.2.2.1 (.val (.str "none")) (by intro rs h; cases h)

theorem extractNestedPriceFromArray_eq_foldl (items : List Value)
    (parentField childField : String) (acc : F64) :
    items.foldl (fun totalPrice item =>
      match item with
      | .obj itemMap =>
        match itemMap.lookup parentField with
        | some (.obj parentMap) =>
          match parentMap.lookup childField with
          | some childInterface => totalPrice + convertToFloat64 childInterface
          | none => totalPrice
        | _ => totalPrice
      | _ => totalPrice) acc
    = (items.filterMap (nestedFieldOf parentField childField)).foldl
        (fun total p => total + convertToFloat64 p) acc := by
  induction items generalizing acc with
  | nil => rfl
  | cons item rest ih =>
    simp only [List.foldl_cons]
    rw [ih]
    cases item <;> simp only [nestedFieldOf, List.filterMap_cons]
    rename_i fields
    split
    · rename_i parentMap hl
      cases hc : List.lookup childField parentMap <;> simp [hl, hc]
    · rename_i hl
      have hf : (match List.lookup parentField fields with
          | some (Value.obj parentMap) => List.lookup childField parentMap
          | _ => none) = none := by
        split
        · rename_i pm hp
          exact absurd hp (hl pm)
        · rfl
      simp [hf]

theorem extractNestedPriceFromArray_eq_sumPrices (items : List Value)
    (parentField childField : String) :
    extractNestedPriceFromArray items parentField childField
      = sumPrices (items.filterMap (nestedFieldOf parentField childField)) :=
  extractNestedPriceFromArray_eq_foldl items parentField childField 0

/-- C8: the savings-plan total is the sum, over the entries of the array under
`savingsPlan`, of `convertToFloat64 (e.totalPrice.value)` for exactly the
entries `e` that are mappings whose `totalPrice` is itself a mapping containing
the key `value`; it is `0.0` when monthlyUsage is absent (nil), when
`savingsPlan` is missing and when `savingsPlan` is not an array. -/
theorem C8_savings_plan_total :
    (∀ (m : List (String × Value)) (sp : List Value),
      m.lookup "savingsPlan" = some (.arr sp) →
      calculateMonthlySavingsPlanPrice (.val (.obj m))
        = .ok (.float64 (sumPrices (sp.filterMap (nestedFieldOf "totalPrice" "value")))))
    ∧ calculateMonthlySavingsPlanPrice (.val .null) = .ok (.float64 0)
    ∧ (∀ m : List (String × Value), m.lookup "savingsPlan" = none →
      calculateMonthlySavingsPlanPrice (.val (.obj m)) = .ok (.float64 0))
    ∧ (∀ (m : List (String × Value)) (v : Value),
      m.lookup "savingsPlan" = some v → (∀ sp, v ≠ .arr sp) →
      calculateMonthlySavingsPlanPrice (.val (.obj m)) = .ok (.float64 0))
    ∧ calculateMonthlySavingsPlanPrice
        (.val (.obj [("savingsPlan", .arr
          [.obj [("totalPrice", .obj [("value", .float64 (F64.ofDecimal false 125 (-1)))])],
           .obj [("totalPrice", .float64 (F64.ofInt 3))],
           .obj [("flavor", .str "b3-8")],
           .str "x",
           .obj [("totalPrice", .obj [("currencyCode", .str "EUR"),
                                      ("value", .float64 (F64.ofDecimal false 25 (-1)))])]])]))
      = .ok (.float64 (F64.ofInt 15)) := by
  refine ⟨?_, rfl, ?_, ?_, ?_⟩
  · intro m sp hl
    simp [calculateMonthlySavingsPlanPrice, hl, extractNestedPriceFromArray_eq_sumPrices]
  · intro m hl
    simp [calculateMonthlySavingsPlanPrice, hl]
  · intro m v hl hv
    cases v <;> simp_all [calculateMonthlySavingsPlanPrice]
  · simp [calculateMonthlySavingsPlanPrice, extractNestedPriceFromArray, List.lookup,
      convertToFloat64]
    decide

/-- C8, at `savingsPlan = [{totalPrice: {value: 12.5}}, {totalPrice: 3}]`:
only the structured price is summed. -/
theorem C8_savings_plan_total_witness :
    calculateMonthlySavingsPlanPrice
        (.val (.obj [("savingsPlan", .arr
          [.obj [("totalPrice", .obj [("value", .float64 (F64.ofDecimal false 125 (-1)))])],
           .obj [("totalPrice", .float64 (F64.ofInt 3))]])]))
      = .ok (.float64 (sumPrices (List.filterMap (nestedFieldOf "totalPrice" "value")
          [.obj [("totalPrice", .obj [("value", .float64 (F64.ofDecimal false 125 (-1)))])],
           .obj [("totalPrice", .float64 (F64.ofInt 3))]]))) :=
  C8_savings_plan_total.1 _ _ (by simp [List.lookup])

/-- C9: for each of the three families, quantumTotal is
`extractTotalPriceFromArray (hourlyUsage.quantum.notebook) "totalPrice"` when
`quantum` is a mapping and `notebook` an array, and `0.0` on each degrade path:
hourlyUsage absent (nil), `quantum` missing, `quantum` not a mapping,
`notebook` missing, `notebook` not an array. -/
theorem C9_quantum_total (quantumPrice : TransformFunc)
    (hmem : quantumPrice ∈ [calculateCurrentQuantumPrice, calculateForecastQuantumPrice,
      calculateHistoricalQuantumPrice]) :
    (∀ (h q : List (String × Value)) (nb : List Value),
      h.lookup "quantum" = some (.obj q) → q.lookup "notebook" = some (.arr nb) →
      quantumPrice (.val (.obj h)) = .ok (.float64 (extractTotalPriceFromArray nb "totalPrice")))
    ∧ quantumPrice (.val .null) = .ok (.float64 0)
    ∧ (∀ h : List (String × Value), h.lookup "quantum" = none →
      quantumPrice (.val (.obj h)) = .ok (.float64 0))
    ∧ (∀ (h : List (String × Value)) (v : Value),
      h.lookup "quantum" = some v → (∀ q, v ≠ .obj q) →
      quantumPrice (.val (.obj h)) = .ok (.float64 0))
    ∧ (∀ h q : List (String × Value),
      h.lookup "quantum" = some (.obj q) → q.lookup "notebook" = none →
      quantumPrice (.val (.obj h)) = .ok (.float64 0))
    ∧ (∀ (h q : List (String × Value)) (v : Value),
      h.lookup "quantum" = some (.obj q) → q.lookup "notebook" = some v →
      (∀ nb, v ≠ .arr nb) →
      quantumPrice (.val (.obj h)) = .ok (.float64 0)) := by
  have hc : quantumPrice = calculateCurrentQuantumPrice := by
    simp only [List.mem_cons, List.mem_singleton, List.not_mem_nil, or_false] at hmem
    rcases hmem with h | h | h
    · exact h
    · rw [h, calculateForecastQuantumPrice_eq]
    · rw [h, calculateHistoricalQuantumPrice_eq]
  subst hc
  refine ⟨?_, rfl, ?_, ?_, ?_, ?_⟩
  · intro h q nb hq hn
    simp [calculateCurrentQuantumPrice, hq, hn]
  · intro h hq
    simp [calculateCurrentQuantumPrice, hq]
  · intro h v hq hv
    cases v <;> simp_all [calculateCurrentQuantumPrice]
  · intro h q hq hn
    simp [calculateCurrentQuantumPrice, hq, hn]
  · intro h q v hq hn hv
    cases v <;> simp_all [calculateCurrentQuantumPrice]

/-- C9, for the current family at
`hourlyUsage = {quantum: {notebook: [{totalPrice: 2.5}]}}`. -/
theorem C9_quantum_total_witness :
    calculateCurrentQuantumPrice
        (.val (.obj [("quantum", .obj [("notebook",
          .arr [.obj [("totalPrice", .float64 (F64.ofDecimal false 25 (-1)))]])])]))
      = .ok (.float64 (extractTotalPriceFromArray
          [.obj [("totalPrice", .float64 (F64.ofDecimal false 25 (-1)))]] "totalPrice")) :=
  (C9_quantum_total calculateCurrentQuantumPrice (by simp)).1 _
    [("notebook", .arr [.obj [("totalPrice", .float64 (F64.ofDecimal false 25 (-1)))]])]
    [.obj [("totalPrice", .float64 (F64.ofDecimal false 25 (-1)))]]
    (by simp [List.lookup]) (by simp [List.lookup])

/-! ### Comprehensive total -/

theorem calculateMonthlySavingsPlanPrice_float (d : Dyn) :
    ∃ x, calculateMonthlySavingsPlanPrice d = .ok (.float64 x) := by
  cases d with
  | val v =>
    cases v <;> try exact ⟨_, rfl⟩
    rename_i m
    simp only [calculateMonthlySavingsPlanPrice]
    split <;> exact ⟨_, rfl⟩
  | _ => exact ⟨_, rfl⟩

/-- C1: for a current, a forecast and a history document, the comprehensive
total is `0.0 + hourlyGrandTotal + savingsPlanTotal + resourcesTotal`, the
three totals being those of the document's hourlyUsage, monthlyUsage and
resourcesUsage, added in that order. -/
theorem C1_comprehensive_total :
    (∀ r : CloudProjectUsageCurrent, ∃ hourly monthly resources : F64,
      calculateCurrentGrandTotal (.val (.obj r.HourlyUsage)) = .ok (.float64 hourly)
      ∧ calculateMonthlySavingsPlanPrice (.val (.obj r.MonthlyUsage)) = .ok (.float64 monthly)
      ∧ calculateResourcesUsagePrice (.val (.arr r.ResourcesUsage)) = .ok (.float64 resources)
      ∧ calculateComprehensiveCurrentTotalPrice (.usageCurrent r)
          = .ok (.float64 (0 + hourly + monthly + resources)))
    ∧ (∀ r : CloudProjectUsageForecast, ∃ hourly monthly resources : F64,
      calculateForecastGrandTotal (.val (.obj r.HourlyUsage)) = .ok (.float64 hourly)
      ∧ calculateMonthlySavingsPlanPrice (.val (.obj r.MonthlyUsage)) = .ok (.float64 monthly)
      ∧ calculateResourcesUsagePrice (.val (.arr r.ResourcesUsage)) = .ok (.float64 resources)
      ∧ calculateComprehensiveTotalPrice (.usageForecast r)
          = .ok (.float64 (0 + hourly + monthly + resources)))
    ∧ (∀ r : CloudProjectUsageHistory, ∃ hourly monthly resources : F64,
      calculateHistoricalGrandTotal (.val (.obj r.HourlyUsage)) = .ok (.float64 hourly)
      ∧ calculateMonthlySavingsPlanPrice (.val (.obj r.MonthlyUsage)) = .ok (.float64 monthly)
      ∧ calculateResourcesUsagePrice (.val (.arr r.ResourcesUsage)) = .ok (.float64 resources)
      ∧ calculateComprehensiveHistoricalTotalPrice (.usageHistory r)
          = .ok (.float64 (0 + hourly + monthly + resources))) := by
  refine ⟨?_, ?_, ?_⟩
  · intro r
    obtain ⟨monthly, hm⟩ := calculateMonthlySavingsPlanPrice_float (.val (.obj r.MonthlyUsage))
    refine ⟨_, monthly, _, rfl, hm, rfl, ?_⟩
    simp only [calculateComprehensiveCurrentTotalPrice, addToTotal, hm]
    rfl
  · intro r
    obtain ⟨monthly, hm⟩ := calculateMonthlySavingsPlanPrice_float (.val (.obj r.MonthlyUsage))
    refine ⟨_, monthly, _, rfl, hm, rfl, ?_⟩
    simp only [calculateComprehensiveTotalPrice, addToTotal, hm]
    rfl
  · intro r
    obtain ⟨monthly, hm⟩ := calculateMonthlySavingsPlanPrice_float (.val (.obj r.MonthlyUsage))
    refine ⟨_, monthly, _, rfl, hm, rfl, ?_⟩
    simp only [calculateComprehensiveHistoricalTotalPrice, addToTotal, hm]
    rfl

/-! ### Hourly grand total -/

/-- The per-category totals `p` of an hourlyUsage map: they are what the
totalPrice projection returns, they are never `-0`, and one turn of the loop of
the grand total adds `p c` to a running total that is not `-0`. -/
theorem categoryTotal_exists (h : List (String × Value)) :
    ∃ p : String → F64,
      (∀ c, extractHourlyUsageField c "totalPrice" (.val (.obj h)) = .ok (.float64 (p c)))
      ∧ (∀ c, p c ≠ F64.zero true)
      ∧ (∀ c (acc : F64), acc ≠ F64.zero true →
          (match h.lookup c with
            | some (.arr resourceList) =>
              acc + extractTotalPriceFromArray resourceList "totalPrice"
            | _ => acc) = acc + p c) := by
  refine ⟨fun c => match h.lookup c with
    | some (.arr l) => extractTotalPriceFromArray l "totalPrice"
    | _ => 0, ?_, ?_, ?_⟩
  · intro c
    cases hl : List.lookup c h with
    | none => simp [extractHourlyUsageField, hl, zeroResult, OperationCount]
    | some v =>
      cases v <;>
        simp [extractHourlyUsageField, hl, zeroResult, OperationCount, OperationTotalPrice]
  · intro c
    cases hl : List.lookup c h with
    | none => simp only [hl]; exact zero_ne_negZero
    | some v =>
      cases v <;> simp only [hl] <;>
        first
          | exact extractTotalPriceFromArray_ne_negZero _ _
          | exact zero_ne_negZero
  · intro c acc hacc
    cases hl : List.lookup c h with
    | none => simp only [hl]; exact (F64.add_posZero acc hacc).symm
    | some v =>
      cases v <;> simp only [hl] <;> exact (F64.add_posZero acc hacc).symm

theorem quantumTotal_exists (h : List (String × Value)) :
    ∃ q : F64,
      calculateCurrentQuantumPrice (.val (.obj h)) = .ok (.float64 q)
      ∧ (∀ acc : F64, acc ≠ F64.zero true →
          (match h.lookup "quantum" with
            | some (.obj quantum) =>
              match quantum.lookup "notebook" with
              | some (.arr notebookList) =>
                acc + extractTotalPriceFromArray notebookList "totalPrice"
              | _ => acc
            | _ => acc) = acc + q) := by
  cases hq : h.lookup "quantum" with
  | none =>
    exact ⟨0, by simp [calculateCurrentQuantumPrice, hq],
      fun acc hacc => (F64.add_posZero acc hacc).symm⟩
  | some v =>
    cases v with
    | obj quantum =>
      cases hn : quantum.lookup "notebook" with
      | none =>
        exact ⟨0, by simp [calculateCurrentQuantumPrice, hq, hn],
          fun acc hacc => by simp only [hn]; exact (F64.add_posZero acc hacc).symm⟩
      | some w =>
        cases w with
        | arr nb =>
          exact ⟨extractTotalPriceFromArray nb "totalPrice",
            by simp [calculateCurrentQuantumPrice, hq, hn],
            fun acc _ => by simp only [hn]⟩
        | _ =>
          exact ⟨0, by simp [calculateCurrentQuantumPrice, hq, hn],
            fun acc hacc => by simp only [hn]; exact (F64.add_posZero acc hacc).symm⟩
    | _ =>
      exact ⟨0, by simp [calculateCurrentQuantumPrice, hq],
        fun acc hacc => (F64.add_posZero acc hacc).symm⟩

theorem foldl_categories (h : List (String × Value)) (p : String → F64)
    (hp : ∀ c (acc : F64), acc ≠ F64.zero true →
      (match h.lookup c with
        | some (.arr resourceList) =>
          acc + extractTotalPriceFromArray resourceList "totalPrice"
        | _ => acc) = acc + p c)
    (cats : List String) (acc : F64) (hacc : acc ≠ F64.zero true) :
    cats.foldl (fun grandTotal resourceType =>
      match h.lookup resourceType with
      | some (.arr resourceList) =>
        grandTotal + extractTotalPriceFromArray resourceList "totalPrice"
      | _ => grandTotal) acc
    = cats.foldl (fun total c => total + p c) acc
    ∧ cats.foldl (fun total c => total + p c) acc ≠ F64.zero true := by
  induction cats generalizing acc with
  | nil => exact ⟨rfl, hacc⟩
  | cons c rest ih =>
    simp only [List.foldl_cons]
    rw [hp c acc hacc]
    exact ih _ (F64.add_ne_negZero _ _ hacc)

theorem calculateCurrentGrandTotal_sum (h : List (String × Value)) :
    ∃ (p : String → F64) (q : F64),
      (∀ c, extractHourlyUsageField c "totalPrice" (.val (.obj h)) = .ok (.float64 (p c)))
      ∧ calculateCurrentQuantumPrice (.val (.obj h)) = .ok (.float64 q)
      ∧ calculateCurrentGrandTotal (.val (.obj h))
          = .ok (.float64 (hourlyResourceTypes.foldl (fun total c => total + p c) 0 + q))
      ∧ calculateCurrentGrandTotal (.val (.obj h))
          = .ok (.float64 (p "volume" + p "instance" + p "storage" + p "snapshot"
              + p "instanceOption" + p "instanceBandwidth"
              + p "managedKubernetesService" + p "rancher" + q)) := by
  obtain ⟨p, hp1, hp2, hp3⟩ := categoryTotal_exists h
  obtain ⟨q, hq1, hq2⟩ := quantumTotal_exists h
  obtain ⟨hf1, hf2⟩ := foldl_categories h p hp3 hourlyResourceTypes 0 zero_ne_negZero
  have hmain : calculateCurrentGrandTotal (.val (.obj h))
      = .ok (.float64 (hourlyResourceTypes.foldl (fun total c => total + p c) 0 + q)) := by
    simp only [calculateCurrentGrandTotal]
    erw [hf1]
    exact congrArg (fun x => Except.ok (Value.float64 x)) (hq2 _ hf2)
  refine ⟨p, q, hp1, hq1, hmain, ?_⟩
  rw [hmain]
  simp only [hourlyResourceTypes, List.foldl_cons, List.foldl_nil]
  rw [F64.posZero_add _ (hp2 "volume")]

/-- C2: for each of the three families and every hourlyUsage map, the hourly
grand total is the sum, over the eight fixed categories in their order, of the
per-category totalPrice projection, plus quantumTotal (both as the left fold
from `0.0` and as the written-out sum);
`{volume: [{totalPrice: 10.0},{totalPrice: 5.5}], instance: [{totalPrice: 100}]}`
gives `115.5`. -/
theorem C2_hourly_grand_total :
    (∀ (h : List (String × Value)) (family : TransformFunc × TransformFunc),
      family ∈ [(calculateCurrentGrandTotal, calculateCurrentQuantumPrice),
                (calculateForecastGrandTotal, calculateForecastQuantumPrice),
                (calculateHistoricalGrandTotal, calculateHistoricalQuantumPrice)] →
      ∃ (p : String → F64) (q : F64),
        (∀ c, extractHourlyUsageField c "totalPrice" (.val (.obj h)) = .ok (.float64 (p c)))
        ∧ family.2 (.val (.obj h)) = .ok (.float64 q)
        ∧ family.1 (.val (.obj h))
            = .ok (.float64 (hourlyResourceTypes.foldl (fun total c => total + p c) 0 + q))
        ∧ family.1 (.val (.obj h))
            = .ok (.float64 (p "volume" + p "instance" + p "storage" + p "snapshot"
                + p "instanceOption" + p "instanceBandwidth"
                + p "managedKubernetesService" + p "rancher" + q)))
    ∧ hourlyResourceTypes = ["volume", "instance", "storage", "snapshot", "instanceOption",
        "instanceBandwidth", "managedKubernetesService", "rancher"]
    ∧ calculateCurrentGrandTotal
        (.val (.obj [("volume", .arr [.obj [("totalPrice", .float64 (F64.ofInt 10))],
                                      .obj [("totalPrice", .float64 (F64.ofDecimal false 55 (-1)))]]),
                     ("instance", .arr [.obj [("totalPrice", .float64 (F64.ofInt 100))]])]))
      = .ok (.float64 (F64.ofDecimal false 1155 (-1))) := by
  refine ⟨?_, rfl, ?_⟩
  · intro h family hmem
    simp only [List.mem_cons, List.mem_singleton, List.not_mem_nil, or_false] at hmem
    rcases hmem with hf | hf | hf <;> subst hf
    · exact calculateCurrentGrandTotal_sum h
    · exact calculateCurrentGrandTotal_sum h
    · exact calculateCurrentGrandTotal_sum h
  · simp [calculateCurrentGrandTotal, hourlyResourceTypes, extractTotalPriceFromArray,
      List.lookup, convertToFloat64]
    decide

/-- C2, for the forecast family at `{volume: [{totalPrice: 10.0}]}`. -/
theorem C2_hourly_grand_total_witness :
    ∃ (p : String → F64) (q : F64),
      (∀ c, extractHourlyUsageField c "totalPrice"
        (.val (.obj [("volume", .arr [.obj [("totalPrice", .float64 (F64.ofInt 10))]])]))
          = .ok (.float64 (p c)))
      ∧ calculateForecastQuantumPrice
        (.val (.obj [("volume", .arr [.obj [("totalPrice", .float64 (F64.ofInt 10))]])]))
          = .ok (.float64 q)
      ∧ calculateForecastGrandTotal
        (.val (.obj [("volume", .arr [.obj [("totalPrice", .float64 (F64.ofInt 10))]])]))
          = .ok (.float64 (hourlyResourceTypes.foldl (fun total c => total + p c) 0 + q))
      ∧ calculateForecastGrandTotal
        (.val (.obj [("volume", .arr [.obj [("totalPrice", .float64 (F64.ofInt 10))]])]))
          = .ok (.float64 (p "volume" + p "instance" + p "storage" + p "snapshot"
              + p "instanceOption" + p "instanceBandwidth"
              + p "managedKubernetesService" + p "rancher" + q)) :=
  C2_hourly_grand_total.1 _ (calculateForecastGrandTotal, calculateForecastQuantumPrice)
    (by simp)

/-! ### Closed category set -/

theorem lookup_filter_ne (h : List (String × Value)) (k c : String) (hc : c ≠ k) :
    List.lookup c (h.filter (fun entry => entry.1 != k)) = List.lookup c h := by
  induction h with
  | nil => rfl
  | cons entry rest ih =>
    obtain ⟨a, b⟩ := entry
    by_cases hak : a = k
    · subst hak
      have hca : (c == a) = false := by simpa using hc
      simp [List.filter_cons, List.lookup_cons, hca, ih]
    · have hak2 : (a != k) = true := by simpa using hak
      simp only [List.filter_cons, hak2, if_true, List.lookup_cons, ih]

theorem lookup_mapSet_ne (h : List (String × Value)) (k c : String) (v : Value) (hc : c ≠ k) :
    List.lookup c (mapSet h k v) = List.lookup c h := by
  have hck : (c == k) = false := by simpa using hc
  simp only [mapSet, List.lookup_cons, hck]
  exact lookup_filter_ne h k c hc

theorem calculateCurrentGrandTotal_congr (h1 h2 : List (String × Value))
    (hag : ∀ c, c ∈ hourlyResourceTypes ∨ c = "quantum" → List.lookup c h1 = List.lookup c h2) :
    calculateCurrentGrandTotal (.val (.obj h1)) = calculateCurrentGrandTotal (.val (.obj h2)) := by
  simp only [calculateCurrentGrandTotal, hourlyResourceTypes, List.foldl_cons, List.foldl_nil]
  rw [hag "volume" (by simp [hourlyResourceTypes]),
    hag "instance" (by simp [hourlyResourceTypes]),
    hag "storage" (by simp [hourlyResourceTypes]),
    hag "snapshot" (by simp [hourlyResourceTypes]),
    hag "instanceOption" (by simp [hourlyResourceTypes]),
    hag "instanceBandwidth" (by simp [hourlyResourceTypes]),
    hag "managedKubernetesService" (by simp [hourlyResourceTypes]),
    hag "rancher" (by simp [hourlyResourceTypes]),
    hag "quantum" (Or.inr rfl)]

/-- C3: closed-set invariant.  For each of the three families, every
hourlyUsage map `h`, every key `k` that is none of the eight fixed category
names and not `quantum`, and every value `v`, the hourly grand total of `h`
with `k` set to `v` is the hourly grand total of `h`. -/
theorem C3_closed_set (h : List (String × Value)) (k : String) (v : Value)
    (hk : k ∉ hourlyResourceTypes) (hq : k ≠ "quantum") (grandTotal : TransformFunc)
    (hmem : grandTotal ∈ [calculateForecastGrandTotal, calculateCurrentGrandTotal,
      calculateHistoricalGrandTotal]) :
    grandTotal (.val (.obj (mapSet h k v))) = grandTotal (.val (.obj h)) := by
  have hg : grandTotal = calculateCurrentGrandTotal := by
    simp only [List.mem_cons, List.mem_singleton, List.not_mem_nil, or_false] at hmem
    rcases hmem with e | e | e
    · rw [e, calculateForecastGrandTotal_eq]
    · exact e
    · rw [e, calculateHistoricalGrandTotal_eq]
  subst hg
  apply calculateCurrentGrandTotal_congr
  intro c hc
  apply lookup_mapSet_ne
  rintro rfl
  rcases hc with hc | hc
  · exact hk hc
  · exact hq hc

/-- C3, at `{volume: [{totalPrice: 10.0}]}` with the unrecognised category
`network` set to `[{totalPrice: 7}]`, for the forecast family. -/
theorem C3_closed_set_witness :
    calculateForecastGrandTotal
        (.val (.obj (mapSet [("volume", .arr [.obj [("totalPrice", .float64 (F64.ofInt 10))]])]
          "network" (.arr [.obj [("totalPrice", .float64 (F64.ofInt 7))]]))))
      = calculateForecastGrandTotal
        (.val (.obj [("volume", .arr [.obj [("totalPrice", .float64 (F64.ofInt 10))]])])) :=
  C3_closed_set _ "network" _ (by simp [hourlyResourceTypes]) (by simp)
    calculateForecastGrandTotal (by simp)

/-- C10: the code at `quantum = {notebook: [{totalPrice: 1}], job:
[{totalPrice: 2}]}`.  The three quantum totals are `1.0`, the price of the
notebook entries alone; the entries under `job` are not added (the sum of all
the entries would be `3.0`). -/
theorem C10_quantum_total_reads_notebook_only :
    calculateCurrentQuantumPrice
        (.val (.obj [("quantum", .obj
          [("notebook", .arr [.obj [("totalPrice", .float64 (F64.ofInt 1))]]),
           ("job", .arr [.obj [("totalPrice", .float64 (F64.ofInt 2))]])])]))
      = .ok (.float64 (F64.ofInt 1))
    ∧ calculateForecastQuantumPrice
        (.val (.obj [("quantum", .obj
          [("notebook", .arr [.obj [("totalPrice", .float64 (F64.ofInt 1))]]),
           ("job", .arr [.obj [("totalPrice", .float64 (F64.ofInt 2))]])])]))
      = .ok (.float64 (F64.ofInt 1))
    ∧ calculateHistoricalQuantumPrice
        (.val (.obj [("quantum", .obj
          [("notebook", .arr [.obj [("totalPrice", .float64 (F64.ofInt 1))]]),
           ("job", .arr [.obj [("totalPrice", .float64 (F64.ofInt 2))]])])]))
      = .ok (.float64 (F64.ofInt 1))
    ∧ extractTotalPriceFromArray
        [.obj [("totalPrice", .float64 (F64.ofInt 1))],
         .obj [("totalPrice", .float64 (F64.ofInt 2))]] "totalPrice" = F64.ofInt 3
    ∧ F64.ofInt 1 ≠ F64.ofInt 3 := by
  refine ⟨?_, ?_, ?_, ?_, by decide⟩
  · simp [calculateCurrentQuantumPrice, extractTotalPriceFromArray, List.lookup,
      convertToFloat64]
    decide
  · simp [calculateForecastQuantumPrice, extractTotalPriceFromArray, List.lookup,
      convertToFloat64]
    decide
  · simp [calculateHistoricalQuantumPrice, extractTotalPriceFromArray, List.lookup,
      convertToFloat64]
    decide
  · simp [extractTotalPriceFromArray, List.lookup, convertToFloat64]
    decide

/-! ### Counts and detail projections -/

/-- C13: for every hourlyUsage map `h` and category `c`, the count projection
`extractHourlyUsageField c "count"` (which is `calculateUsageCount c`) is the
number of elements of the array under `c`, every element counted whatever its
shape, and the `int` zero when `c` is missing, when the value under `c` is not
an array and when hourlyUsage is absent (nil);
`volume = [{totalPrice: 10.0},{totalPrice: 5.5}]` gives `2`. -/
theorem C13_count_projection (h : List (String × Value)) (c : String) :
    calculateUsageCount c = extractHourlyUsageField c "count"
    ∧ (∀ l : List Value, h.lookup c = some (.arr l) →
      extractHourlyUsageField c "count" (.val (.obj h)) = .ok (.int l.length))
    ∧ (h.lookup c = none →
      extractHourlyUsageField c "count" (.val (.obj h)) = .ok (.int 0))
    ∧ (∀ v, h.lookup c = some v → (∀ l, v ≠ .arr l) →
      extractHourlyUsageField c "count" (.val (.obj h)) = .ok (.int 0))
    ∧ extractHourlyUsageField c "count" (.val .null) = .ok (.int 0)
    ∧ extractHourlyUsageField "volume" "count"
        (.val (.obj [("volume", .arr [.obj [("totalPrice", .float64 (F64.ofInt 10))],
                                      .obj [("totalPrice", .float64 (F64.ofDecimal false 55 (-1)))]]),
                     ("instance", .arr [.obj [("totalPrice", .float64 (F64.ofInt 100))]])]))
      = .ok (.int 2) := by
  refine ⟨rfl, ?_, ?_, ?_, ?_, ?_⟩
  · intro l hl
    simp [extractHourlyUsageField, hl, OperationTotalPrice, OperationCount]
  · intro hl
    simp [extractHourlyUsageField, hl, zeroResult, OperationCount]
  · intro v hl hv
    cases v <;> simp_all [extractHourlyUsageField, zeroResult, OperationCount]
  · simp [extractHourlyUsageField, zeroResult, OperationCount]
  · simp [extractHourlyUsageField, OperationTotalPrice, OperationCount, List.lookup]

/-- C13, at `volume = [5, "x", {totalPrice: 1}]`: three elements of three
shapes are three. -/
theorem C13_count_projection_witness :
    extractHourlyUsageField "volume" "count"
        (.val (.obj [("volume", .arr [.float64 (F64.ofInt 5), .str "x",
                                      .obj [("totalPrice", .float64 (F64.ofInt 1))]])]))
      = .ok (.int ([Value.float64 (F64.ofInt 5), .str "x",
                    .obj [("totalPrice", .float64 (F64.ofInt 1))]].length)) :=
  (C13_count_projection _ "volume").2.1 _ (by simp [List.lookup])

/-- C14: the code at `volume = [e, e]` with the same entry
`e = {type: classic, totalPrice: 1}` twice.  The count is `2`, the number of
elements: an entry that occurs several times is counted every time, although
there is one distinct entry, of one volume type. -/
theorem C14_count_is_length_not_distinct :
    extractHourlyUsageField "volume" "count"
        (.val (.obj [("volume", .arr
          [.obj [("type", .str "classic"), ("totalPrice", .float64 (F64.ofInt 1))],
           .obj [("type", .str "classic"), ("totalPrice", .float64 (F64.ofInt 1))]])]))
      = .ok (.int 2)
    ∧ calculateUsageCount "volume"
        (.val (.obj [("volume", .arr
          [.obj [("type", .str "classic"), ("totalPrice", .float64 (F64.ofInt 1))],
           .obj [("type", .str "classic"), ("totalPrice", .float64 (F64.ofInt 1))]])]))
      = .ok (.int 2) := by
  constructor <;>
    simp [calculateUsageCount, extractHourlyUsageField, OperationTotalPrice, OperationCount,
      List.lookup]

/-- C15 fails as stated: a value under a category name that is not an array (a
string, a mapping) is returned as it is, not replaced by null. -/
theorem C15_counterexample :
    extractUsageField "volume" (.val (.obj [("volume", .str "n/a")])) ≠ .ok .null
    ∧ extractUsageField "volume"
        (.val (.obj [("volume", .obj [("notebook", .arr [])])])) ≠ .ok .null := by
  constructor <;> simp [extractUsageField, List.lookup]

/-- C15, amended: for every hourlyUsage map `h` and every name `c` (each of the
eight category names among them), the detail projection `extractUsageField c`
returns the value stored under `c` unchanged, whatever its shape (an array, a
mapping, a number, a string), and returns null when `c` is missing and when
hourlyUsage is absent (nil). -/
theorem C15_detail_projection (h : List (String × Value)) (c : String) :
    (∀ v, h.lookup c = some v → extractUsageField c (.val (.obj h)) = .ok v)
    ∧ (h.lookup c = none → extractUsageField c (.val (.obj h)) = .ok .null)
    ∧ extractUsageField c (.val .null) = .ok .null := by
  refine ⟨?_, ?_, rfl⟩
  · intro v hl
    simp [extractUsageField, hl]
  · intro hl
    simp [extractUsageField, hl]

/-- C15 amended, at `{volume: "n/a"}`: the string is returned. -/
theorem C15_detail_projection_witness :
    extractUsageField "volume" (.val (.obj [("volume", .str "n/a")])) = .ok (.str "n/a") :=
  (C15_detail_projection _ "volume").1 _ (by simp [List.lookup])

/-! ### Absence -/

/-- C17: absence is "category not present".  When hourlyUsage is absent (the
nil interface, or the nil map, which reads as the empty map), every category
detail is null, every category total, the quantum totals and the hourly grand
totals are `0.0` and every count is `0`; when monthlyUsage is absent, the
savings-plan detail is null and the savings-plan total is `0.0`; each result
comes with a nil error. -/
theorem C17_absent_usage (d : Dyn) (hd : d = .val .null ∨ d = .val (.obj [])) :
    (∀ c, extractUsageField c d = .ok .null)
    ∧ (∀ c, extractHourlyUsageField c "totalPrice" d = .ok (.float64 0))
    ∧ (∀ c, extractHourlyUsageField c "count" d = .ok (.int 0))
    ∧ calculateCurrentQuantumPrice d = .ok (.float64 0)
    ∧ calculateForecastQuantumPrice d = .ok (.float64 0)
    ∧ calculateHistoricalQuantumPrice d = .ok (.float64 0)
    ∧ calculateCurrentGrandTotal d = .ok (.float64 0)
    ∧ calculateForecastGrandTotal d = .ok (.float64 0)
    ∧ calculateHistoricalGrandTotal d = .ok (.float64 0)
    ∧ extractUsageField "savingsPlan" d = .ok .null
    ∧ calculateMonthlySavingsPlanPrice d = .ok (.float64 0) := by
  rcases hd with rfl | rfl
  · refine ⟨fun c => rfl, fun c => ?_, fun c => ?_, rfl, rfl, rfl, rfl, rfl, rfl, rfl, rfl⟩
    · simp [extractHourlyUsageField, zeroResult, OperationCount]
    · simp [extractHourlyUsageField, zeroResult, OperationCount]
  · refine ⟨fun c => rfl, fun c => ?_, fun c => ?_, rfl, rfl, rfl, rfl, rfl, rfl, rfl, rfl⟩
    · simp [extractHourlyUsageField, zeroResult, OperationCount, List.lookup]
    · simp [extractHourlyUsageField, zeroResult, OperationCount, List.lookup]

/-- C17, at the nil map. -/
theorem C17_absent_usage_witness :
    calculateCurrentGrandTotal (.val (.obj [])) = .ok (.float64 0) :=
  (C17_absent_usage (.val (.obj [])) (Or.inr rfl)).2.2.2.2.2.2.1

/-! ### Documents with hourly usage only -/

theorem calculateCurrentGrandTotal_ne_negZero (h : List (String × Value)) :
    ∃ x, calculateCurrentGrandTotal (.val (.obj h)) = .ok (.float64 x) ∧ x ≠ F64.zero true := by
  obtain ⟨p, q, _, _, hg, _⟩ := calculateCurrentGrandTotal_sum h
  refine ⟨_, hg, ?_⟩
  apply F64.add_ne_negZero
  clear hg
  have key : ∀ (cats : List String) (acc : F64), acc ≠ F64.zero true →
      cats.foldl (fun total c => total + p c) acc ≠ F64.zero true := by
    intro cats
    induction cats with
    | nil => intro acc hacc; exact hacc
    | cons c rest ih => intro acc hacc; exact ih _ (F64.add_ne_negZero _ _ hacc)
  exact key _ _ zero_ne_negZero

theorem comprehensive_of_hourly_only (x : F64) (hx : x ≠ F64.zero true) :
    (0 : F64) + x + 0 + extractTotalPriceFromArray [] "totalPrice" = x := by
  have h0 : extractTotalPriceFromArray [] "totalPrice" = 0 := rfl
  rw [h0, F64.posZero_add x hx, F64.add_posZero x hx, F64.add_posZero x hx]

/-- C18: for a current, a forecast and a history document whose monthlyUsage
and resourcesUsage are both absent (nil), the comprehensive total is the hourly
grand total of its hourlyUsage;
`hourlyUsage = {volume: [{totalPrice: 10.0},{totalPrice: 5.5}], instance:
[{totalPrice: 100}]}` gives the comprehensive total `115.5`, its grand total. -/
theorem C18_hourly_only_document :
    (∀ r : CloudProjectUsageCurrent, r.MonthlyUsage = [] → r.ResourcesUsage = [] →
      calculateComprehensiveCurrentTotalPrice (.usageCurrent r)
        = calculateCurrentGrandTotal (.val (.obj r.HourlyUsage)))
    ∧ (∀ r : CloudProjectUsageForecast, r.MonthlyUsage = [] → r.ResourcesUsage = [] →
      calculateComprehensiveTotalPrice (.usageForecast r)
        = calculateForecastGrandTotal (.val (.obj r.HourlyUsage)))
    ∧ (∀ r : CloudProjectUsageHistory, r.MonthlyUsage = [] → r.ResourcesUsage = [] →
      calculateComprehensiveHistoricalTotalPrice (.usageHistory r)
        = calculateHistoricalGrandTotal (.val (.obj r.HourlyUsage)))
    ∧ calculateComprehensiveCurrentTotalPrice (.usageCurrent
        { ProjectID := "p", LastUpdate := "",
          HourlyUsage :=
            [("volume", .arr [.obj [("totalPrice", .float64 (F64.ofInt 10))],
                              .obj [("totalPrice", .float64 (F64.ofDecimal false 55 (-1)))]]),
             ("instance", .arr [.obj [("totalPrice", .float64 (F64.ofInt 100))]])],
          MonthlyUsage := [], ResourcesUsage := [], Period := [], UsableCredits := [] })
      = .ok (.float64 (F64.ofDecimal false 1155 (-1))) := by
  refine ⟨?_, ?_, ?_, ?_⟩
  · intro r hm hr
    obtain ⟨x, hg, hx⟩ := calculateCurrentGrandTotal_ne_negZero r.HourlyUsage
    simp only [calculateComprehensiveCurrentTotalPrice, addToTotal, hg, hm, hr,
      calculateMonthlySavingsPlanPrice, calculateResourcesUsagePrice, List.lookup]
    rw [comprehensive_of_hourly_only x hx]
  · intro r hm hr
    obtain ⟨x, hg, hx⟩ := calculateCurrentGrandTotal_ne_negZero r.HourlyUsage
    rw [calculateForecastGrandTotal_eq]
    simp only [calculateComprehensiveTotalPrice, calculateForecastGrandTotal_eq, addToTotal, hg,
      hm, hr, calculateMonthlySavingsPlanPrice, calculateResourcesUsagePrice, List.lookup]
    rw [comprehensive_of_hourly_only x hx]
  · intro r hm hr
    obtain ⟨x, hg, hx⟩ := calculateCurrentGrandTotal_ne_negZero r.HourlyUsage
    rw [calculateHistoricalGrandTotal_eq]
    simp only [calculateComprehensiveHistoricalTotalPrice, calculateHistoricalGrandTotal_eq,
      addToTotal, hg, hm, hr, calculateMonthlySavingsPlanPrice, calculateResourcesUsagePrice,
      List.lookup]
    rw [comprehensive_of_hourly_only x hx]
  · simp [calculateComprehensiveCurrentTotalPrice, addToTotal, calculateCurrentGrandTotal,
      calculateMonthlySavingsPlanPrice, calculateResourcesUsagePrice, hourlyResourceTypes,
      extractTotalPriceFromArray, List.lookup, convertToFloat64]
    decide

/-- C18, for the forecast document with
`hourlyUsage = {volume: [{totalPrice: 10.0}]}` and nothing else. -/
theorem C18_hourly_only_document_witness :
    calculateComprehensiveTotalPrice (.usageForecast
        { ProjectID := "p", LastUpdate := "",
          HourlyUsage := [("volume", .arr [.obj [("totalPrice", .float64 (F64.ofInt 10))]])],
          MonthlyUsage := [], ResourcesUsage := [], Period := [], UsableCredits := [] })
      = calculateForecastGrandTotal
        (.val (.obj [("volume", .arr [.obj [("totalPrice", .float64 (F64.ofInt 10))]])])) :=
  C18_hourly_only_document.2.1 _ rfl rfl

/-! ### No projection reports an error -/

theorem mem_extractors_cases (P : TransformFunc → Prop) (extractor : TransformFunc)
    (hmem : extractor ∈ [extractFirstFlavorName, extractFlatFeeTotalPrice, extractFlatFeeCurrency,
      extractOverQuotaQuantity, extractOverQuotaUnitPrice, extractFlavorTotalPrice,
      extractFlavorSavedAmount, extractUsageCoverage, extractUsageUtilization,
      extractConsumptionSize, extractCumulPlanSize, extractSubscriptionID,
      extractSubscriptionSize, extractSubscriptionBegin, extractSubscriptionEnd,
      extractPlanName])
    (hP : P extractFirstFlavorName ∧ P extractFlatFeeTotalPrice ∧ P extractFlatFeeCurrency
      ∧ P extractOverQuotaQuantity ∧ P extractOverQuotaUnitPrice ∧ P extractFlavorTotalPrice
      ∧ P extractFlavorSavedAmount ∧ P extractUsageCoverage ∧ P extractUsageUtilization
      ∧ P extractConsumptionSize ∧ P extractCumulPlanSize ∧ P extractSubscriptionID
      ∧ P extractSubscriptionSize ∧ P extractSubscriptionBegin ∧ P extractSubscriptionEnd
      ∧ P extractPlanName) : P extractor := by
  simp only [List.mem_cons, List.mem_singleton, List.not_mem_nil, or_false] at hmem
  obtain ⟨h1, h2, h3, h4, h5, h6, h7, h8, h9, h10, h11, h12, h13, h14, h15, h16⟩ := hP
  rcases hmem with h | h | h | h | h | h | h | h | h | h | h | h | h | h | h | h <;> subst h <;> assumption

theorem extractUsageField_ok (name : String) (d : Dyn) :
    ∃ v, extractUsageField name d = .ok v := by
  cases d with
  | val v =>
    cases v <;> try exact ⟨_, rfl⟩
    rename_i h
    cases hl : List.lookup name h <;> simp [extractUsageField, hl]
  | _ => exact ⟨_, rfl⟩

theorem extractHourlyUsageField_ok (c op : String) (d : Dyn) :
    ∃ v, extractHourlyUsageField c op d = .ok v := by
  cases d with
  | val v =>
    cases v <;> try exact ⟨_, rfl⟩
    rename_i h
    cases hl : List.lookup c h with
    | none => simp [extractHourlyUsageField, hl]
    | some w =>
      cases w <;> simp only [extractHourlyUsageField, hl] <;> try exact ⟨_, rfl⟩
      split_ifs <;> exact ⟨_, rfl⟩
  | _ => exact ⟨_, rfl⟩

theorem calculateResourcePrice_float (t : String) (d : Dyn) :
    ∃ x, calculateResourcePrice t d = .ok (.float64 x) := by
  cases d with
  | val v => cases v <;> exact ⟨_, rfl⟩
  | _ => exact ⟨_, rfl⟩

theorem calculateResourcesUsagePrice_float (d : Dyn) :
    ∃ x, calculateResourcesUsagePrice d = .ok (.float64 x) := by
  cases d with
  | val v => cases v <;> exact ⟨_, rfl⟩
  | _ => exact ⟨_, rfl⟩

theorem calculateCurrentQuantumPrice_float (d : Dyn) :
    ∃ x, calculateCurrentQuantumPrice d = .ok (.float64 x) := by
  cases d with
  | val v =>
    cases v <;> try exact ⟨_, rfl⟩
    rename_i h
    obtain ⟨q, hq, _⟩ := quantumTotal_exists h
    exact ⟨q, hq⟩
  | _ => exact ⟨_, rfl⟩

theorem calculateCurrentGrandTotal_float (d : Dyn) :
    ∃ x, calculateCurrentGrandTotal d = .ok (.float64 x) := by
  cases d with
  | val v => cases v <;> exact ⟨_, rfl⟩
  | _ => exact ⟨_, rfl⟩

theorem calculateComprehensiveCurrentTotalPrice_float (d : Dyn) :
    ∃ x, calculateComprehensiveCurrentTotalPrice d = .ok (.float64 x) := by
  cases d with
  | val v => cases v <;> exact ⟨_, rfl⟩
  | _ => exact ⟨_, rfl⟩

theorem calculateComprehensiveTotalPrice_float (d : Dyn) :
    ∃ x, calculateComprehensiveTotalPrice d = .ok (.float64 x) := by
  cases d with
  | val v => cases v <;> exact ⟨_, rfl⟩
  | _ => exact ⟨_, rfl⟩

theorem calculateComprehensiveHistoricalTotalPrice_float (d : Dyn) :
    ∃ x, calculateComprehensiveHistoricalTotalPrice d = .ok (.float64 x) := by
  cases d with
  | val v => cases v <;> exact ⟨_, rfl⟩
  | _ => exact ⟨_, rfl⟩

theorem extractor_ok (extractor : TransformFunc)
    (hmem : extractor ∈ [extractFirstFlavorName, extractFlatFeeTotalPrice, extractFlatFeeCurrency,
      extractOverQuotaQuantity, extractOverQuotaUnitPrice, extractFlavorTotalPrice,
      extractFlavorSavedAmount, extractUsageCoverage, extractUsageUtilization,
      extractConsumptionSize, extractCumulPlanSize, extractSubscriptionID,
      extractSubscriptionSize, extractSubscriptionBegin, extractSubscriptionEnd,
      extractPlanName]) (d : Dyn) :
    ∃ v, extractor d = .ok v := by
  refine mem_extractors_cases (fun extractor => ∃ v, extractor d = .ok v) extractor hmem ?_
  refine ⟨?_, ?_, ?_, ?_, ?_, ?_, ?_, ?_, ?_, ?_, ?_, ?_, ?_, ?_, ?_, ?_⟩ <;>
    (cases d with
     | val v => cases v <;> exact ⟨_, rfl⟩
     | flavors fs =>
       cases fs with
       | nil => exact ⟨_, rfl⟩
       | cons f rest =>
         first
           | exact ⟨_, rfl⟩
           | (cases hp : f.Periods <;>
               simp [extractUsageCoverage, extractUsageUtilization, extractConsumptionSize,
                 extractCumulPlanSize, hp])
           | (cases hs : f.Subscriptions <;>
               simp [extractSubscriptionID, extractSubscriptionSize, extractSubscriptionBegin,
                 extractSubscriptionEnd, hs])
           | (cases hd : f.Fees.FlatFee.Details <;> simp [extractPlanName, hd])
     | _ => exact ⟨_, rfl⟩)

/-! ### First-flavor extractors -/

/-- C19: for an empty flavors sequence (the empty or the nil slice) and for an
absent one (nil), each of the sixteen flavor extractors returns null with a nil
error. -/
theorem C19_empty_flavors (extractor : TransformFunc)
    (hmem : extractor ∈ [extractFirstFlavorName, extractFlatFeeTotalPrice, extractFlatFeeCurrency,
      extractOverQuotaQuantity, extractOverQuotaUnitPrice, extractFlavorTotalPrice,
      extractFlavorSavedAmount, extractUsageCoverage, extractUsageUtilization,
      extractConsumptionSize, extractCumulPlanSize, extractSubscriptionID,
      extractSubscriptionSize, extractSubscriptionBegin, extractSubscriptionEnd,
      extractPlanName]) :
    extractor (.flavors []) = .ok .null ∧ extractor (.val .null) = .ok .null := by
  simp only [List.mem_cons, List.mem_singleton, List.not_mem_nil, or_false] at hmem
  rcases hmem with h | h | h | h | h | h | h | h | h | h | h | h | h | h | h | h <;>
    subst h <;> exact ⟨rfl, rfl⟩

/-- C19, for the plan name. -/
theorem C19_empty_flavors_witness :
    extractPlanName (.flavors []) = .ok .null ∧ extractPlanName (.val .null) = .ok .null :=
  C19_empty_flavors extractPlanName (by simp)

/-- C20: first-element projection.  For every non-empty flavors sequence
`f :: rest`, each flavor extractor returns the corresponding field of the first
flavor `f`, and of the first element of `f.Periods`, `f.Subscriptions` and
`f.Fees.FlatFee.Details` when these are not empty; so the result of every
extractor is unchanged when the elements after the first, in flavors, periods,
subscriptions or details, are replaced by any others (appended, removed or
altered). -/
theorem C20_first_element (f : FlavorUsage) (rest : List FlavorUsage) :
    extractFirstFlavorName (.flavors (f :: rest)) = .ok (.str f.Flavor)
    ∧ extractFlatFeeTotalPrice (.flavors (f :: rest))
        = .ok (.float64 f.Fees.FlatFee.TotalPrice.Value)
    ∧ extractFlatFeeCurrency (.flavors (f :: rest))
        = .ok (.str f.Fees.FlatFee.TotalPrice.CurrencyCode)
    ∧ extractOverQuotaQuantity (.flavors (f :: rest)) = .ok (.int f.Fees.OverQuota.Quantity)
    ∧ extractOverQuotaUnitPrice (.flavors (f :: rest))
        = .ok (.float64 f.Fees.OverQuota.UnitPrice.Value)
    ∧ extractFlavorTotalPrice (.flavors (f :: rest)) = .ok (.float64 f.Fees.TotalPrice.Value)
    ∧ extractFlavorSavedAmount (.flavors (f :: rest)) = .ok (.float64 f.Fees.SavedAmount.Value)
    ∧ (∀ p ps, f.Periods = p :: ps →
        extractUsageCoverage (.flavors (f :: rest)) = .ok (.str p.Coverage)
        ∧ extractUsageUtilization (.flavors (f :: rest)) = .ok (.str p.Utilization)
        ∧ extractConsumptionSize (.flavors (f :: rest)) = .ok (.int p.ConsumptionSize)
        ∧ extractCumulPlanSize (.flavors (f :: rest)) = .ok (.int p.CumulPlanSize))
    ∧ (∀ s ss, f.Subscriptions = s :: ss →
        extractSubscriptionID (.flavors (f :: rest)) = .ok (.str s.ID)
        ∧ extractSubscriptionSize (.flavors (f :: rest)) = .ok (.int s.Size)
        ∧ extractSubscriptionBegin (.flavors (f :: rest)) = .ok (.timePtr s.Begin)
        ∧ extractSubscriptionEnd (.flavors (f :: rest)) = .ok (.timePtr s.End))
    ∧ (∀ dt dts, f.Fees.FlatFee.Details = dt :: dts →
        extractPlanName (.flavors (f :: rest)) = .ok (.str dt.PlanName))
    ∧ (∀ extractor ∈ [extractFirstFlavorName, extractFlatFeeTotalPrice, extractFlatFeeCurrency,
        extractOverQuotaQuantity, extractOverQuotaUnitPrice, extractFlavorTotalPrice,
        extractFlavorSavedAmount, extractUsageCoverage, extractUsageUtilization,
        extractConsumptionSize, extractCumulPlanSize, extractSubscriptionID,
        extractSubscriptionSize, extractSubscriptionBegin, extractSubscriptionEnd,
        extractPlanName],
        (∀ rest2, extractor (.flavors (f :: rest2)) = extractor (.flavors (f :: rest)))
        ∧ (∀ p ps ps2,
            extractor (.flavors ({ f with Periods := p :: ps2 } :: rest))
              = extractor (.flavors ({ f with Periods := p :: ps } :: rest)))
        ∧ (∀ s ss ss2,
            extractor (.flavors ({ f with Subscriptions := s :: ss2 } :: rest))
              = extractor (.flavors ({ f with Subscriptions := s :: ss } :: rest)))
        ∧ (∀ dt dts dts2,
            extractor (.flavors ({ f with Fees := { f.Fees with FlatFee :=
                { f.Fees.FlatFee with Details := dt :: dts2 } } } :: rest))
              = extractor (.flavors ({ f with Fees := { f.Fees with FlatFee :=
                { f.Fees.FlatFee with Details := dt :: dts } } } :: rest)))) := by
  refine ⟨rfl, rfl, rfl, rfl, rfl, rfl, rfl, ?_, ?_, ?_, ?_⟩
  · intro p ps hp
    simp [extractUsageCoverage, extractUsageUtilization, extractConsumptionSize,
      extractCumulPlanSize, hp]
  · intro s ss hs
    simp [extractSubscriptionID, extractSubscriptionSize, extractSubscriptionBegin,
      extractSubscriptionEnd, hs]
  · intro dt dts hd
    simp [extractPlanName, hd]
  · intro extractor hmem
    refine mem_extractors_cases
      (fun extractor => (∀ rest2, extractor (.flavors (f :: rest2))
          = extractor (.flavors (f :: rest)))
        ∧ (∀ p ps ps2,
            extractor (.flavors ({ f with Periods := p :: ps2 } :: rest))
              = extractor (.flavors ({ f with Periods := p :: ps } :: rest)))
        ∧ (∀ s ss ss2,
            extractor (.flavors ({ f with Subscriptions := s :: ss2 } :: rest))
              = extractor (.flavors ({ f with Subscriptions := s :: ss } :: rest)))
        ∧ (∀ dt dts dts2,
            extractor (.flavors ({ f with Fees := { f.Fees with FlatFee :=
                { f.Fees.FlatFee with Details := dt :: dts2 } } } :: rest))
              = extractor (.flavors ({ f with Fees := { f.Fees with FlatFee :=
                { f.Fees.FlatFee with Details := dt :: dts } } } :: rest))))
      extractor hmem ?_
    refine ⟨?_, ?_, ?_, ?_, ?_, ?_, ?_, ?_, ?_, ?_, ?_, ?_, ?_, ?_, ?_, ?_⟩ <;>
      exact ⟨fun _ => rfl, fun _ _ _ => rfl, fun _ _ _ => rfl, fun _ _ _ => rfl⟩

/-- C20 at the sample flavor: its first period gives the coverage `80.5`, the
utilization `60.0` and the sizes 4 and 5, whatever follows the first flavor. -/
theorem C20_first_element_witness :
    sampleFlavor.Periods = samplePeriod :: sampleFlavor.Periods.tail
    ∧ extractUsageCoverage (.flavors [sampleFlavor, sampleFlavor]) = .ok (.str "80.5")
    ∧ extractUsageUtilization (.flavors [sampleFlavor, sampleFlavor]) = .ok (.str "60.0")
    ∧ extractConsumptionSize (.flavors [sampleFlavor, sampleFlavor]) = .ok (.int 4)
    ∧ extractCumulPlanSize (.flavors [sampleFlavor, sampleFlavor]) = .ok (.int 5) :=
  ⟨rfl, (C20_first_element sampleFlavor [sampleFlavor]).2.2.2.2.2.2.2.1 _ _ rfl⟩

/-! ### Texts that `ParseFloat` rejects -/

theorem toList_mk (cs : List Char) : (String.mk cs).toList = cs := rfl

theorem hexMarker_of_ne (c : Char) (cs : List Char) (h : c ≠ '0') :
    hexMarker (c :: cs) = false := by
  unfold hexMarker
  split
  · rename_i heq
    simp only [List.cons.injEq] at heq
    exact absurd heq.1 h
  · rfl

theorem parseFloat_reject_first (c : Char) (cs : List Char)
    (hc : c ∉ ['+', '-', '.', '_', 'i', 'I', 'n', 'N']) (hd : decDigit c = none) :
    parseFloat (String.mk (c :: cs)) = none := by
  simp only [List.mem_cons, List.mem_singleton, List.not_mem_nil, or_false, not_or] at hc
  obtain ⟨h1, h2, h3, h4, h5, h6, h7, h8⟩ := hc
  have h0 : c ≠ '0' := by
    intro h; subst h; simp [decDigit] at hd
  have hsp : special (c :: cs) = none := by
    simp [special, h1, h2, h5, h6, h7, h8]
  have hhex : hexMarker (c :: cs) = false := hexMarker_of_ne c cs h0
  have hm : readMantissa false (c :: cs) ⟨0, 0, 0, false, false, false⟩
      = (⟨0, 0, 0, false, false, false⟩, c :: cs) := by
    simp [readMantissa, h3, h4, hd]
  simp [parseFloat, toList_mk, hsp, readNumber, h1, h2, hhex, hm]


/-! ### Decimal texts are read digit by digit -/

theorem decDigit_digitChar : ∀ d : Fin 10, decDigit (digitChar d) = some d.val := by decide

theorem digitChar_ne_special : ∀ d : Fin 10,
    digitChar d ≠ '_' ∧ digitChar d ≠ '.' ∧ digitChar d ≠ '+' ∧ digitChar d ≠ '-'
    ∧ digitChar d ≠ 'i' ∧ digitChar d ≠ 'I' ∧ digitChar d ≠ 'n' ∧ digitChar d ≠ 'N'
    ∧ digitChar d ≠ 'x' ∧ digitChar d ≠ 'X' := by decide

theorem digitChar_eq_zero : ∀ d : Fin 10, digitChar d = '0' ↔ d.val = 0 := by decide

theorem readMantissa_digit (d : Fin 10) (cs : List Char) (st : Mantissa) :
    readMantissa false (digitChar d :: cs) st = readMantissa false cs (feedDigit st d) := by
  obtain ⟨h1, h2, _⟩ := digitChar_ne_special d
  rw [readMantissa]
  simp only [h1, h2, if_false, decDigit_digitChar, digitChar_eq_zero, feedDigit]
  split <;> rfl

theorem readMantissa_digits (ds : List (Fin 10)) (cs : List Char) (st : Mantissa) :
    readMantissa false (ds.map digitChar ++ cs) st
      = readMantissa false cs (ds.foldl feedDigit st) := by
  induction ds generalizing st with
  | nil => rfl
  | cons d rest ih =>
    simp only [List.map_cons, List.cons_append, List.foldl_cons]
    rw [readMantissa_digit, ih]

theorem feedDigit_spec (st : Mantissa) (d : Fin 10) (h : st.nd = 0 → st.digits = 0) :
    (feedDigit st d).digits = st.digits * 10 + d.val
    ∧ (feedDigit st d).dp - (feedDigit st d).nd = st.dp - st.nd - 1
    ∧ (feedDigit st d).sawdot = st.sawdot
    ∧ (feedDigit st d).underscores = st.underscores
    ∧ (feedDigit st d).sawdigits = true
    ∧ ((feedDigit st d).nd = 0 → (feedDigit st d).digits = 0) := by
  unfold feedDigit
  split
  · rename_i hc
    have h0 := h hc.2
    refine ⟨?_, ?_, rfl, rfl, rfl, fun _ => h0⟩
    · simp [h0, hc.1]
    · simp only; omega
  · refine ⟨rfl, ?_, rfl, rfl, rfl, ?_⟩
    · simp only [Nat.cast_add, Nat.cast_one]; omega
    · intro hz; simp at hz

theorem feedDigits_spec (ds : List (Fin 10)) (st : Mantissa)
    (h : st.nd = 0 → st.digits = 0) :
    (ds.foldl feedDigit st).digits = ds.foldl (fun n d => n * 10 + d.val) st.digits
    ∧ (ds.foldl feedDigit st).dp - (ds.foldl feedDigit st).nd = st.dp - st.nd - ds.length
    ∧ (ds.foldl feedDigit st).sawdot = st.sawdot
    ∧ (ds.foldl feedDigit st).underscores = st.underscores
    ∧ (ds ≠ [] → (ds.foldl feedDigit st).sawdigits = true)
    ∧ ((ds.foldl feedDigit st).nd = 0 → (ds.foldl feedDigit st).digits = 0) := by
  induction ds generalizing st with
  | nil => exact ⟨rfl, by simp, rfl, rfl, fun hne => absurd rfl hne, h⟩
  | cons d rest ih =>
    obtain ⟨f1, f2, f3, f4, f5, f6⟩ := feedDigit_spec st d h
    obtain ⟨g1, g2, g3, g4, g5, g6⟩ := ih (feedDigit st d) f6
    simp only [List.foldl_cons, List.length_cons]
    refine ⟨by rw [g1, f1], ?_, by rw [g3, f3], by rw [g4, f4], fun _ => ?_, g6⟩
    · rw [g2, f2]; push_cast; omega
    · cases rest with
      | nil => exact f5
      | cons e r => exact g5 (by simp)

theorem hexMarker_second (c x : Char) (r : List Char) (hx : x ≠ 'x') (hX : x ≠ 'X') :
    hexMarker (c :: x :: r) = false := by
  unfold hexMarker
  split
  · rename_i heq
    simp only [List.cons.injEq] at heq
    simp [← heq.2.1, hx, hX]
  · rfl

theorem hexMarker_short (c : Char) : hexMarker [c] = false := by
  unfold hexMarker
  split
  · rename_i heq
    simp at heq
  · rfl

/-- The digits and the fraction of a decimal text, as the bytes after the sign. -/
theorem hexMarker_decimal (ip fp : List (Fin 10)) :
    hexMarker (ip.map digitChar ++ (if fp.isEmpty then [] else '.' :: fp.map digitChar))
      = false := by
  cases ip with
  | nil =>
    cases fp with
    | nil => rfl
    | cons e fr => exact hexMarker_of_ne '.' _ (by decide)
  | cons d0 ip1 =>
    cases ip1 with
    | nil =>
      cases fp with
      | nil => exact hexMarker_short _
      | cons e fr => exact hexMarker_second _ '.' _ (by decide) (by decide)
    | cons d1 ip2 =>
      obtain ⟨_, _, _, _, _, _, _, _, hx, hX⟩ := digitChar_ne_special d1
      exact hexMarker_second _ _ _ hx hX

theorem readMantissa_decimal (ip fp : List (Fin 10)) :
    ∃ st, readMantissa false
        (ip.map digitChar ++ (if fp.isEmpty then [] else '.' :: fp.map digitChar))
        ⟨0, 0, 0, false, false, false⟩ = (st, [])
      ∧ st.digits = digitsValue (ip ++ fp)
      ∧ (if st.sawdot then st.dp else (st.nd : Int)) - st.nd = -(fp.length : Int)
      ∧ st.underscores = false
      ∧ (ip ≠ [] → st.sawdigits = true) := by
  obtain ⟨a1, a2, a3, a4, a5, a6⟩ :=
    feedDigits_spec ip ⟨0, 0, 0, false, false, false⟩ (fun _ => rfl)
  rw [readMantissa_digits]
  cases fp with
  | nil =>
    refine ⟨_, rfl, ?_, ?_, a4, a5⟩
    · simpa [digitsValue] using a1
    · simp only [a3]; simp
  | cons e fr =>
    have hdot : readMantissa false ('.' :: (e :: fr).map digitChar)
        (ip.foldl feedDigit ⟨0, 0, 0, false, false, false⟩)
        = readMantissa false ((e :: fr).map digitChar ++ [])
          { ip.foldl feedDigit ⟨0, 0, 0, false, false, false⟩ with
            sawdot := true
            dp := (ip.foldl feedDigit ⟨0, 0, 0, false, false, false⟩).nd } := by
      rw [readMantissa]
      simp [a3]
    obtain ⟨b1, b2, b3, b4, b5, b6⟩ :=
      feedDigits_spec (e :: fr)
        { ip.foldl feedDigit ⟨0, 0, 0, false, false, false⟩ with
          sawdot := true
          dp := (ip.foldl feedDigit ⟨0, 0, 0, false, false, false⟩).nd } a6
    simp only [List.isEmpty_cons, Bool.false_eq_true, if_false]
    rw [hdot, readMantissa_digits]
    refine ⟨_, rfl, ?_, ?_, ?_, ?_⟩
    · rw [b1]
      simp only [digitsValue, List.foldl_append]
      rw [a1]
    · rw [b3]
      simp only [if_true]
      rw [b2]
      simp
    · rw [b4]; exact a4
    · intro _
      exact b5 (by simp)

theorem digitChar_not_letter : ∀ d : Fin 10,
    ¬ ('A' ≤ digitChar d ∧ digitChar d ≤ 'Z') := by decide

theorem infinityLen_digit (d : Fin 10) (cs : List Char) :
    infinityLen (digitChar d :: cs) = none := by
  obtain ⟨_, _, _, _, h5, _⟩ := digitChar_ne_special d
  have h2 : commonLenIgnoreCase (digitChar d :: cs) "infinity".toList = 0 := by
    show commonLenIgnoreCase (digitChar d :: cs) ('i' :: "nfinity".toList) = 0
    simp [commonLenIgnoreCase, digitChar_not_letter, h5]
  unfold infinityLen
  simp only [h2]
  rfl

theorem special_digit (d : Fin 10) (cs : List Char) : special (digitChar d :: cs) = none := by
  obtain ⟨_, _, h3, h4, h5, h6, h7, h8, _⟩ := digitChar_ne_special d
  simp [special, h3, h4, h5, h6, h7, h8]

theorem special_minus_digit (d : Fin 10) (cs : List Char) :
    special ('-' :: digitChar d :: cs) = none := by
  simp [special, infinityLen_digit]

theorem parseFloat_body (neg : Bool) (d0 : Fin 10) (rest : List Char) (st : Mantissa)
    (hhex : hexMarker (digitChar d0 :: rest) = false)
    (hr : readMantissa false (digitChar d0 :: rest) ⟨0, 0, 0, false, false, false⟩ = (st, []))
    (hsaw : st.sawdigits = true) (hund : st.underscores = false) :
    parseFloat (String.mk ((if neg then ['-'] else []) ++ digitChar d0 :: rest))
      = rangeChecked (F64.ofDecimal neg st.digits
          ((if st.sawdot then st.dp else (st.nd : Int)) - st.nd + 0)) := by
  obtain ⟨_, _, h3, h4, _⟩ := digitChar_ne_special d0
  cases neg with
  | true =>
    simp [parseFloat, toList_mk, special_minus_digit, readNumber, hhex, hr, hsaw, readExponent,
      hund, convertMantissa]
  | false =>
    simp [parseFloat, toList_mk, special_digit, readNumber, h3, h4, hhex, hr, hsaw,
      readExponent, hund, convertMantissa]

/-- The text of a decimal number is read as the binary64 nearest to the number,
unless that is an infinity. -/
theorem parseFloat_decimalText (neg : Bool) (ip fp : List (Fin 10)) (hip : ip ≠ []) :
    parseFloat (decimalText neg ip fp)
      = rangeChecked (F64.ofDecimal neg (digitsValue (ip ++ fp)) (-(fp.length : Int))) := by
  obtain ⟨st, hr, hdig, hscale, hund, hsaw⟩ := readMantissa_decimal ip fp
  have hsaw2 := hsaw hip
  have hhex := hexMarker_decimal ip fp
  obtain ⟨d0, ip1, rfl⟩ : ∃ d0 ip1, ip = d0 :: ip1 := by
    cases ip with
    | nil => exact absurd rfl hip
    | cons d0 ip1 => exact ⟨d0, ip1, rfl⟩
  simp only [List.map_cons, List.cons_append] at hr hhex
  have := parseFloat_body neg d0 _ st hhex hr hsaw2 hund
  rw [hdig, hscale, add_zero] at this
  rw [← this]
  simp only [decimalText, List.map_cons, List.append_assoc, List.cons_append]


/-! ### The decimal digits of an integer -/

theorem natDigitsAux_value (fuel : Nat) : ∀ (n : Nat) (acc : List (Fin 10)), n < fuel →
    (natDigitsAux fuel n acc).foldl (fun m d => m * 10 + d.val) 0
      = acc.foldl (fun m d => m * 10 + d.val) n := by
  induction fuel with
  | zero => intro n acc h; omega
  | succ fuel ih =>
    intro n acc h
    unfold natDigitsAux
    split
    · simp
    · rename_i hn
      rw [ih (n / 10) _ (by omega)]
      simp only [List.foldl_cons]
      congr 1
      omega

theorem natDigitsAux_ne_nil (fuel : Nat) : ∀ (n : Nat) (acc : List (Fin 10)),
    acc ≠ [] ∨ 0 < fuel → natDigitsAux fuel n acc ≠ [] := by
  induction fuel with
  | zero =>
    intro n acc h
    rcases h with h | h
    · exact h
    · omega
  | succ fuel ih =>
    intro n acc _
    unfold natDigitsAux
    split
    · simp
    · exact ih _ _ (Or.inl (by simp))

theorem digitsValue_natDigits (n : Nat) : digitsValue (natDigits n) = n := by
  unfold digitsValue natDigits
  rw [natDigitsAux_value (n + 1) n [] (by omega)]
  rfl

theorem natDigits_ne_nil (n : Nat) : natDigits n ≠ [] :=
  natDigitsAux_ne_nil (n + 1) n [] (Or.inr (by omega))

namespace F64

theorem bitLenAux_upper (fuel : Nat) : ∀ (n acc : Nat), n ≤ fuel →
    ∃ b, bitLenAux fuel n acc = acc + b ∧ n < 2 ^ b := by
  induction fuel with
  | zero =>
    intro n acc h
    exact ⟨0, rfl, by omega⟩
  | succ fuel ih =>
    intro n acc h
    by_cases hn : n = 0
    · subst hn
      exact ⟨0, by simp [bitLenAux], by norm_num⟩
    · simp only [bitLenAux, hn, if_false]
      obtain ⟨b, hb, hp⟩ := ih (n / 2) (acc + 1) (by omega)
      refine ⟨b + 1, by rw [hb]; ring, ?_⟩
      rw [pow_succ]
      omega

theorem lt_two_pow_bitLen (n : Nat) : n < 2 ^ bitLen n := by
  obtain ⟨b, hb, hp⟩ := bitLenAux_upper n n 0 le_rfl
  have : bitLen n = b := by simpa [bitLen] using hb
  rw [this]; exact hp

theorem roundShift_le (n k : Nat) : roundShift n k ≤ n / 2 ^ k + 1 := by
  unfold roundShift
  simp only
  split <;> omega

theorem pack_finite (neg : Bool) (m : Nat) (e : Int) (hm1 : 2 ^ 52 ≤ m) (hm2 : m ≤ 2 ^ 53)
    (he1 : -1074 ≤ e) (he2 : e < 971) (b : Bool) : pack neg m e ≠ inf b := by
  unfold pack
  by_cases h53 : m = 2 ^ 53
  · have hc : canonicalF64 (2 ^ 52) (e + 1) := Or.inl ⟨le_rfl, by norm_num, by omega, by omega⟩
    have h2 : (2 : Nat) ^ 52 ≠ 0 := by norm_num
    simp only [if_pos h53, if_neg h2, dif_pos hc]
    exact fun h => by cases h
  · have hc : canonicalF64 m e := Or.inl ⟨hm1, by omega, he1, by omega⟩
    have hm0 : m ≠ 0 := by
      have : 0 < 2 ^ 52 := by norm_num
      omega
    simp only [if_neg h53, if_neg hm0, dif_pos hc]
    exact fun h => by cases h

/-- An integer below `2 ^ 64` in absolute value converts to a finite binary64. -/
theorem roundDyadic_int_finite (neg : Bool) (n : Nat) (hn : n < 2 ^ 64) (b : Bool) :
    roundDyadic neg n 0 ≠ inf b := by
  unfold roundDyadic
  by_cases h0 : n = 0
  · simp [h0]
  simp only [h0, if_false]
  obtain ⟨k, hk, hlo⟩ := bitLen_spec n (Nat.pos_of_ne_zero h0)
  have hhi := lt_two_pow_bitLen n
  rw [hk] at hhi
  have hk64 : k < 64 := by
    by_contra hge
    have : 2 ^ 64 ≤ 2 ^ k := Nat.pow_le_pow_right (by norm_num) (by omega)
    omega
  have he1 : max ((0 : Int) + ((bitLen n : Nat) : Int) - 53) (-1074) = (k : Int) - 52 := by
    rw [hk]; push_cast
    rw [max_eq_left (by omega)]
    omega
  rw [he1]
  apply pack_finite
  · split
    · rename_i hle
      have hk52 : k ≤ 52 := by omega
      have e1 : ((0 : Int) - ((k : Int) - 52)).toNat = 52 - k := by omega
      rw [e1]
      calc 2 ^ 52 = 2 ^ k * 2 ^ (52 - k) := by rw [← pow_add]; congr 1; omega
        _ ≤ n * 2 ^ (52 - k) := Nat.mul_le_mul_right _ hlo
    · rename_i hgt
      have e1 : ((k : Int) - 52 - 0).toNat = k - 52 := by omega
      rw [e1]
      have hq : 2 ^ 52 ≤ n / 2 ^ (k - 52) := by
        rw [Nat.le_div_iff_mul_le (by positivity), ← pow_add]
        have : 52 + (k - 52) = k := by omega
        rw [this]; exact hlo
      exact le_trans hq (le_roundShift n _)
  · split
    · rename_i hle
      have hk52 : k ≤ 52 := by omega
      have e1 : ((0 : Int) - ((k : Int) - 52)).toNat = 52 - k := by omega
      rw [e1]
      have : n * 2 ^ (52 - k) < 2 ^ (k + 1) * 2 ^ (52 - k) :=
        Nat.mul_lt_mul_of_pos_right hhi (by positivity)
      rw [← pow_add] at this
      have e2 : k + 1 + (52 - k) = 53 := by omega
      rw [e2] at this
      omega
    · rename_i hgt
      have e1 : ((k : Int) - 52 - 0).toNat = k - 52 := by omega
      rw [e1]
      have hq : n / 2 ^ (k - 52) < 2 ^ 53 := by
        rw [Nat.div_lt_iff_lt_mul (by positivity), ← pow_add]
        have : 53 + (k - 52) = k + 1 := by omega
        rw [this]; exact hhi
      have := roundShift_le n (k - 52)
      omega
  · omega
  · omega

theorem ofDecimal_zero_exp (v : Int) :
    ofDecimal (decide (v < 0)) v.natAbs 0 = ofInt v := by
  unfold ofDecimal ofInt
  by_cases h0 : v = 0
  · subst h0
    simp [roundDyadic]
  · simp [h0]

theorem ofInt_finite (v : Int) (hv : v.natAbs < 2 ^ 64) (b : Bool) : ofInt v ≠ inf b := by
  unfold ofInt
  split
  · simp
  · exact roundDyadic_int_finite _ _ hv b

end F64

/-! ### The numeric normaliser -/

theorem decimalText_ne_empty (neg : Bool) (ip fp : List (Fin 10)) (hip : ip ≠ []) :
    decimalText neg ip fp ≠ "" := by
  intro h
  have h2 := congrArg String.toList h
  cases ip with
  | nil => exact hip rfl
  | cons d r => cases neg <;> simp [decimalText, toList_mk] at h2

theorem parseOrZero_decimalText (neg : Bool) (ip fp : List (Fin 10)) (hip : ip ≠ []) :
    ((∀ b, F64.ofDecimal neg (digitsValue (ip ++ fp)) (-(fp.length : Int)) ≠ F64.inf b) →
      parseOrZero (decimalText neg ip fp)
        = F64.ofDecimal neg (digitsValue (ip ++ fp)) (-(fp.length : Int)))
    ∧ (∀ b, F64.ofDecimal neg (digitsValue (ip ++ fp)) (-(fp.length : Int)) = F64.inf b →
      parseOrZero (decimalText neg ip fp) = 0) := by
  have hne := decimalText_ne_empty neg ip fp hip
  have hp := parseFloat_decimalText neg ip fp hip
  constructor
  · intro hfin
    simp only [parseOrZero, hne, ne_eq, not_false_eq_true, if_true, hp]
    cases hf : F64.ofDecimal neg (digitsValue (ip ++ fp)) (-(fp.length : Int)) with
    | inf b => exact absurd hf (hfin b)
    | nan => rfl
    | zero b => rfl
    | fin s m e h => rfl
  · intro b hb
    simp only [parseOrZero, hne, ne_eq, not_false_eq_true, if_true, hp, hb, rangeChecked]

theorem convertToFloat64_otherInt (v : Int) (hv : v.natAbs < 2 ^ 64) :
    convertToFloat64 (.otherInt v) = F64.ofInt v := by
  have hfin : ∀ b, F64.ofDecimal (decide (v < 0))
      (digitsValue (natDigits v.natAbs ++ [])) (-(([] : List (Fin 10)).length : Int))
        ≠ F64.inf b := by
    intro b
    simp only [List.append_nil, digitsValue_natDigits, List.length_nil, Nat.cast_zero, neg_zero,
      F64.ofDecimal_zero_exp]
    exact F64.ofInt_finite v hv b
  have := (parseOrZero_decimalText (decide (v < 0)) (natDigits v.natAbs) []
    (natDigits_ne_nil _)).1 hfin
  simp only [List.append_nil, digitsValue_natDigits, List.length_nil, Nat.cast_zero, neg_zero,
    F64.ofDecimal_zero_exp] at this
  simpa [convertToFloat64, intText] using this

/-- C11 fails as stated: the decimal-formatted string of `10 ^ 309` (a `1` and
309 zeros), a number above the largest binary64, is converted to `0.0`, and so
is `1e400`; neither is the number that the string denotes. -/
theorem C11_counterexample :
    convertToFloat64 (.str (decimalText false (1 :: List.replicate 309 0) [])) = 0
    ∧ convertToFloat64 (.number (decimalText false (1 :: List.replicate 309 0) [])) = 0
    ∧ convertToFloat64 (.number "1e400") = 0 := by
  set_option maxRecDepth 100000 in
  set_option exponentiation.threshold 2000 in
  decide

/-- C11, amended: `convertToFloat64` returns `x` itself for a `float64` (and
for a `float32`, widened), `float64(v)` for an integer of any width (`int`,
`int64`, and through its decimal text every other integer type), which is
always finite, and for every decimal-formatted string (an optional `-`, digits,
an optional `.` and digits; as a `string` or a `json.Number`) the binary64
nearest to the denoted number when that is finite: `"3.5"` gives `3.5`.  When
the denoted number is too large and rounds to an infinity, the result is
`0.0`. -/
theorem C11_numeric_value :
    (∀ x, convertToFloat64 (.float64 x) = x ∧ convertToFloat64 (.float32 x) = x)
    ∧ (∀ v, convertToFloat64 (.int v) = F64.ofInt v ∧ convertToFloat64 (.int64 v) = F64.ofInt v)
    ∧ (∀ v : Int, v.natAbs < 2 ^ 64 →
        convertToFloat64 (.otherInt v) = F64.ofInt v ∧ ∀ b, F64.ofInt v ≠ F64.inf b)
    ∧ (∀ (neg : Bool) (ip fp : List (Fin 10)), ip ≠ [] →
        (∀ b, F64.ofDecimal neg (digitsValue (ip ++ fp)) (-(fp.length : Int)) ≠ F64.inf b) →
        convertToFloat64 (.str (decimalText neg ip fp))
          = F64.ofDecimal neg (digitsValue (ip ++ fp)) (-(fp.length : Int))
        ∧ convertToFloat64 (.number (decimalText neg ip fp))
          = F64.ofDecimal neg (digitsValue (ip ++ fp)) (-(fp.length : Int)))
    ∧ (∀ (neg : Bool) (ip fp : List (Fin 10)) (b : Bool), ip ≠ [] →
        F64.ofDecimal neg (digitsValue (ip ++ fp)) (-(fp.length : Int)) = F64.inf b →
        convertToFloat64 (.str (decimalText neg ip fp)) = 0
        ∧ convertToFloat64 (.number (decimalText neg ip fp)) = 0)
    ∧ decimalText false [3] [5] = "3.5"
    ∧ convertToFloat64 (.str "3.5") = F64.ofDecimal false 35 (-1)
    ∧ F64.ofDecimal false 35 (-1) + F64.ofDecimal false 35 (-1) = F64.ofInt 7 := by
  refine ⟨fun x => ⟨rfl, rfl⟩, fun v => ⟨rfl, rfl⟩, ?_, ?_, ?_, by decide, by decide, by decide⟩
  · intro v hv
    exact ⟨convertToFloat64_otherInt v hv, F64.ofInt_finite v hv⟩
  · intro neg ip fp hip hfin
    have := (parseOrZero_decimalText neg ip fp hip).1 hfin
    exact ⟨this, this⟩
  · intro neg ip fp b hip hinf
    have := (parseOrZero_decimalText neg ip fp hip).2 b hinf
    exact ⟨this, this⟩

/-- C11 amended, at the `int32` value `-42` and at the string `"-12.50"`. -/
theorem C11_numeric_value_witness :
    (convertToFloat64 (.otherInt (-42)) = F64.ofInt (-42) ∧ ∀ b, F64.ofInt (-42) ≠ F64.inf b)
    ∧ (convertToFloat64 (.str (decimalText true [1, 2] [5, 0]))
          = F64.ofDecimal true (digitsValue ([1, 2] ++ [5, 0]))
              (-((([5, 0] : List (Fin 10)).length : Nat) : Int))
        ∧ convertToFloat64 (.number (decimalText true [1, 2] [5, 0]))
          = F64.ofDecimal true (digitsValue ([1, 2] ++ [5, 0]))
              (-((([5, 0] : List (Fin 10)).length : Nat) : Int))) :=
  ⟨C11_numeric_value.2.2.1 (-42) (by decide),
   C11_numeric_value.2.2.2.1 true [1, 2] [5, 0] (by simp) (by decide)⟩

/-- C12 fails as stated: the strings `Inf`, `NaN`, `0x1p4` and `1_000` are not
decimal-formatted, and are converted to `+Inf`, `NaN`, `16` and `1000`, which
are not `0.0`. -/
theorem C12_counterexample :
    convertToFloat64 (.str "Inf") = F64.inf false
    ∧ convertToFloat64 (.str "NaN") = F64.nan
    ∧ convertToFloat64 (.str "0x1p4") = F64.ofInt 16
    ∧ convertToFloat64 (.str "1_000") = F64.ofInt 1000
    ∧ F64.inf false ≠ 0 ∧ F64.nan ≠ 0 ∧ F64.ofInt 16 ≠ 0 ∧ F64.ofInt 1000 ≠ 0 := by
  decide

/-! ### Fetch operations -/

/-- C21: history detail id reconciliation.  For a detail fetch that hydrates a
listing item `usage` (requested usage id `usage.ID`) and for a direct get
(requested usage id `usage_id`), whatever the decoded detail payload is, the
returned record has the payload's id when that id is not empty and the
requested usage id when it is empty.  The listing `[{id: RUN2_202511}]`
followed by a detail payload with an empty id yields the id `RUN2_202511`. -/
theorem C21_history_detail_id (quals : String → String)
    (client : String → Except Error CloudProjectUsageHistory)
    (payload : CloudProjectUsageHistory) :
    (∀ usage : CloudProjectUsageHistory,
      client ("/cloud/project/" ++ usage.ProjectID ++ "/usage/history/" ++ usage.ID)
        = .ok payload →
      ∃ r, getCloudProjectUsageHistory ⟨quals, .ok client⟩ (some usage) = .ok r
        ∧ (payload.ID ≠ "" → r.ID = payload.ID) ∧ (payload.ID = "" → r.ID = usage.ID))
    ∧ (client ("/cloud/project/" ++ quals "project_id" ++ "/usage/history/" ++ quals "usage_id")
        = .ok payload →
      ∃ r, getCloudProjectUsageHistory ⟨quals, .ok client⟩ none = .ok r
        ∧ (payload.ID ≠ "" → r.ID = payload.ID)
        ∧ (payload.ID = "" → r.ID = quals "usage_id"))
    ∧ (∀ item ∈ (listCloudProjectUsageHistory
          ⟨fun _ => "p1", .ok (sampleClient [sampleHistory "RUN2_202511"])⟩).streamed,
        ∃ r, getCloudProjectUsageHistory ⟨fun _ => "", .ok (sampleClient (sampleHistory ""))⟩
            (some item) = .ok r
          ∧ r.ID = "RUN2_202511") := by
  refine ⟨?_, ?_, ?_⟩
  · intro usage hget
    by_cases hid : payload.ID = ""
    · refine ⟨{ payload with ProjectID := usage.ProjectID, ID := usage.ID }, ?_,
        fun h => absurd hid h, fun _ => rfl⟩
      simp only [getCloudProjectUsageHistory, hget, hid, if_true]
    · refine ⟨{ payload with ProjectID := usage.ProjectID }, ?_, fun _ => rfl,
        fun h => absurd h hid⟩
      simp only [getCloudProjectUsageHistory, hget, hid, if_false]
  · intro hget
    by_cases hid : payload.ID = ""
    · refine ⟨{ payload with ProjectID := quals "project_id", ID := quals "usage_id" }, ?_,
        fun h => absurd hid h, fun _ => rfl⟩
      simp only [getCloudProjectUsageHistory, hget, hid, if_true]
    · refine ⟨{ payload with ProjectID := quals "project_id" }, ?_, fun _ => rfl,
        fun h => absurd h hid⟩
      simp only [getCloudProjectUsageHistory, hget, hid, if_false]
  · intro item hitem
    simp only [listCloudProjectUsageHistory, sampleClient, List.map_cons, List.map_nil,
      List.mem_singleton] at hitem
    subst hitem
    exact ⟨_, rfl, rfl⟩

/-- C21, for a direct get of `RUN2_202511` in project `p1` whose detail payload
has an empty id. -/
theorem C21_history_detail_id_witness :
    ∃ r, getCloudProjectUsageHistory
        ⟨fun q => if q = "project_id" then "p1" else "RUN2_202511",
         .ok (sampleClient (sampleHistory ""))⟩ none = .ok r
      ∧ ((sampleHistory "").ID ≠ "" → r.ID = (sampleHistory "").ID)
      ∧ ((sampleHistory "").ID = "" →
          r.ID = (fun q => if q = "project_id" then "p1" else "RUN2_202511") "usage_id") :=
  (C21_history_detail_id (fun q => if q = "project_id" then "p1" else "RUN2_202511")
    (sampleClient (sampleHistory "")) (sampleHistory "")).2.1 rfl

/-- C22 fails as stated for the history detail fetch: with a detail payload
whose id is empty, the returned record has the requested usage id
`RUN2_202511` as its id, which is not the payload's (empty) id, so not every
field other than the project id is the payload's. -/
theorem C22_counterexample :
    ∃ r, getCloudProjectUsageHistory
        ⟨fun q => if q = "project_id" then "p1" else "RUN2_202511",
         .ok (sampleClient (sampleHistory ""))⟩ none = .ok r
      ∧ r.ID = "RUN2_202511" ∧ (sampleHistory "").ID = "" ∧ r.ID ≠ (sampleHistory "").ID :=
  ⟨_, rfl, rfl, rfl, by decide⟩

/-- C22, amended: for every requested project id and every successfully
fetched payload, the record streamed by the current fetch and by the forecast
fetch, and every item streamed by the history listing, is the payload with its
`ProjectID` replaced by the requested project id (whatever project id the
payload carried), all other fields being the payload's.  The history detail
fetch returns the payload with `ProjectID` replaced by the requested project id
(for a hydrated listing item: the project id stamped on that item) and, when
the payload's id is empty, its `ID` replaced by the requested usage id; all
other fields are the payload's. -/
theorem C22_project_id_stamp (quals : String → String) :
    (∀ client payload,
      client ("/cloud/project/" ++ quals "project_id" ++ "/usage/current") = .ok payload →
      listCloudProjectUsageCurrent ⟨quals, .ok client⟩
        = ⟨[{ payload with ProjectID := quals "project_id" }], .ok .null⟩)
    ∧ (∀ client payload,
      client ("/cloud/project/" ++ quals "project_id" ++ "/usage/forecast") = .ok payload →
      listCloudProjectUsageForecast ⟨quals, .ok client⟩
        = ⟨[{ payload with ProjectID := quals "project_id" }], .ok .null⟩)
    ∧ (∀ client (payloads : List CloudProjectUsageHistory),
      client ("/cloud/project/" ++ quals "project_id" ++ "/usage/history") = .ok payloads →
      listCloudProjectUsageHistory ⟨quals, .ok client⟩
        = ⟨payloads.map (fun payload => { payload with ProjectID := quals "project_id" }),
           .ok .null⟩)
    ∧ (∀ client (payload : CloudProjectUsageHistory),
      client ("/cloud/project/" ++ quals "project_id" ++ "/usage/history/" ++ quals "usage_id")
        = .ok payload →
      getCloudProjectUsageHistory ⟨quals, .ok client⟩ none
        = .ok { payload with
                ProjectID := quals "project_id"
                ID := if payload.ID = "" then quals "usage_id" else payload.ID })
    ∧ (∀ client (payload usage : CloudProjectUsageHistory),
      client ("/cloud/project/" ++ usage.ProjectID ++ "/usage/history/" ++ usage.ID)
        = .ok payload →
      getCloudProjectUsageHistory ⟨quals, .ok client⟩ (some usage)
        = .ok { payload with
                ProjectID := usage.ProjectID
                ID := if payload.ID = "" then usage.ID else payload.ID }) := by
  refine ⟨?_, ?_, ?_, ?_, ?_⟩
  · intro client payload hget
    simp only [listCloudProjectUsageCurrent, hget]
  · intro client payload hget
    simp only [listCloudProjectUsageForecast, hget]
  · intro client payloads hget
    simp only [listCloudProjectUsageHistory, hget]
  · intro client payload hget
    by_cases hid : payload.ID = ""
    · simp only [getCloudProjectUsageHistory, hget, hid, if_true]
    · simp only [getCloudProjectUsageHistory, hget, hid, if_false]
  · intro client payload usage hget
    by_cases hid : payload.ID = ""
    · simp only [getCloudProjectUsageHistory, hget, hid, if_true]
    · simp only [getCloudProjectUsageHistory, hget, hid, if_false]

/-- C22 amended, for the history listing of project `p1` whose payload items
carry the project ids `other` and the empty one. -/
theorem C22_project_id_stamp_witness :
    listCloudProjectUsageHistory
        ⟨fun _ => "p1",
         .ok (sampleClient [⟨"a", "other", none, [], [], [], [], []⟩, sampleHistory "b"])⟩
      = ⟨[⟨"a", "p1", none, [], [], [], [], []⟩, ⟨"b", "p1", none, [], [], [], [], []⟩],
         .ok .null⟩ :=
  (C22_project_id_stamp (fun _ => "p1")).2.2.1
    (sampleClient [⟨"a", "other", none, [], [], [], [], []⟩, sampleHistory "b"]) _ rfl

/-- C26: fetch failures pass through unmodified.  For each of the five fetch
operations, when `client.Get` on the operation's endpoint returns the error
`e`, and also when `connect` returns the error `e`, the operation returns
exactly `e`, no record, and streams no item. -/
theorem C26_fetch_error (quals : String → String) (e : Error) :
    (∀ client,
      client ("/cloud/project/" ++ quals "project_id" ++ "/usage/current") = .error e →
      listCloudProjectUsageCurrent ⟨quals, .ok client⟩ = ⟨[], .error e⟩)
    ∧ (∀ client,
      client ("/cloud/project/" ++ quals "project_id" ++ "/usage/forecast") = .error e →
      listCloudProjectUsageForecast ⟨quals, .ok client⟩ = ⟨[], .error e⟩)
    ∧ (∀ client,
      client ("/cloud/project/" ++ quals "project_id" ++ "/usage/history") = .error e →
      listCloudProjectUsageHistory ⟨quals, .ok client⟩ = ⟨[], .error e⟩)
    ∧ (∀ client,
      client ("/cloud/project/" ++ quals "project_id" ++ "/usage/history/" ++ quals "usage_id")
        = .error e →
      getCloudProjectUsageHistory ⟨quals, .ok client⟩ none = .error e)
    ∧ (∀ client (usage : CloudProjectUsageHistory),
      client ("/cloud/project/" ++ usage.ProjectID ++ "/usage/history/" ++ usage.ID)
        = .error e →
      getCloudProjectUsageHistory ⟨quals, .ok client⟩ (some usage) = .error e)
    ∧ (∀ client,
      client ("/cloud/project/" ++ quals "project_id" ++ "/usage/plans") = .error e →
      listCloudProjectUsagePlans ⟨quals, .ok client⟩ = ⟨[], .error e⟩)
    ∧ listCloudProjectUsageCurrent ⟨quals, .error e⟩ = ⟨[], .error e⟩
    ∧ listCloudProjectUsageForecast ⟨quals, .error e⟩ = ⟨[], .error e⟩
    ∧ listCloudProjectUsageHistory ⟨quals, .error e⟩ = ⟨[], .error e⟩
    ∧ (∀ item, getCloudProjectUsageHistory ⟨quals, .error e⟩ item = .error e)
    ∧ listCloudProjectUsagePlans ⟨quals, .error e⟩ = ⟨[], .error e⟩ := by
  refine ⟨?_, ?_, ?_, ?_, ?_, ?_, rfl, rfl, rfl, ?_, rfl⟩
  · intro client hget
    simp only [listCloudProjectUsageCurrent, hget]
  · intro client hget
    simp only [listCloudProjectUsageForecast, hget]
  · intro client hget
    simp only [listCloudProjectUsageHistory, hget]
  · intro client hget
    simp only [getCloudProjectUsageHistory, hget]
  · intro client usage hget
    simp only [getCloudProjectUsageHistory, hget]
  · intro client hget
    simp only [listCloudProjectUsagePlans, hget]
  · intro item
    cases item <;> rfl

/-- C26, for the plans fetch of project `p1` against a client that answers
`403 Forbidden`. -/
theorem C26_fetch_error_witness :
    listCloudProjectUsagePlans ⟨fun _ => "p1", .ok (fun _ => .error "403 Forbidden")⟩
      = ⟨[], .error "403 Forbidden"⟩ :=
  (C26_fetch_error (fun _ => "p1") "403 Forbidden").2.2.2.2.2.1 (fun _ => .error "403 Forbidden")
    rfl

/-- C27: the usage-plans fetch streams the decoded payload unchanged, as its
only item, and returns no error: the item's `ProjectID` is the payload's, not
the requested project id.  A payload without project id (decoded as the empty
string), requested for project `p1`, is streamed with the empty project id. -/
theorem C27_plans_payload_unchanged (quals : String → String)
    (client : String → Except Error CloudProjectUsagePlan) (payload : CloudProjectUsagePlan) :
    (client ("/cloud/project/" ++ quals "project_id" ++ "/usage/plans") = .ok payload →
      listCloudProjectUsagePlans ⟨quals, .ok client⟩ = ⟨[payload], .ok .null⟩
      ∧ ∀ item ∈ (listCloudProjectUsagePlans ⟨quals, .ok client⟩).streamed,
          item.ProjectID = payload.ProjectID)
    ∧ (listCloudProjectUsagePlans ⟨fun _ => "p1", .ok (sampleClient samplePlan)⟩).streamed
        = [samplePlan]
    ∧ samplePlan.ProjectID = ""
    ∧ samplePlan.ProjectID ≠ "p1" := by
  refine ⟨?_, rfl, rfl, by decide⟩
  intro hget
  have h : listCloudProjectUsagePlans ⟨quals, .ok client⟩ = ⟨[payload], .ok .null⟩ := by
    simp only [listCloudProjectUsagePlans, hget]
  refine ⟨h, ?_⟩
  rw [h]
  intro item hitem
  rw [List.mem_singleton.mp hitem]

/-- C27, for project `p1` and a payload that names project `p2`. -/
theorem C27_plans_payload_unchanged_witness :
    listCloudProjectUsagePlans
        ⟨fun _ => "p1", .ok (sampleClient { samplePlan with ProjectID := "p2" })⟩
      = ⟨[{ samplePlan with ProjectID := "p2" }], .ok .null⟩
    ∧ ∀ item ∈ (listCloudProjectUsagePlans
          ⟨fun _ => "p1", .ok (sampleClient { samplePlan with ProjectID := "p2" })⟩).streamed,
        item.ProjectID = ({ samplePlan with ProjectID := "p2" } : CloudProjectUsagePlan).ProjectID :=
  (C27_plans_payload_unchanged (fun _ => "p1")
    (sampleClient { samplePlan with ProjectID := "p2" }) { samplePlan with ProjectID := "p2" }).1
    rfl

/-! ### The three families -/

/-- C23: the three aggregator families are the same function.  For every input
value the current, forecast and historical hourly grand totals return the same
result, and so do the three quantum totals; for a current, a forecast and a
history document with equal hourlyUsage, monthlyUsage and resourcesUsage the
three comprehensive totals are equal. -/
theorem C23_families_agree :
    (∀ d, calculateForecastGrandTotal d = calculateCurrentGrandTotal d
      ∧ calculateHistoricalGrandTotal d = calculateCurrentGrandTotal d)
    ∧ (∀ d, calculateForecastQuantumPrice d = calculateCurrentQuantumPrice d
      ∧ calculateHistoricalQuantumPrice d = calculateCurrentQuantumPrice d)
    ∧ (∀ (rc : CloudProjectUsageCurrent) (rf : CloudProjectUsageForecast)
        (rh : CloudProjectUsageHistory),
        rf.HourlyUsage = rc.HourlyUsage → rh.HourlyUsage = rc.HourlyUsage →
        rf.MonthlyUsage = rc.MonthlyUsage → rh.MonthlyUsage = rc.MonthlyUsage →
        rf.ResourcesUsage = rc.ResourcesUsage → rh.ResourcesUsage = rc.ResourcesUsage →
        calculateComprehensiveTotalPrice (.usageForecast rf)
          = calculateComprehensiveCurrentTotalPrice (.usageCurrent rc)
        ∧ calculateComprehensiveHistoricalTotalPrice (.usageHistory rh)
          = calculateComprehensiveCurrentTotalPrice (.usageCurrent rc)) := by
  refine ⟨fun d => ⟨rfl, rfl⟩, fun d => ⟨rfl, rfl⟩, ?_⟩
  intro rc rf rh h1 h2 h3 h4 h5 h6
  constructor
  · simp only [calculateComprehensiveTotalPrice, calculateComprehensiveCurrentTotalPrice,
      h1, h3, h5, calculateForecastGrandTotal_eq]
  · simp only [calculateComprehensiveHistoricalTotalPrice,
      calculateComprehensiveCurrentTotalPrice, h2, h4, h6, calculateHistoricalGrandTotal_eq]

/-- C23, for the three documents with
`hourlyUsage = {volume: [{totalPrice: 10}]}`, a savings plan of `4` and one
gateway of `3`. -/
theorem C23_families_agree_witness :
    calculateComprehensiveTotalPrice (.usageForecast
        ⟨"p", "", [("volume", .arr [.obj [("totalPrice", .float64 (F64.ofInt 10))]])],
         [("savingsPlan", .arr [.obj [("totalPrice", .obj [("value", .float64 (F64.ofInt 4))])]])],
         [.obj [("type", .str "gateway"), ("totalPrice", .float64 (F64.ofInt 3))]], [], []⟩)
      = calculateComprehensiveCurrentTotalPrice (.usageCurrent
        ⟨"q", "now", [("volume", .arr [.obj [("totalPrice", .float64 (F64.ofInt 10))]])],
         [("savingsPlan", .arr [.obj [("totalPrice", .obj [("value", .float64 (F64.ofInt 4))])]])],
         [.obj [("type", .str "gateway"), ("totalPrice", .float64 (F64.ofInt 3))]], [], []⟩)
    ∧ calculateComprehensiveHistoricalTotalPrice (.usageHistory
        ⟨"id", "r", none, [("volume", .arr [.obj [("totalPrice", .float64 (F64.ofInt 10))]])],
         [("savingsPlan", .arr [.obj [("totalPrice", .obj [("value", .float64 (F64.ofInt 4))])]])],
         [.obj [("type", .str "gateway"), ("totalPrice", .float64 (F64.ofInt 3))]], [], []⟩)
      = calculateComprehensiveCurrentTotalPrice (.usageCurrent
        ⟨"q", "now", [("volume", .arr [.obj [("totalPrice", .float64 (F64.ofInt 10))]])],
         [("savingsPlan", .arr [.obj [("totalPrice", .obj [("value", .float64 (F64.ofInt 4))])]])],
         [.obj [("type", .str "gateway"), ("totalPrice", .float64 (F64.ofInt 3))]], [], []⟩) :=
  C23_families_agree.2.2 _ _ _ rfl rfl rfl rfl rfl rfl

/-! ### Missing nested arrays -/

/-- C24: missing nested arrays null only their dependent columns.  For every
non-empty flavors sequence `f :: rest`: with empty `f.Periods` the coverage,
utilization, consumption size and cumulative plan size are null; with empty
`f.Subscriptions` the subscription id, size, begin and end are null; with empty
`f.Fees.FlatFee.Details` the plan name is null; and emptying one of the three
arrays leaves the result of every extractor that does not depend on it as it
was, the seven flavor-level columns being the fields of `f` in every case. -/
theorem C24_missing_nested_arrays (f : FlavorUsage) (rest : List FlavorUsage) :
    (∀ extractor ∈ [extractUsageCoverage, extractUsageUtilization, extractConsumptionSize,
        extractCumulPlanSize],
        extractor (.flavors ({ f with Periods := [] } :: rest)) = .ok .null)
    ∧ (∀ extractor ∈ [extractSubscriptionID, extractSubscriptionSize, extractSubscriptionBegin,
        extractSubscriptionEnd],
        extractor (.flavors ({ f with Subscriptions := [] } :: rest)) = .ok .null)
    ∧ extractPlanName (.flavors ({ f with Fees := { f.Fees with FlatFee :=
        { f.Fees.FlatFee with Details := [] } } } :: rest)) = .ok .null
    ∧ (∀ extractor ∈ [extractFirstFlavorName, extractFlatFeeTotalPrice, extractFlatFeeCurrency,
        extractOverQuotaQuantity, extractOverQuotaUnitPrice, extractFlavorTotalPrice,
        extractFlavorSavedAmount, extractSubscriptionID, extractSubscriptionSize,
        extractSubscriptionBegin, extractSubscriptionEnd, extractPlanName],
        extractor (.flavors ({ f with Periods := [] } :: rest))
          = extractor (.flavors (f :: rest)))
    ∧ (∀ extractor ∈ [extractFirstFlavorName, extractFlatFeeTotalPrice, extractFlatFeeCurrency,
        extractOverQuotaQuantity, extractOverQuotaUnitPrice, extractFlavorTotalPrice,
        extractFlavorSavedAmount, extractUsageCoverage, extractUsageUtilization,
        extractConsumptionSize, extractCumulPlanSize, extractPlanName],
        extractor (.flavors ({ f with Subscriptions := [] } :: rest))
          = extractor (.flavors (f :: rest)))
    ∧ (∀ extractor ∈ [extractFirstFlavorName, extractFlatFeeTotalPrice, extractFlatFeeCurrency,
        extractOverQuotaQuantity, extractOverQuotaUnitPrice, extractFlavorTotalPrice,
        extractFlavorSavedAmount, extractUsageCoverage, extractUsageUtilization,
        extractConsumptionSize, extractCumulPlanSize, extractSubscriptionID,
        extractSubscriptionSize, extractSubscriptionBegin, extractSubscriptionEnd],
        extractor (.flavors ({ f with Fees := { f.Fees with FlatFee :=
            { f.Fees.FlatFee with Details := [] } } } :: rest))
          = extractor (.flavors (f :: rest)))
    ∧ extractFirstFlavorName (.flavors (f :: rest)) = .ok (.str f.Flavor)
    ∧ extractFlatFeeTotalPrice (.flavors (f :: rest))
        = .ok (.float64 f.Fees.FlatFee.TotalPrice.Value)
    ∧ extractFlatFeeCurrency (.flavors (f :: rest))
        = .ok (.str f.Fees.FlatFee.TotalPrice.CurrencyCode)
    ∧ extractOverQuotaQuantity (.flavors (f :: rest)) = .ok (.int f.Fees.OverQuota.Quantity)
    ∧ extractOverQuotaUnitPrice (.flavors (f :: rest))
        = .ok (.float64 f.Fees.OverQuota.UnitPrice.Value)
    ∧ extractFlavorTotalPrice (.flavors (f :: rest)) = .ok (.float64 f.Fees.TotalPrice.Value)
    ∧ extractFlavorSavedAmount (.flavors (f :: rest))
        = .ok (.float64 f.Fees.SavedAmount.Value) := by
  refine ⟨?_, ?_, rfl, ?_, ?_, ?_, rfl, rfl, rfl, rfl, rfl, rfl, rfl⟩
  · intro extractor hmem
    simp only [List.mem_cons, List.mem_singleton, List.not_mem_nil, or_false] at hmem
    rcases hmem with h | h | h | h <;> subst h <;> rfl
  · intro extractor hmem
    simp only [List.mem_cons, List.mem_singleton, List.not_mem_nil, or_false] at hmem
    rcases hmem with h | h | h | h <;> subst h <;> rfl
  · intro extractor hmem
    simp only [List.mem_cons, List.mem_singleton, List.not_mem_nil, or_false] at hmem
    rcases hmem with h | h | h | h | h | h | h | h | h | h | h | h <;> subst h <;> rfl
  · intro extractor hmem
    simp only [List.mem_cons, List.mem_singleton, List.not_mem_nil, or_false] at hmem
    rcases hmem with h | h | h | h | h | h | h | h | h | h | h | h <;> subst h <;> rfl
  · intro extractor hmem
    simp only [List.mem_cons, List.mem_singleton, List.not_mem_nil, or_false] at hmem
    rcases hmem with h | h | h | h | h | h | h | h | h | h | h | h | h | h | h <;> subst h <;> rfl

/-- C24, at the sample flavor without its periods: the coverage is null and the
subscription id is still `sub-1`. -/
theorem C24_missing_nested_arrays_witness :
    extractUsageCoverage (.flavors [{ sampleFlavor with Periods := [] }]) = .ok .null
    ∧ extractSubscriptionID (.flavors [{ sampleFlavor with Periods := [] }])
        = extractSubscriptionID (.flavors [sampleFlavor])
    ∧ extractSubscriptionID (.flavors [sampleFlavor]) = .ok (.str "sub-1") :=
  ⟨(C24_missing_nested_arrays sampleFlavor []).1 extractUsageCoverage (by simp),
   (C24_missing_nested_arrays sampleFlavor []).2.2.2.1 extractSubscriptionID (by simp), rfl⟩

/-! ### Partial failure of a sub-calculation -/

/-- C25: the comprehensive total tolerates partial failure.  In `addToTotal`, a
sub-calculation that returns an error, or a result that is not a `float64`,
leaves the running total unchanged, and a `float64` result is added to it; so a
failing sub-calculation between two others does not keep the later one from
being added.  Each of the three comprehensive totals is the running total after
its three `addToTotal` steps, returned with a nil error. -/
theorem C25_partial_failure (grandTotal : F64) (calculationFunc : TransformFunc) (data : Dyn) :
    (∀ e, calculationFunc data = .error e →
      addToTotal grandTotal calculationFunc data = grandTotal)
    ∧ (∀ v, calculationFunc data = .ok v → (∀ x, v ≠ .float64 x) →
      addToTotal grandTotal calculationFunc data = grandTotal)
    ∧ (∀ x, calculationFunc data = .ok (.float64 x) →
      addToTotal grandTotal calculationFunc data = grandTotal + x)
    ∧ (∀ (first last : TransformFunc) (d1 d3 : Dyn),
      (∃ e, calculationFunc data = .error e)
        ∨ (∃ v, calculationFunc data = .ok v ∧ ∀ x, v ≠ .float64 x) →
      addToTotal (addToTotal (addToTotal grandTotal first d1) calculationFunc data) last d3
        = addToTotal (addToTotal grandTotal first d1) last d3)
    ∧ (∀ r : CloudProjectUsageCurrent,
      calculateComprehensiveCurrentTotalPrice (.usageCurrent r)
        = .ok (.float64 (addToTotal (addToTotal (addToTotal 0
            calculateCurrentGrandTotal (.val (.obj r.HourlyUsage)))
            calculateMonthlySavingsPlanPrice (.val (.obj r.MonthlyUsage)))
            calculateResourcesUsagePrice (.val (.arr r.ResourcesUsage)))))
    ∧ (∀ r : CloudProjectUsageForecast,
      calculateComprehensiveTotalPrice (.usageForecast r)
        = .ok (.float64 (addToTotal (addToTotal (addToTotal 0
            calculateForecastGrandTotal (.val (.obj r.HourlyUsage)))
            calculateMonthlySavingsPlanPrice (.val (.obj r.MonthlyUsage)))
            calculateResourcesUsagePrice (.val (.arr r.ResourcesUsage)))))
    ∧ (∀ r : CloudProjectUsageHistory,
      calculateComprehensiveHistoricalTotalPrice (.usageHistory r)
        = .ok (.float64 (addToTotal (addToTotal (addToTotal 0
            calculateHistoricalGrandTotal (.val (.obj r.HourlyUsage)))
            calculateMonthlySavingsPlanPrice (.val (.obj r.MonthlyUsage)))
            calculateResourcesUsagePrice (.val (.arr r.ResourcesUsage)))))
    ∧ (∀ d, ∃ x, calculateComprehensiveCurrentTotalPrice d = .ok (.float64 x))
    ∧ (∀ d, ∃ x, calculateComprehensiveTotalPrice d = .ok (.float64 x))
    ∧ (∀ d, ∃ x, calculateComprehensiveHistoricalTotalPrice d = .ok (.float64 x)) := by
  have herr : ∀ (g : F64) (e : Error), calculationFunc data = .error e →
      addToTotal g calculationFunc data = g := by
    intro g e he
    simp only [addToTotal, he]
  have hother : ∀ (g : F64) (v : Value), calculationFunc data = .ok v →
      (∀ x, v ≠ .float64 x) → addToTotal g calculationFunc data = g := by
    intro g v hv hx
    cases v with
    | float64 x => exact absurd rfl (hx x)
    | _ => simp only [addToTotal, hv]
  refine ⟨herr grandTotal, hother grandTotal, ?_, ?_, fun _ => rfl, fun _ => rfl, fun _ => rfl,
    calculateComprehensiveCurrentTotalPrice_float, calculateComprehensiveTotalPrice_float,
    calculateComprehensiveHistoricalTotalPrice_float⟩
  · intro x hx
    simp only [addToTotal, hx]
  · intro first last d1 d3 hfail
    rcases hfail with ⟨e, he⟩ | ⟨v, hv, hx⟩
    · rw [herr _ e he]
    · rw [hother _ v hv hx]

/-- C25, for a sub-calculation that fails between two that return `2` and
`3`: the total is `0 + 2 + 3`. -/
theorem C25_partial_failure_witness :
    addToTotal (addToTotal (addToTotal 0 (fun _ => .ok (.float64 (F64.ofInt 2))) (.val .null))
        (fun _ => .error "failed") (.val .null)) (fun _ => .ok (.float64 (F64.ofInt 3)))
        (.val .null)
      = addToTotal (addToTotal 0 (fun _ => .ok (.float64 (F64.ofInt 2))) (.val .null))
        (fun _ => .ok (.float64 (F64.ofInt 3))) (.val .null) :=
  (C25_partial_failure 0 (fun _ => .error "failed") (.val .null)).2.2.2.1
    (fun _ => .ok (.float64 (F64.ofInt 2))) (fun _ => .ok (.float64 (F64.ofInt 3)))
    (.val .null) (.val .null) (Or.inl ⟨"failed", rfl⟩)

/-! ### The two price shapes -/

theorem sumPrices_append_cons (a b : List Value) (p : Value) :
    sumPrices (a ++ p :: b)
      = b.foldl (fun total q => total + convertToFloat64 q) (sumPrices a + convertToFloat64 p) := by
  simp only [sumPrices, List.foldl_append, List.foldl_cons]

theorem sumPrices_append (a b : List Value) :
    sumPrices (a ++ b) = b.foldl (fun total q => total + convertToFloat64 q) (sumPrices a) := by
  simp only [sumPrices, List.foldl_append]

theorem convertToFloat64_obj (price : List (String × Value)) :
    convertToFloat64 (.obj price) = 0 := by
  have h : parseOrZero "map[" = 0 := by decide
  exact h

theorem fieldOf_totalPrice_obj (fields : List (String × Value)) (p : Value)
    (h : fields.lookup "totalPrice" = some p) :
    fieldOf "totalPrice" (.obj fields) = some p := by
  simp only [fieldOf, h]

theorem nestedFieldOf_plain (fields : List (String × Value)) (p : Value) (c : String)
    (h : fields.lookup "totalPrice" = some p) (hp : ∀ price, p ≠ .obj price) :
    nestedFieldOf "totalPrice" c (.obj fields) = none := by
  cases p with
  | obj price => exact absurd rfl (hp price)
  | _ => simp only [nestedFieldOf, h]

theorem extractTotalPriceFromArray_skip_zero (rs1 rs2 : List Value) (e p : Value)
    (he : fieldOf "totalPrice" e = some p) (hp : convertToFloat64 p = 0) :
    extractTotalPriceFromArray (rs1 ++ e :: rs2) "totalPrice"
      = extractTotalPriceFromArray (rs1 ++ rs2) "totalPrice" := by
  simp only [extractTotalPriceFromArray_eq_sumPrices, List.filterMap_append,
    List.filterMap_cons, he]
  rw [sumPrices_append_cons, sumPrices_append, hp, F64.add_posZero _ (sumPrices_ne_negZero _)]

/-- C30: the two price shapes are never both counted.  For every entry `e`, one
of `extractTotalPriceFromArray [e] "totalPrice"` (`sumField`) and
`extractNestedPriceFromArray [e] "totalPrice" "value"` (`sumNestedField`) is
`0.0`.  An entry whose `totalPrice` is a mapping adds `0.0` to every total made
by `extractTotalPriceFromArray` or, for any type, by
`extractPriceFromFilteredArray`: the total is the same with the entry and
without it.  An entry whose `totalPrice` is not a mapping (a number, a string)
is skipped by `extractNestedPriceFromArray`, the savings-plan total. -/
theorem C30_price_shapes :
    (∀ e : Value, extractTotalPriceFromArray [e] "totalPrice" = 0
      ∨ extractNestedPriceFromArray [e] "totalPrice" "value" = 0)
    ∧ (∀ (fields price : List (String × Value)) (rs1 rs2 : List Value),
      fields.lookup "totalPrice" = some (.obj price) →
      extractTotalPriceFromArray [.obj fields] "totalPrice" = 0
      ∧ extractTotalPriceFromArray (rs1 ++ .obj fields :: rs2) "totalPrice"
          = extractTotalPriceFromArray (rs1 ++ rs2) "totalPrice"
      ∧ ∀ t, extractPriceFromFilteredArray (rs1 ++ .obj fields :: rs2) "type" t "totalPrice"
          = extractPriceFromFilteredArray (rs1 ++ rs2) "type" t "totalPrice")
    ∧ (∀ (fields : List (String × Value)) (p : Value) (rs1 rs2 : List Value),
      fields.lookup "totalPrice" = some p → (∀ price, p ≠ .obj price) →
      extractNestedPriceFromArray [.obj fields] "totalPrice" "value" = 0
      ∧ extractNestedPriceFromArray (rs1 ++ .obj fields :: rs2) "totalPrice" "value"
          = extractNestedPriceFromArray (rs1 ++ rs2) "totalPrice" "value")
    ∧ extractTotalPriceFromArray
        [.obj [("totalPrice", .obj [("value", .float64 (F64.ofInt 4))])]] "totalPrice" = 0
    ∧ extractNestedPriceFromArray
        [.obj [("totalPrice", .obj [("value", .float64 (F64.ofInt 4))])]] "totalPrice" "value"
        = F64.ofInt 4
    ∧ extractTotalPriceFromArray [.obj [("totalPrice", .float64 (F64.ofInt 4))]] "totalPrice"
        = F64.ofInt 4
    ∧ extractNestedPriceFromArray
        [.obj [("totalPrice", .float64 (F64.ofInt 4))]] "totalPrice" "value" = 0 := by
  have hobj : ∀ (fields price : List (String × Value)),
      fields.lookup "totalPrice" = some (.obj price) →
      extractTotalPriceFromArray [.obj fields] "totalPrice" = 0 := by
    intro fields price h
    have := extractTotalPriceFromArray_skip_zero [] [] (.obj fields) (.obj price)
      (fieldOf_totalPrice_obj fields _ h) (convertToFloat64_obj price)
    simpa using this
  have hplain : ∀ (fields : List (String × Value)) (p : Value) (rs1 rs2 : List Value),
      fields.lookup "totalPrice" = some p → (∀ price, p ≠ .obj price) →
      extractNestedPriceFromArray (rs1 ++ .obj fields :: rs2) "totalPrice" "value"
        = extractNestedPriceFromArray (rs1 ++ rs2) "totalPrice" "value" := by
    intro fields p rs1 rs2 h hp
    simp only [extractNestedPriceFromArray_eq_sumPrices, List.filterMap_append,
      List.filterMap_cons, nestedFieldOf_plain fields p "value" h hp]
  refine ⟨?_, ?_, ?_, ?_, ?_, ?_, ?_⟩
  · intro e
    cases e with
    | obj fields =>
      cases h : fields.lookup "totalPrice" with
      | none =>
        left
        simp only [extractTotalPriceFromArray, List.foldl_cons, List.foldl_nil, h]
      | some p =>
        by_cases hp : ∃ price, p = .obj price
        · obtain ⟨price, rfl⟩ := hp
          exact Or.inl (hobj fields price h)
        · right
          have := hplain fields p [] [] h (fun price hprice => hp ⟨price, hprice⟩)
          simpa using this
    | _ => exact Or.inl rfl
  · intro fields price rs1 rs2 h
    refine ⟨hobj fields price h, ?_, ?_⟩
    · exact extractTotalPriceFromArray_skip_zero rs1 rs2 _ _ (fieldOf_totalPrice_obj fields _ h)
        (convertToFloat64_obj price)
    · intro t
      simp only [extractPriceFromFilteredArray_eq_filter, List.filter_append, List.filter_cons]
      by_cases hb : fieldIsString "type" t (.obj fields) = true
      · simp only [hb, if_true]
        exact extractTotalPriceFromArray_skip_zero _ _ _ _ (fieldOf_totalPrice_obj fields _ h)
          (convertToFloat64_obj price)
      · simp only [hb]
        rfl
  · intro fields p rs1 rs2 h hp
    refine ⟨?_, hplain fields p rs1 rs2 h hp⟩
    have := hplain fields p [] [] h hp
    simpa using this
  · exact hobj _ _ rfl
  · simp [extractNestedPriceFromArray, List.lookup, convertToFloat64]
    decide
  · simp [extractTotalPriceFromArray, List.lookup, convertToFloat64]
    decide
  · rfl

/-- C30, for the entry `{totalPrice: {value: 4}}` between two plain entries of
`1` and `2`: the resources total is that of the two plain entries. -/
theorem C30_price_shapes_witness :
    extractTotalPriceFromArray [.obj [("totalPrice", .obj [("value", .float64 (F64.ofInt 4))])]]
        "totalPrice" = 0
    ∧ extractTotalPriceFromArray
        ([.obj [("totalPrice", .float64 (F64.ofInt 1))]]
          ++ .obj [("totalPrice", .obj [("value", .float64 (F64.ofInt 4))])]
            :: [.obj [("totalPrice", .float64 (F64.ofInt 2))]]) "totalPrice"
      = extractTotalPriceFromArray
        ([.obj [("totalPrice", .float64 (F64.ofInt 1))]]
          ++ [.obj [("totalPrice", .float64 (F64.ofInt 2))]]) "totalPrice"
    ∧ ∀ t, extractPriceFromFilteredArray
        ([.obj [("totalPrice", .float64 (F64.ofInt 1))]]
          ++ .obj [("totalPrice", .obj [("value", .float64 (F64.ofInt 4))])]
            :: [.obj [("totalPrice", .float64 (F64.ofInt 2))]]) "type" t "totalPrice"
      = extractPriceFromFilteredArray
        ([.obj [("totalPrice", .float64 (F64.ofInt 1))]]
          ++ [.obj [("totalPrice", .float64 (F64.ofInt 2))]]) "type" t "totalPrice" :=
  C30_price_shapes.2.1 _ [("value", .float64 (F64.ofInt 4))] _ _ rfl

/-! ### Per-type resource totals -/

theorem exactAdd_zero (a : Option ℚ) : exactAdd (some 0) a = a := by
  cases a <;> simp [exactAdd]

theorem exactAdd_assoc (a b c : Option ℚ) :
    exactAdd (exactAdd a b) c = exactAdd a (exactAdd b c) := by
  cases a <;> cases b <;> cases c <;> simp [exactAdd, add_assoc]

theorem exactAdd_comm (a b : Option ℚ) : exactAdd a b = exactAdd b a := by
  cases a <;> cases b <;> simp [exactAdd, add_comm]

theorem exactSum_foldl (ps : List Value) (acc : Option ℚ) :
    ps.foldl (fun total p => exactAdd total (convertToFloat64 p).toRat) acc
      = exactAdd acc (exactSum ps) := by
  induction ps generalizing acc with
  | nil => cases acc <;> simp [exactSum, exactAdd]
  | cons p rest ih =>
    simp only [exactSum, List.foldl_cons]
    rw [ih, ih (exactAdd (some 0) _), exactAdd_zero, exactAdd_assoc]

theorem exactSum_cons (p : Value) (ps : List Value) :
    exactSum (p :: ps) = exactAdd (convertToFloat64 p).toRat (exactSum ps) := by
  rw [exactSum, List.foldl_cons, exactSum_foldl, exactAdd_zero]

theorem fieldIsString_eq_true (field t : String) (e : Value)
    (h : fieldIsString field t e = true) :
    ∃ fields, e = .obj fields ∧ fields.lookup field = some (.str t) := by
  cases e with
  | obj fields =>
    refine ⟨fields, rfl, ?_⟩
    cases hl : fields.lookup field with
    | none => simp [fieldIsString, hl] at h
    | some v =>
      cases v with
      | str s =>
        simp only [fieldIsString, hl, decide_eq_true_eq] at h
        rw [h]
      | _ => simp [fieldIsString, hl] at h
  | _ => simp [fieldIsString] at h

theorem fieldIsString_of_lookup (field s t : String) (fields : List (String × Value))
    (h : fields.lookup field = some (.str s)) :
    fieldIsString field t (.obj fields) = decide (s = t) := by
  simp only [fieldIsString, h]

theorem fieldIsString_other (field t : String) (fields : List (String × Value))
    (h : ∀ s, fields.lookup field = some (.str s) → s ≠ t) :
    fieldIsString field t (.obj fields) = false := by
  cases hl : fields.lookup field with
  | none => simp only [fieldIsString, hl]
  | some v =>
    cases v with
    | str s =>
      simp only [fieldIsString, hl, decide_eq_false_iff_not]
      exact h s hl
    | _ => simp only [fieldIsString, hl]

theorem exactSum_partition_step (v g p l f : Option ℚ) :
    exactAdd v (exactAdd (exactAdd (exactAdd g p) l) f)
        = exactAdd (exactAdd (exactAdd (exactAdd v g) p) l) f
    ∧ exactAdd v (exactAdd (exactAdd (exactAdd g p) l) f)
        = exactAdd (exactAdd (exactAdd g (exactAdd v p)) l) f
    ∧ exactAdd v (exactAdd (exactAdd (exactAdd g p) l) f)
        = exactAdd (exactAdd (exactAdd g p) (exactAdd v l)) f
    ∧ exactAdd v (exactAdd (exactAdd (exactAdd g p) l) f)
        = exactAdd (exactAdd (exactAdd g p) l) (exactAdd v f) := by
  cases v <;> cases g <;> cases p <;> cases l <;> cases f <;>
    simp only [exactAdd, Option.some.injEq, and_self]
  refine ⟨?_, ?_, ?_, ?_⟩ <;> ring

theorem exactSum_partition (rs : List Value)
    (hty : ∀ e ∈ rs, ∃ t ∈ resourceTypeNames, fieldIsString "type" t e = true) :
    exactSum (rs.filterMap (fieldOf "totalPrice"))
      = exactAdd (exactAdd (exactAdd
          (exactSum ((rs.filter (fieldIsString "type" "gateway")).filterMap
            (fieldOf "totalPrice")))
          (exactSum ((rs.filter (fieldIsString "type" "publicip")).filterMap
            (fieldOf "totalPrice"))))
          (exactSum ((rs.filter (fieldIsString "type" "octavia-loadbalancer")).filterMap
            (fieldOf "totalPrice"))))
          (exactSum ((rs.filter (fieldIsString "type" "floatingip")).filterMap
            (fieldOf "totalPrice"))) := by
  induction rs with
  | nil => simp [exactSum, exactAdd]
  | cons e rest ih =>
    have ih2 := ih (fun e2 h2 => hty e2 (List.mem_cons_of_mem _ h2))
    obtain ⟨t, ht, htrue⟩ := hty e (List.mem_cons_self _ _)
    obtain ⟨fields, rfl, hl⟩ := fieldIsString_eq_true "type" t e htrue
    have hb : ∀ t2, fieldIsString "type" t2 (.obj fields) = decide (t = t2) :=
      fun t2 => fieldIsString_of_lookup "type" t t2 fields hl
    simp only [resourceTypeNames, List.mem_cons, List.mem_singleton, List.not_mem_nil,
      or_false] at ht
    cases hp : fieldOf "totalPrice" (.obj fields) with
    | none =>
      rcases ht with rfl | rfl | rfl | rfl <;>
        simp only [List.filterMap_cons, List.filter_cons, hb, hp, ih2] <;>
        simp only [decide_True, decide_False, if_true, if_false, List.filterMap_cons, hp,
          reduceCtorEq, Bool.false_eq_true] <;> rfl
    | some p =>
      obtain ⟨h1, h2, h3, h4⟩ := exactSum_partition_step (convertToFloat64 p).toRat
        (exactSum ((rest.filter (fieldIsString "type" "gateway")).filterMap
          (fieldOf "totalPrice")))
        (exactSum ((rest.filter (fieldIsString "type" "publicip")).filterMap
          (fieldOf "totalPrice")))
        (exactSum ((rest.filter (fieldIsString "type" "octavia-loadbalancer")).filterMap
          (fieldOf "totalPrice")))
        (exactSum ((rest.filter (fieldIsString "type" "floatingip")).filterMap
          (fieldOf "totalPrice")))
      rcases ht with rfl | rfl | rfl | rfl
      · simp only [List.filterMap_cons, List.filter_cons, hb, hp, exactSum_cons, ih2]
        simp only [decide_True, if_true, List.filterMap_cons, hp, exactSum_cons]
        simpa using h1
      · simp only [List.filterMap_cons, List.filter_cons, hb, hp, exactSum_cons, ih2]
        simp only [decide_True, if_true, List.filterMap_cons, hp, exactSum_cons]
        simpa using h2
      · simp only [List.filterMap_cons, List.filter_cons, hb, hp, exactSum_cons, ih2]
        simp only [decide_True, if_true, List.filterMap_cons, hp, exactSum_cons]
        simpa using h3
      · simp only [List.filterMap_cons, List.filter_cons, hb, hp, exactSum_cons, ih2]
        simp only [decide_True, if_true, List.filterMap_cons, hp, exactSum_cons]
        simpa using h4

/-- C28: per-type totals partition the resources total.  The resources total
and, for every type `t`, the per-type total are the sums of the `totalPrice`
of all entries and of the entries of type `t`.  When every element of the
resourcesUsage array is a mapping whose `type` is one of the strings `gateway`,
`publicip`, `octavia-loadbalancer`, `floatingip`, the prices of the resources
total, added exactly as rationals, are the exact sums of the four per-type
totals added up.  An element whose `type` is missing, is not a string or is any
other name changes none of the four per-type totals, and its price is among the
prices of the resources total. -/
theorem C28_resource_type_partition :
    resourceTypeNames = ["gateway", "publicip", "octavia-loadbalancer", "floatingip"]
    ∧ (∀ rs : List Value,
      calculateResourcesUsagePrice (.val (.arr rs))
        = .ok (.float64 (sumPrices (rs.filterMap (fieldOf "totalPrice"))))
      ∧ ∀ t, calculateResourcePrice t (.val (.arr rs))
        = .ok (.float64 (sumPrices
            ((rs.filter (fieldIsString "type" t)).filterMap (fieldOf "totalPrice")))))
    ∧ (∀ rs : List Value,
      (∀ e ∈ rs, ∃ t ∈ resourceTypeNames, fieldIsString "type" t e = true) →
      exactSum (rs.filterMap (fieldOf "totalPrice"))
        = exactAdd (exactAdd (exactAdd
            (exactSum ((rs.filter (fieldIsString "type" "gateway")).filterMap
              (fieldOf "totalPrice")))
            (exactSum ((rs.filter (fieldIsString "type" "publicip")).filterMap
              (fieldOf "totalPrice"))))
            (exactSum ((rs.filter (fieldIsString "type" "octavia-loadbalancer")).filterMap
              (fieldOf "totalPrice"))))
            (exactSum ((rs.filter (fieldIsString "type" "floatingip")).filterMap
              (fieldOf "totalPrice"))))
    ∧ (∀ (fields : List (String × Value)) (rs1 rs2 : List Value),
      (∀ s, fields.lookup "type" = some (.str s) → s ∉ resourceTypeNames) →
      (∀ t ∈ resourceTypeNames,
        calculateResourcePrice t (.val (.arr (rs1 ++ .obj fields :: rs2)))
          = calculateResourcePrice t (.val (.arr (rs1 ++ rs2))))
      ∧ ∀ p, fields.lookup "totalPrice" = some p →
        calculateResourcesUsagePrice (.val (.arr (rs1 ++ .obj fields :: rs2)))
          = .ok (.float64 (sumPrices (rs1.filterMap (fieldOf "totalPrice")
              ++ p :: rs2.filterMap (fieldOf "totalPrice"))))) := by
  have htotal : ∀ rs : List Value, calculateResourcesUsagePrice (.val (.arr rs))
      = .ok (.float64 (sumPrices (rs.filterMap (fieldOf "totalPrice")))) := by
    intro rs
    simp only [calculateResourcesUsagePrice, extractTotalPriceFromArray_eq_sumPrices]
  have htype : ∀ (rs : List Value) (t : String), calculateResourcePrice t (.val (.arr rs))
      = .ok (.float64 (sumPrices
          ((rs.filter (fieldIsString "type" t)).filterMap (fieldOf "totalPrice")))) := by
    intro rs t
    simp only [calculateResourcePrice, extractPriceFromFilteredArray_eq_filter,
      extractTotalPriceFromArray_eq_sumPrices]
  refine ⟨rfl, fun rs => ⟨htotal rs, htype rs⟩, exactSum_partition, ?_⟩
  intro fields rs1 rs2 hother
  constructor
  · intro t ht
    have hb : fieldIsString "type" t (.obj fields) = false :=
      fieldIsString_other "type" t fields (fun s hs hst => hother s hs (hst ▸ ht))
    rw [htype, htype]
    simp only [List.filter_append, List.filter_cons, hb]
    rfl
  · intro p hp
    rw [htotal]
    simp only [List.filterMap_append, List.filterMap_cons, fieldOf, hp]

/-- C28, for the sample resources `[{type: gateway, totalPrice: 3}, {type:
floatingip, totalPrice: 1.2}, {type: gateway, totalPrice: 2}]`. -/
theorem C28_resource_type_partition_witness :
    exactSum (sampleResources.filterMap (fieldOf "totalPrice"))
      = exactAdd (exactAdd (exactAdd
          (exactSum ((sampleResources.filter (fieldIsString "type" "gateway")).filterMap
            (fieldOf "totalPrice")))
          (exactSum ((sampleResources.filter (fieldIsString "type" "publicip")).filterMap
            (fieldOf "totalPrice"))))
          (exactSum ((sampleResources.filter
            (fieldIsString "type" "octavia-loadbalancer")).filterMap (fieldOf "totalPrice"))))
          (exactSum ((sampleResources.filter (fieldIsString "type" "floatingip")).filterMap
            (fieldOf "totalPrice"))) :=
  C28_resource_type_partition.2.2.1 sampleResources (by
    intro e he
    simp only [sampleResources, List.mem_cons, List.mem_singleton, List.not_mem_nil,
      or_false] at he
    rcases he with rfl | rfl | rfl
    · exact ⟨"gateway", by simp [resourceTypeNames], by simp [fieldIsString, List.lookup]⟩
    · exact ⟨"floatingip", by simp [resourceTypeNames], by simp [fieldIsString, List.lookup]⟩
    · exact ⟨"gateway", by simp [resourceTypeNames], by simp [fieldIsString, List.lookup]⟩)

/-! ### Rounding is monotone -/

namespace F64

theorem bitLen_unique (n L : Nat) (h1 : 2 ^ L ≤ n) (h2 : n < 2 ^ (L + 1)) :
    bitLen n = L + 1 := by
  have hn : 0 < n := lt_of_lt_of_le (by positivity) h1
  obtain ⟨b, hb, hp⟩ := bitLen_spec n hn
  have hu := lt_two_pow_bitLen n
  rw [hb] at hu ⊢
  have hbL : b ≤ L := by
    by_contra hc
    have : 2 ^ (L + 1) ≤ 2 ^ b := Nat.pow_le_pow_right (by norm_num) (by omega)
    omega
  have hLb : L ≤ b := by
    by_contra hc
    have : 2 ^ (b + 1) ≤ 2 ^ L := Nat.pow_le_pow_right (by norm_num) (by omega)
    omega
  omega

theorem bitLen_mul_pow (n j : Nat) (hn : 0 < n) : bitLen (n * 2 ^ j) = bitLen n + j := by
  obtain ⟨b, hb, hp⟩ := bitLen_spec n hn
  have hu := lt_two_pow_bitLen n
  rw [hb] at hu ⊢
  have h1 : 2 ^ (b + j) ≤ n * 2 ^ j := by
    rw [pow_add]; exact Nat.mul_le_mul_right _ hp
  have h2 : n * 2 ^ j < 2 ^ (b + j + 1) := by
    have : 2 ^ (b + j + 1) = 2 ^ (b + 1) * 2 ^ j := by ring
    rw [this]
    exact Nat.mul_lt_mul_of_pos_right hu (by positivity)
  rw [bitLen_unique _ _ h1 h2]
  ring

theorem bitLen_mono (n n2 : Nat) (h : n ≤ n2) : bitLen n ≤ bitLen n2 := by
  by_cases hn : n = 0
  · subst hn
    have : bitLen 0 = 0 := rfl
    omega
  · obtain ⟨b, hb, hp⟩ := bitLen_spec n (Nat.pos_of_ne_zero hn)
    have hu := lt_two_pow_bitLen n2
    by_contra hc
    have : 2 ^ bitLen n2 ≤ 2 ^ b := Nat.pow_le_pow_right (by norm_num) (by omega)
    omega

theorem roundShift_exact (q k : Nat) : roundShift (q * 2 ^ k) k = q := by
  have hpos : 0 < 2 ^ k := by positivity
  have hhalf : 0 < 2 ^ (k - 1) := by positivity
  unfold roundShift
  simp only [Nat.mul_div_cancel _ hpos, Nat.mul_mod_left]
  rw [if_neg]
  omega

theorem roundShift_mul (n j k : Nat) (hk : 1 ≤ k) :
    roundShift (n * 2 ^ j) (k + j) = roundShift n k := by
  have hj : 0 < 2 ^ j := by positivity
  have hq : n * 2 ^ j / 2 ^ (k + j) = n / 2 ^ k := by
    rw [pow_add, Nat.mul_div_mul_right _ _ hj]
  have hr : n * 2 ^ j % 2 ^ (k + j) = n % 2 ^ k * 2 ^ j := by
    rw [pow_add, Nat.mul_mod_mul_right]
  have hh : 2 ^ (k + j - 1) = 2 ^ (k - 1) * 2 ^ j := by
    rw [← pow_add]; congr 1; omega
  unfold roundShift
  simp only [hq, hr, hh]
  have e1 : (n % 2 ^ k * 2 ^ j > 2 ^ (k - 1) * 2 ^ j) ↔ (n % 2 ^ k > 2 ^ (k - 1)) :=
    Nat.mul_lt_mul_right hj
  have e2 : (n % 2 ^ k * 2 ^ j = 2 ^ (k - 1) * 2 ^ j) ↔ (n % 2 ^ k = 2 ^ (k - 1)) :=
    Nat.mul_left_inj (by omega)
  simp only [e1, e2]

theorem roundShift_mono (n n2 k : Nat) (h : n ≤ n2) : roundShift n k ≤ roundShift n2 k := by
  have hpos : 0 < 2 ^ k := by positivity
  have hq : n / 2 ^ k ≤ n2 / 2 ^ k := Nat.div_le_div_right h
  rcases Nat.lt_or_ge (n / 2 ^ k) (n2 / 2 ^ k) with hlt | hge
  · calc roundShift n k ≤ n / 2 ^ k + 1 := roundShift_le n k
      _ ≤ n2 / 2 ^ k := hlt
      _ ≤ roundShift n2 k := le_roundShift n2 k
  · have heq : n / 2 ^ k = n2 / 2 ^ k := le_antisymm hq hge
    have hr : n % 2 ^ k ≤ n2 % 2 ^ k := by
      have h1 := Nat.div_add_mod n (2 ^ k)
      have h2 := Nat.div_add_mod n2 (2 ^ k)
      rw [heq] at h1
      omega
    unfold roundShift
    simp only [heq]
    split_ifs with c1 c2 <;> omega

end F64

theorem roundUnits_le_cap (n : Nat) : roundUnits n ≤ 2 ^ 2098 := by
  unfold roundUnits
  exact min_le_right _ _

theorem roundUnits_mono (n n2 : Nat) (h : n ≤ n2) : roundUnits n ≤ roundUnits n2 := by
  unfold roundUnits
  simp only
  apply min_le_min _ le_rfl
  have hb := F64.bitLen_mono n n2 h
  rcases Nat.lt_or_ge (F64.bitLen n - 53) (F64.bitLen n2 - 53) with hlt | hge
  · -- a coarser grid for `n2`
    by_cases hn : n = 0
    · subst hn
      have h0 : F64.bitLen 0 = 0 := rfl
      simp [h0, F64.roundShift]
    obtain ⟨b, hbL, hp⟩ := F64.bitLen_spec n (Nat.pos_of_ne_zero hn)
    have hu := F64.lt_two_pow_bitLen n
    have hn2 : 0 < n2 := lt_of_lt_of_le (Nat.pos_of_ne_zero hn) h
    obtain ⟨b2, hb2, hp2⟩ := F64.bitLen_spec n2 hn2
    -- the result for `n` is at most `2 ^ bitLen n`
    have hleft : F64.roundShift n (F64.bitLen n - 53) * 2 ^ (F64.bitLen n - 53)
        ≤ 2 ^ F64.bitLen n := by
      by_cases h53 : F64.bitLen n ≤ 53
      · have hk : F64.bitLen n - 53 = 0 := by omega
        rw [hk]
        have := F64.roundShift_exact n 0
        simp only [pow_zero, mul_one] at this ⊢
        rw [this]
        exact le_of_lt hu
      · have hk : F64.bitLen n = 53 + (F64.bitLen n - 53) := by omega
        have hdiv : n / 2 ^ (F64.bitLen n - 53) < 2 ^ 53 := by
          apply Nat.div_lt_of_lt_mul
          rw [← pow_add, add_comm, ← hk]
          exact hu
        have hrs := F64.roundShift_le n (F64.bitLen n - 53)
        have : F64.roundShift n (F64.bitLen n - 53) ≤ 2 ^ 53 := by omega
        calc F64.roundShift n (F64.bitLen n - 53) * 2 ^ (F64.bitLen n - 53)
            ≤ 2 ^ 53 * 2 ^ (F64.bitLen n - 53) := Nat.mul_le_mul_right _ this
          _ = 2 ^ F64.bitLen n := by rw [← pow_add, ← hk]
    -- the result for `n2` is at least `2 ^ (bitLen n2 - 1)`
    have hk2 : F64.bitLen n2 = 53 + (F64.bitLen n2 - 53) := by omega
    have hright : 2 ^ (F64.bitLen n2 - 1)
        ≤ F64.roundShift n2 (F64.bitLen n2 - 53) * 2 ^ (F64.bitLen n2 - 53) := by
      have hsplit : 2 ^ (F64.bitLen n2 - 1) = 2 ^ 52 * 2 ^ (F64.bitLen n2 - 53) := by
        rw [← pow_add]; congr 1; omega
      have hge2 : 2 ^ 52 ≤ n2 / 2 ^ (F64.bitLen n2 - 53) := by
        rw [Nat.le_div_iff_mul_le (by positivity), ← hsplit, hb2]
        simpa using hp2
      rw [hsplit]
      exact Nat.mul_le_mul_right _ (le_trans hge2 (F64.le_roundShift _ _))
    have hmid : 2 ^ F64.bitLen n ≤ 2 ^ (F64.bitLen n2 - 1) :=
      Nat.pow_le_pow_right (by norm_num) (by omega)
    exact le_trans hleft (le_trans hmid hright)
  · have hk : F64.bitLen n - 53 = F64.bitLen n2 - 53 := by omega
    rw [hk]
    exact Nat.mul_le_mul_right _ (F64.roundShift_mono n n2 _ h)

namespace F64

theorem two_pow_le (a b : Nat) (h : a ≤ b) : 2 ^ a ≤ 2 ^ b :=
  Nat.pow_le_pow_right (by norm_num) h

theorem scaled_pack (q j : Nat) (hq0 : 0 < q) (hq : q ≤ 2 ^ 53) (hn : 2 ^ 52 ≤ q ∨ j = 0) :
    scaled (pack false q ((j : Int) - 1074))
      = some ((min (q * 2 ^ j) (2 ^ 2098) : Nat) : Int) := by
  have h52 : (2 : Nat) ^ 52 ≠ 0 := by positivity
  have hlt : (2 : Nat) ^ 52 < 2 ^ 53 := by norm_num
  unfold pack
  by_cases h53 : q = 2 ^ 53
  · simp only [if_pos h53, if_neg h52]
    by_cases hj : j ≤ 2044
    · have hc : canonicalF64 (2 ^ 52) ((j : Int) - 1074 + 1) :=
        Or.inl ⟨le_rfl, hlt, by omega, by omega⟩
      have hexp : ((j : Int) - 1074 + 1 + 1074).toNat = j + 1 := by omega
      have hle : 2 ^ 53 * 2 ^ j ≤ 2 ^ 2098 := by
        rw [← pow_add]; exact two_pow_le _ _ (by omega)
      simp only [dif_pos hc, scaled, hexp, h53, min_eq_left hle, Bool.false_eq_true, if_false]
      congr 2
      rw [pow_succ]
      ring
    · have hc : ¬ canonicalF64 (2 ^ 52) ((j : Int) - 1074 + 1) := by
        rintro (⟨_, _, _, h4⟩ | ⟨_, h2, _⟩)
        · omega
        · exact lt_irrefl _ h2
      have hle : 2 ^ 2098 ≤ 2 ^ 53 * 2 ^ j := by
        rw [← pow_add]; exact two_pow_le _ _ (by omega)
      simp only [dif_neg hc, scaled, h53, min_eq_right hle]
      simp only [Bool.false_eq_true, if_false, Nat.cast_pow, Nat.cast_ofNat]
  · have hq2 : q < 2 ^ 53 := lt_of_le_of_ne hq h53
    have hq1 : q ≠ 0 := by omega
    simp only [if_neg h53, if_neg hq1]
    by_cases hbig : 2 ^ 52 ≤ q
    · by_cases hj : j ≤ 2045
      · have hc : canonicalF64 q ((j : Int) - 1074) := Or.inl ⟨hbig, hq2, by omega, by omega⟩
        have hexp : ((j : Int) - 1074 + 1074).toNat = j := by omega
        have hle : q * 2 ^ j ≤ 2 ^ 2098 := by
          have h1 : q * 2 ^ j ≤ 2 ^ 53 * 2 ^ j := Nat.mul_le_mul_right _ hq
          have h2 : 2 ^ 53 * 2 ^ j = 2 ^ (53 + j) := by rw [← pow_add]
          have h3 : 2 ^ (53 + j) ≤ 2 ^ 2098 := two_pow_le _ _ (by omega)
          exact le_trans h1 (le_trans (le_of_eq h2) h3)
        simp only [dif_pos hc, scaled, hexp, min_eq_left hle]
        rfl
      · have hc : ¬ canonicalF64 q ((j : Int) - 1074) := by
          rintro (⟨_, _, _, h4⟩ | ⟨_, h2, _⟩)
          · omega
          · omega
        have hle : 2 ^ 2098 ≤ q * 2 ^ j := by
          calc 2 ^ 2098 = 2 ^ 52 * 2 ^ 2046 := by rw [← pow_add]
            _ ≤ q * 2 ^ 2046 := Nat.mul_le_mul_right _ hbig
            _ ≤ q * 2 ^ j := Nat.mul_le_mul_left _
                (two_pow_le _ _ (by omega))
        simp only [dif_neg hc, scaled, min_eq_right hle]
        simp only [Bool.false_eq_true, if_false, Nat.cast_pow, Nat.cast_ofNat]
    · have hj : j = 0 := by
        rcases hn with h | h
        · exact absurd h hbig
        · exact h
      subst hj
      have hc : canonicalF64 q (((0 : Nat) : Int) - 1074) :=
        Or.inr ⟨hq0, by omega, by simp⟩
      have hexp : ((((0 : Nat) : Int)) - 1074 + 1074).toNat = 0 := by simp
      have hle : q * 2 ^ 0 ≤ 2 ^ 2098 := by
        calc q * 2 ^ 0 = q := by simp
          _ ≤ 2 ^ 53 := hq
          _ ≤ 2 ^ 2098 := two_pow_le _ _ (by norm_num)
      simp only [dif_pos hc, scaled, hexp, min_eq_left hle]
      rfl

theorem roundUnits_eq (n k : Nat) (hk : bitLen n - 53 = k) :
    roundUnits n = min (roundShift n k * 2 ^ k) (2 ^ 2098) := by
  unfold roundUnits
  simp only [hk]

theorem scaled_roundDyadic (n j : Nat) (hn : 0 < n) :
    scaled (roundDyadic false n ((j : Int) - 1074))
      = some ((roundUnits (n * 2 ^ j) : Nat) : Int) := by
  have hn0 : n ≠ 0 := by omega
  obtain ⟨b, hb, hp⟩ := bitLen_spec n hn
  have hu := lt_two_pow_bitLen n
  have hbl : bitLen (n * 2 ^ j) = bitLen n + j := bitLen_mul_pow n j hn
  unfold roundDyadic
  simp only [if_neg hn0]
  by_cases hsmall : bitLen n + j ≤ 53
  · -- nothing to round, exponent `-1074`
    have he1 : max ((j : Int) - 1074 + ((bitLen n : Nat) : Int) - 53) (-1074) = -1074 := by
      apply max_eq_right; omega
    have hle : (-1074 : Int) ≤ (j : Int) - 1074 := by omega
    have hsh : ((j : Int) - 1074 - -1074).toNat = j := by omega
    rw [he1, if_pos hle, hsh]
    have hq : n * 2 ^ j < 2 ^ 53 := by
      have h1 : n * 2 ^ j < 2 ^ bitLen n * 2 ^ j :=
        Nat.mul_lt_mul_of_pos_right hu (by positivity)
      have h2 : 2 ^ bitLen n * 2 ^ j = 2 ^ (bitLen n + j) := by rw [← pow_add]
      have h3 : 2 ^ (bitLen n + j) ≤ 2 ^ 53 := two_pow_le _ _ hsmall
      omega
    have hpk := scaled_pack (n * 2 ^ j) 0 (by positivity) (le_of_lt hq) (Or.inr rfl)
    have hcast : (((0 : Nat) : Int) - 1074) = -1074 := by simp
    rw [hcast] at hpk
    rw [hpk, roundUnits_eq (n * 2 ^ j) 0 (by omega)]
    have := roundShift_exact (n * 2 ^ j) 0
    simp only [pow_zero, mul_one] at this ⊢
    rw [this]
  · have hk : bitLen (n * 2 ^ j) - 53 = bitLen n + j - 53 := by omega
    have he1 : max ((j : Int) - 1074 + ((bitLen n : Nat) : Int) - 53) (-1074)
        = (((bitLen n + j - 53 : Nat)) : Int) - 1074 := by
      rw [max_eq_left (by omega)]
      omega
    rw [he1]
    by_cases hexact : bitLen n ≤ 53
    · -- the significand is padded, not rounded
      have hle : (((bitLen n + j - 53 : Nat)) : Int) - 1074 ≤ (j : Int) - 1074 := by omega
      have hsh : ((j : Int) - 1074 - ((((bitLen n + j - 53 : Nat)) : Int) - 1074)).toNat
          = 53 - bitLen n := by omega
      rw [if_pos hle, hsh]
      have hbq : bitLen (n * 2 ^ (53 - bitLen n)) = 53 := by
        rw [bitLen_mul_pow n _ hn]; omega
      have hq1 : 2 ^ 52 ≤ n * 2 ^ (53 - bitLen n) := by
        obtain ⟨b2, hb2, hp2⟩ := bitLen_spec (n * 2 ^ (53 - bitLen n)) (by positivity)
        have : b2 = 52 := by omega
        rw [this] at hp2
        exact hp2
      have hq2 : n * 2 ^ (53 - bitLen n) < 2 ^ 53 := by
        have := lt_two_pow_bitLen (n * 2 ^ (53 - bitLen n))
        rw [hbq] at this
        exact this
      rw [scaled_pack _ _ (by positivity) (le_of_lt hq2) (Or.inl hq1),
        roundUnits_eq (n * 2 ^ j) _ hk]
      have hsplit : n * 2 ^ j = n * 2 ^ (53 - bitLen n) * 2 ^ (bitLen n + j - 53) := by
        rw [mul_assoc, ← pow_add]; congr 2; omega
      rw [hsplit, roundShift_exact]
    · -- the significand is rounded to 53 bits
      have hlt : ¬ ((((bitLen n + j - 53 : Nat)) : Int) - 1074 ≤ (j : Int) - 1074) := by omega
      have hsh : ((((bitLen n + j - 53 : Nat)) : Int) - 1074 - ((j : Int) - 1074)).toNat
          = bitLen n - 53 := by omega
      rw [if_neg hlt, hsh]
      have hb53 : bitLen n = 53 + (bitLen n - 53) := by omega
      have hdiv1 : 2 ^ 52 ≤ n / 2 ^ (bitLen n - 53) := by
        rw [Nat.le_div_iff_mul_le (by positivity), ← pow_add]
        have : 52 + (bitLen n - 53) = b := by omega
        rw [this]
        exact hp
      have hdiv2 : n / 2 ^ (bitLen n - 53) < 2 ^ 53 := by
        apply Nat.div_lt_of_lt_mul
        rw [← pow_add, add_comm, ← hb53]
        exact hu
      have hq1 : 2 ^ 52 ≤ roundShift n (bitLen n - 53) :=
        le_trans hdiv1 (le_roundShift _ _)
      have hq2 : roundShift n (bitLen n - 53) ≤ 2 ^ 53 := by
        have := roundShift_le n (bitLen n - 53)
        omega
      rw [scaled_pack _ _ (lt_of_lt_of_le (by positivity) hq1) hq2 (Or.inl hq1),
        roundUnits_eq (n * 2 ^ j) _ hk]
      have hkj : bitLen n + j - 53 = (bitLen n - 53) + j := by omega
      rw [hkj, roundShift_mul n j (bitLen n - 53) (by omega)]

theorem two_pow_lt (a b : Nat) (h : a < b) : 2 ^ a < 2 ^ b :=
  Nat.pow_lt_pow_right (by norm_num) h

theorem scaled_zero : scaled (0 : F64) = some 0 := rfl

theorem le_iff (x y : F64) :
    x ≤ y ↔ ∃ a b : Int, scaled x = some a ∧ scaled y = some b ∧ a ≤ b := by
  show leb x y = true ↔ _
  unfold leb
  cases hx : scaled x with
  | none => simp
  | some a =>
    cases hy : scaled y with
    | none => simp
    | some b => simp

theorem nonneg_iff (x : F64) : 0 ≤ x ↔ ∃ a : Nat, scaled x = some (a : Int) := by
  rw [le_iff]
  constructor
  · rintro ⟨a, b, ha, hb, hab⟩
    rw [scaled_zero] at ha
    cases ha
    exact ⟨b.toNat, by rw [hb, Int.toNat_of_nonneg hab]⟩
  · rintro ⟨a, ha⟩
    exact ⟨0, a, scaled_zero, ha, Int.natCast_nonneg a⟩

theorem cap_pos : (0 : Int) < 2 ^ 2098 := by positivity

theorem roundUnits_cap : roundUnits (2 ^ 2098) = 2 ^ 2098 := by
  have hb : bitLen (2 ^ 2098) = 2098 + 1 :=
    bitLen_unique (2 ^ 2098) 2098 (le_refl _) (two_pow_lt _ _ (by norm_num))
  have hsplit : (2 : Nat) ^ 2098 = 2 ^ 52 * 2 ^ 2046 := by rw [← pow_add]
  rw [roundUnits_eq (2 ^ 2098) 2046 (by rw [hb])]
  nth_rewrite 1 [hsplit]
  rw [roundShift_exact, ← hsplit, min_self]

theorem roundUnits_zero : roundUnits 0 = 0 := by
  have hb : bitLen 0 = 0 := rfl
  rw [roundUnits_eq 0 0 (by rw [hb])]
  have := roundShift_exact 0 0
  simp only [pow_zero, mul_one] at this ⊢
  rw [this]
  exact Nat.zero_min _

/-- Rounding leaves the position of a binary64 that is not negative as it
is. -/
theorem roundUnits_scaled (x : F64) (a : Nat) (hx : scaled x = some (a : Int)) :
    roundUnits a = a := by
  cases x with
  | nan => simp [scaled] at hx
  | inf s =>
    cases s
    · simp only [scaled, Bool.false_eq_true, if_false, Option.some.injEq] at hx
      have hcast : ((2 ^ 2098 : Nat) : Int) = (a : Int) := by
        rw [Nat.cast_pow]; exact hx
      have : a = 2 ^ 2098 := (Int.natCast_inj.mp hcast).symm
      rw [this]
      exact roundUnits_cap
    · simp only [scaled, if_true, Option.some.injEq] at hx
      have h1 := cap_pos
      have h2 := Int.natCast_nonneg a
      linarith
  | zero s =>
    simp only [scaled, Option.some.injEq] at hx
    have : a = 0 := by exact_mod_cast hx.symm
    rw [this]
    exact roundUnits_zero
  | fin s m e h =>
    cases s
    · simp only [scaled, Bool.false_eq_true, if_false, Option.some.injEq] at hx
      have ha : a = m * 2 ^ (e + 1074).toNat := by exact_mod_cast hx.symm
      rw [ha]
      rcases h with ⟨h1, h2, h3, h4⟩ | ⟨h1, h2, h3⟩
      · have hm : 0 < m := lt_of_lt_of_le (by positivity) h1
        have hb : bitLen m = 52 + 1 := bitLen_unique m 52 h1 h2
        have hbl := bitLen_mul_pow m (e + 1074).toNat hm
        rw [roundUnits_eq _ (e + 1074).toNat (by rw [hbl, hb]; omega), roundShift_exact]
        apply min_eq_left
        have hj : (e + 1074).toNat ≤ 2045 := by omega
        have i1 : m * 2 ^ (e + 1074).toNat ≤ 2 ^ 53 * 2 ^ (e + 1074).toNat :=
          Nat.mul_le_mul_right _ (le_of_lt h2)
        have i2 : 2 ^ 53 * 2 ^ (e + 1074).toNat = 2 ^ (53 + (e + 1074).toNat) := by
          rw [← pow_add]
        have i3 : 2 ^ (53 + (e + 1074).toNat) ≤ 2 ^ 2098 := two_pow_le _ _ (by omega)
        exact le_trans i1 (le_trans (le_of_eq i2) i3)
      · have hj : (e + 1074).toNat = 0 := by omega
        rw [hj]
        have hle : bitLen m ≤ 52 := by
          by_contra hc
          obtain ⟨b, hb, hp⟩ := bitLen_spec m h1
          have : 2 ^ 52 ≤ 2 ^ b := two_pow_le _ _ (by omega)
          omega
        have hbm : bitLen (m * 2 ^ 0) - 53 = 0 := by
          simp only [pow_zero, mul_one]; omega
        rw [roundUnits_eq _ 0 hbm, roundShift_exact]
        apply min_eq_left
        have i1 : m * 2 ^ 0 ≤ 2 ^ 52 := by simp only [pow_zero, mul_one]; omega
        exact le_trans i1 (two_pow_le _ _ (by norm_num))
    · simp only [scaled, if_true, Option.some.injEq] at hx
      have h2 := Int.natCast_nonneg a
      have h3 : (0 : Int) ≤ ((m * 2 ^ (e + 1074).toNat : Nat) : Int) := Int.natCast_nonneg _
      have hm : 0 < m := by rcases h with h | h <;> [exact lt_of_lt_of_le (by positivity) h.1; exact h.1]
      have h4 : (0 : Int) < ((m * 2 ^ (e + 1074).toNat : Nat) : Int) := by
        have : 0 < m * 2 ^ (e + 1074).toNat := by positivity
        exact_mod_cast this
      linarith

theorem roundUnits_of_cap_le (n : Nat) (h : 2 ^ 2098 ≤ n) : roundUnits n = 2 ^ 2098 :=
  le_antisymm (roundUnits_le_cap n) (by
    have := roundUnits_mono _ _ h
    rwa [roundUnits_cap] at this)

theorem scaled_nat_cases (x : F64) (a : Nat) (hx : scaled x = some (a : Int)) :
    (x = inf false ∧ a = 2 ^ 2098) ∨ (∃ s, x = zero s ∧ a = 0)
      ∨ (∃ m e h, x = fin false m e h ∧ a = m * 2 ^ (e + 1074).toNat) := by
  cases x with
  | nan => simp [scaled] at hx
  | inf s =>
    cases s
    · simp only [scaled, Bool.false_eq_true, if_false, Option.some.injEq] at hx
      have hcast : ((2 ^ 2098 : Nat) : Int) = (a : Int) := by
        rw [Nat.cast_pow]; exact hx
      exact Or.inl ⟨rfl, (Int.natCast_inj.mp hcast).symm⟩
    · simp only [scaled, if_true, Option.some.injEq] at hx
      have h1 := cap_pos
      have h2 := Int.natCast_nonneg a
      linarith
  | zero s =>
    simp only [scaled, Option.some.injEq] at hx
    exact Or.inr (Or.inl ⟨s, rfl, by exact_mod_cast hx.symm⟩)
  | fin s m e h =>
    cases s
    · simp only [scaled, Bool.false_eq_true, if_false, Option.some.injEq] at hx
      exact Or.inr (Or.inr ⟨m, e, h, rfl, by exact_mod_cast hx.symm⟩)
    · simp only [scaled, if_true, Option.some.injEq] at hx
      have h2 := Int.natCast_nonneg a
      have hm : 0 < m := by
        rcases h with h | h
        · exact lt_of_lt_of_le (by positivity) h.1
        · exact h.1
      have h4 : (0 : Int) < ((m * 2 ^ (e + 1074).toNat : Nat) : Int) := by
        have : 0 < m * 2 ^ (e + 1074).toNat := by positivity
        exact_mod_cast this
      linarith

theorem scaled_inf : scaled (inf false) = some (((2 ^ 2098 : Nat)) : Int) := by
  simp only [scaled, Bool.false_eq_true, if_false, Nat.cast_pow, Nat.cast_ofNat]

theorem canonicalF64_pos {m : Nat} {e : Int} (h : canonicalF64 m e) : 0 < m := by
  rcases h with h | h
  · exact lt_of_lt_of_le (by positivity) h.1
  · exact h.1

theorem scaled_add_fin (m1 m2 : Nat) (e1 e2 : Int) (h1 : canonicalF64 m1 e1)
    (h2 : canonicalF64 m2 e2) :
    scaled (fin false m1 e1 h1 + fin false m2 e2 h2)
      = some ((roundUnits (m1 * 2 ^ (e1 + 1074).toNat + m2 * 2 ^ (e2 + 1074).toNat) : Nat)
          : Int) := by
  have hm1 := canonicalF64_pos h1
  have he1 := canonicalF64_exp h1
  have he2 := canonicalF64_exp h2
  have hmin : -1074 ≤ min e1 e2 := le_min he1 he2
  have hN0 : 0 < m1 * 2 ^ (e1 - min e1 e2).toNat + m2 * 2 ^ (e2 - min e1 e2).toNat := by
    positivity
  have hv : (m1 : Int) * 2 ^ (e1 - min e1 e2).toNat + (m2 : Int) * 2 ^ (e2 - min e1 e2).toNat
      = ((m1 * 2 ^ (e1 - min e1 e2).toNat + m2 * 2 ^ (e2 - min e1 e2).toNat : Nat) : Int) := by
    push_cast; rfl
  have hne : ((m1 * 2 ^ (e1 - min e1 e2).toNat + m2 * 2 ^ (e2 - min e1 e2).toNat : Nat) : Int)
      ≠ 0 := by
    exact_mod_cast (Nat.pos_iff_ne_zero.mp hN0)
  have hnn : ¬ ((m1 * 2 ^ (e1 - min e1 e2).toNat + m2 * 2 ^ (e2 - min e1 e2).toNat : Nat) : Int)
      < 0 := not_lt.mpr (Int.natCast_nonneg _)
  have hexp : min e1 e2 = (((min e1 e2 + 1074).toNat : Nat) : Int) - 1074 := by omega
  rw [add_def]
  simp only [add, Bool.false_eq_true, if_false]
  rw [hv, if_neg hne, decide_eq_false hnn, Int.natAbs_ofNat]
  have key : ∀ (N j : Nat) (e : Int), 0 < N → e = (j : Int) - 1074 →
      scaled (roundDyadic false N e) = some ((roundUnits (N * 2 ^ j) : Nat) : Int) := by
    intro N j e hN he
    rw [he]
    exact scaled_roundDyadic N j hN
  rw [key _ _ _ hN0 hexp]
  congr 3
  have hle1 := min_le_left e1 e2
  have hle2 := min_le_right e1 e2
  have d1 : (e1 - min e1 e2).toNat + (min e1 e2 + 1074).toNat = (e1 + 1074).toNat := by omega
  have d2 : (e2 - min e1 e2).toNat + (min e1 e2 + 1074).toNat = (e2 + 1074).toNat := by omega
  rw [add_mul, mul_assoc, mul_assoc, ← pow_add, ← pow_add, d1, d2]

/-- The sum of two binary64 that are not negative is the rounded sum of their
positions. -/
theorem scaled_add (x y : F64) (a b : Nat) (hx : scaled x = some (a : Int))
    (hy : scaled y = some (b : Int)) :
    scaled (x + y) = some ((roundUnits (a + b) : Nat) : Int) := by
  have hidx := roundUnits_scaled x a hx
  have hidy := roundUnits_scaled y b hy
  rcases scaled_nat_cases x a hx with ⟨rfl, ha⟩ | ⟨s, rfl, ha⟩ | ⟨m1, e1, h1, rfl, ha⟩
  · -- `+Inf + y`
    have hsum : inf false + y = inf false := by
      rcases scaled_nat_cases y b hy with ⟨rfl, _⟩ | ⟨t, rfl, _⟩ | ⟨m2, e2, h2, rfl, _⟩ <;> rfl
    rw [hsum, scaled_inf, roundUnits_of_cap_le (a + b) (by omega)]
  · rcases scaled_nat_cases y b hy with ⟨rfl, hb⟩ | ⟨t, rfl, hb⟩ | ⟨m2, e2, h2, rfl, hb⟩
    · have hsum : zero s + inf false = inf false := rfl
      rw [hsum, scaled_inf, roundUnits_of_cap_le (a + b) (by omega)]
    · have hsum : zero s + zero t = zero (s && t) := rfl
      rw [hsum, ha, hb]
      simp only [scaled, add_zero, roundUnits_zero, Nat.cast_zero]
    · have hsum : zero s + fin false m2 e2 h2 = fin false m2 e2 h2 := rfl
      rw [hsum, hy, ha, zero_add, hidy]
  · rcases scaled_nat_cases y b hy with ⟨rfl, hb⟩ | ⟨t, rfl, hb⟩ | ⟨m2, e2, h2, rfl, hb⟩
    · have hsum : fin false m1 e1 h1 + inf false = inf false := rfl
      rw [hsum, scaled_inf, roundUnits_of_cap_le (a + b) (by omega)]
    · have hsum : fin false m1 e1 h1 + zero t = fin false m1 e1 h1 := rfl
      rw [hsum, hx, hb, add_zero, hidx]
    · rw [scaled_add_fin, ha, hb]

/-! ### The order on sums -/

theorem add_nonneg_of_nonneg (x y : F64) (hx : 0 ≤ x) (hy : 0 ≤ y) : 0 ≤ x + y := by
  obtain ⟨a, ha⟩ := (nonneg_iff x).mp hx
  obtain ⟨b, hb⟩ := (nonneg_iff y).mp hy
  exact (nonneg_iff _).mpr ⟨_, scaled_add x y a b ha hb⟩

theorem le_add_right_of_nonneg (x y : F64) (hx : 0 ≤ x) (hy : 0 ≤ y) : x ≤ x + y := by
  obtain ⟨a, ha⟩ := (nonneg_iff x).mp hx
  obtain ⟨b, hb⟩ := (nonneg_iff y).mp hy
  refine (le_iff _ _).mpr ⟨a, _, ha, scaled_add x y a b ha hb, ?_⟩
  have h1 := roundUnits_mono a (a + b) (Nat.le_add_right _ _)
  rw [roundUnits_scaled x a ha] at h1
  exact_mod_cast h1

theorem le_add_left_of_nonneg (x y : F64) (hx : 0 ≤ x) (hy : 0 ≤ y) : y ≤ x + y := by
  obtain ⟨a, ha⟩ := (nonneg_iff x).mp hx
  obtain ⟨b, hb⟩ := (nonneg_iff y).mp hy
  refine (le_iff _ _).mpr ⟨b, _, hb, scaled_add x y a b ha hb, ?_⟩
  have h1 := roundUnits_mono b (a + b) (Nat.le_add_left _ _)
  rw [roundUnits_scaled y b hb] at h1
  exact_mod_cast h1

theorem add_le_add_right_of_nonneg (x x2 y : F64) (hx : 0 ≤ x) (hxx : x ≤ x2) (hy : 0 ≤ y) :
    x + y ≤ x2 + y := by
  obtain ⟨a, ha⟩ := (nonneg_iff x).mp hx
  obtain ⟨b, hb⟩ := (nonneg_iff y).mp hy
  obtain ⟨a1, a2, h1, h2, h12⟩ := (le_iff _ _).mp hxx
  rw [ha] at h1
  cases h1
  have ha2 : scaled x2 = some ((a2.toNat : Nat) : Int) := by
    rw [h2, Int.toNat_of_nonneg (le_trans (Int.natCast_nonneg a) h12)]
  refine (le_iff _ _).mpr ⟨_, _, scaled_add x y a b ha hb, scaled_add x2 y _ b ha2 hb, ?_⟩
  have hle : a ≤ a2.toNat := by omega
  exact_mod_cast roundUnits_mono _ _ (Nat.add_le_add_right hle b)

theorem le_chain (x y z : F64) (hxy : x ≤ y) (hyz : y ≤ z) : x ≤ z := by
  obtain ⟨a, b, ha, hb, hab⟩ := (le_iff _ _).mp hxy
  obtain ⟨b2, c, hb2, hc, hbc⟩ := (le_iff _ _).mp hyz
  rw [hb] at hb2
  cases hb2
  exact (le_iff _ _).mpr ⟨a, c, ha, hc, Int.le_trans hab hbc⟩

theorem le_refl_of_nonneg (x : F64) (hx : 0 ≤ x) : x ≤ x := by
  obtain ⟨a, ha⟩ := (nonneg_iff x).mp hx
  exact (le_iff _ _).mpr ⟨a, a, ha, ha, Int.le_refl _⟩

theorem zero_le_zero_f64 : (0 : F64) ≤ 0 := by decide

end F64

/-! ### Monotone totals -/

theorem sumPrices_foldl_nonneg (ps : List Value) (acc : F64)
    (hps : ∀ p ∈ ps, 0 ≤ convertToFloat64 p) (hacc : 0 ≤ acc) :
    0 ≤ ps.foldl (fun total p => total + convertToFloat64 p) acc := by
  induction ps generalizing acc with
  | nil => exact hacc
  | cons p rest ih =>
    exact ih _ (fun q hq => hps q (List.mem_cons_of_mem _ hq))
      (F64.add_nonneg_of_nonneg _ _ hacc (hps p (List.mem_cons_self _ _)))

theorem sumPrices_nonneg (ps : List Value) (hps : ∀ p ∈ ps, 0 ≤ convertToFloat64 p) :
    0 ≤ sumPrices ps :=
  sumPrices_foldl_nonneg ps 0 hps F64.zero_le_zero_f64

theorem sumPrices_foldl_sublist (l1 l2 : List Value) (hsub : List.Sublist l1 l2) :
    ∀ (a1 a2 : F64), (∀ p ∈ l2, 0 ≤ convertToFloat64 p) → 0 ≤ a1 → a1 ≤ a2 →
      l1.foldl (fun total p => total + convertToFloat64 p) a1
        ≤ l2.foldl (fun total p => total + convertToFloat64 p) a2 := by
  induction hsub with
  | slnil => intro a1 a2 _ _ h; exact h
  | cons p hs ih =>
    intro a1 a2 hps h1 h12
    have hp := hps p (List.mem_cons_self _ _)
    have h2 : 0 ≤ a2 := F64.le_chain _ _ _ h1 h12
    simp only [List.foldl_cons]
    exact ih a1 _ (fun q hq => hps q (List.mem_cons_of_mem _ hq)) h1
      (F64.le_chain _ _ _ h12 (F64.le_add_right_of_nonneg _ _ h2 hp))
  | cons₂ p hs ih =>
    intro a1 a2 hps h1 h12
    have hp := hps p (List.mem_cons_self _ _)
    simp only [List.foldl_cons]
    exact ih _ _ (fun q hq => hps q (List.mem_cons_of_mem _ hq))
      (F64.add_nonneg_of_nonneg _ _ h1 hp) (F64.add_le_add_right_of_nonneg _ _ _ h1 h12 hp)

theorem sumPrices_sublist (l1 l2 : List Value) (hsub : List.Sublist l1 l2)
    (hps : ∀ p ∈ l2, 0 ≤ convertToFloat64 p) : sumPrices l1 ≤ sumPrices l2 :=
  sumPrices_foldl_sublist l1 l2 hsub 0 0 hps F64.zero_le_zero_f64 F64.zero_le_zero_f64

theorem foldl_terms_le (P : String → F64) (cats : List String)
    (hP : ∀ c ∈ cats, 0 ≤ P c) (acc : F64) (hacc : 0 ≤ acc) :
    0 ≤ cats.foldl (fun total c => total + P c) acc
    ∧ acc ≤ cats.foldl (fun total c => total + P c) acc
    ∧ ∀ c ∈ cats, P c ≤ cats.foldl (fun total c => total + P c) acc := by
  induction cats generalizing acc with
  | nil => exact ⟨hacc, F64.le_refl_of_nonneg _ hacc, fun c hc => by cases hc⟩
  | cons c rest ih =>
    have hc := hP c (List.mem_cons_self _ _)
    have hacc2 := F64.add_nonneg_of_nonneg _ _ hacc hc
    obtain ⟨i1, i2, i3⟩ := ih (fun d hd => hP d (List.mem_cons_of_mem _ hd)) _ hacc2
    simp only [List.foldl_cons]
    refine ⟨i1, F64.le_chain _ _ _ (F64.le_add_right_of_nonneg _ _ hacc hc) i2, ?_⟩
    intro d hd
    rcases List.mem_cons.mp hd with rfl | hd
    · exact F64.le_chain _ _ _ (F64.le_add_left_of_nonneg _ _ hacc hc) i2
    · exact i3 d hd

theorem extractHourlyUsageField_arrayUnder (h : List (String × Value)) (c : String) :
    extractHourlyUsageField c "totalPrice" (.val (.obj h))
      = .ok (.float64 (extractTotalPriceFromArray (arrayUnder h c) "totalPrice")) := by
  cases hl : List.lookup c h with
  | none =>
    simp only [extractHourlyUsageField, arrayUnder, hl, zeroResult, OperationCount]
    rfl
  | some v =>
    cases v <;>
      simp only [extractHourlyUsageField, arrayUnder, hl, zeroResult, OperationCount,
        OperationTotalPrice] <;> rfl

theorem calculateCurrentQuantumPrice_notebookArray (h : List (String × Value)) :
    calculateCurrentQuantumPrice (.val (.obj h))
      = .ok (.float64 (extractTotalPriceFromArray (notebookArray h) "totalPrice")) := by
  cases hq : List.lookup "quantum" h with
  | none => simp only [calculateCurrentQuantumPrice, notebookArray, hq]; rfl
  | some v =>
    cases v with
    | obj quantum =>
      cases hn : List.lookup "notebook" quantum with
      | none => simp only [calculateCurrentQuantumPrice, notebookArray, arrayUnder, hq, hn]; rfl
      | some w =>
        cases w <;>
          simp only [calculateCurrentQuantumPrice, notebookArray, arrayUnder, hq, hn] <;> rfl
    | _ => simp only [calculateCurrentQuantumPrice, notebookArray, hq]; rfl

theorem calculateMonthlySavingsPlanPrice_arrayUnder (m : List (String × Value)) :
    calculateMonthlySavingsPlanPrice (.val (.obj m))
      = .ok (.float64
          (extractNestedPriceFromArray (arrayUnder m "savingsPlan") "totalPrice" "value")) := by
  cases hl : List.lookup "savingsPlan" m with
  | none => simp only [calculateMonthlySavingsPlanPrice, arrayUnder, hl]; rfl
  | some v =>
    cases v <;> simp only [calculateMonthlySavingsPlanPrice, arrayUnder, hl] <;> rfl

/-- C29: monotonicity of the totals.  For every hourlyUsage `h`, monthlyUsage
`m` and resourcesUsage `rs` in which every summed price (the `totalPrice` of
the entries of the eight categories, of the quantum notebooks and of the
resources, and the `totalPrice.value` of the savings plans) converts to a
number that is not negative, with `<=` that of `float64`: each of the eight
per-category totals and the quantum total are at most the hourly grand total;
each per-type resource total is at most the resources total; the hourly grand
total, the savings-plan total and the resources total are each at most the
comprehensive total of a forecast, a current and a history document made of
`h`, `m` and `rs`; and none of these totals is negative (or NaN). -/
theorem C29_monotone_totals (h m : List (String × Value)) (rs : List Value)
    (hcat : ∀ c ∈ hourlyResourceTypes,
      ∀ p ∈ (arrayUnder h c).filterMap (fieldOf "totalPrice"), 0 ≤ convertToFloat64 p)
    (hquantum : ∀ p ∈ (notebookArray h).filterMap (fieldOf "totalPrice"),
      0 ≤ convertToFloat64 p)
    (hsavings : ∀ p ∈ (arrayUnder m "savingsPlan").filterMap
      (nestedFieldOf "totalPrice" "value"), 0 ≤ convertToFloat64 p)
    (hres : ∀ p ∈ rs.filterMap (fieldOf "totalPrice"), 0 ≤ convertToFloat64 p) :
    ∃ g q s r t : F64,
      (calculateForecastGrandTotal (.val (.obj h)) = .ok (.float64 g)
        ∧ calculateCurrentGrandTotal (.val (.obj h)) = .ok (.float64 g)
        ∧ calculateHistoricalGrandTotal (.val (.obj h)) = .ok (.float64 g))
      ∧ (calculateForecastQuantumPrice (.val (.obj h)) = .ok (.float64 q)
        ∧ calculateCurrentQuantumPrice (.val (.obj h)) = .ok (.float64 q)
        ∧ calculateHistoricalQuantumPrice (.val (.obj h)) = .ok (.float64 q))
      ∧ calculateMonthlySavingsPlanPrice (.val (.obj m)) = .ok (.float64 s)
      ∧ calculateResourcesUsagePrice (.val (.arr rs)) = .ok (.float64 r)
      ∧ (∀ doc : CloudProjectUsageForecast,
          doc.HourlyUsage = h → doc.MonthlyUsage = m → doc.ResourcesUsage = rs →
          calculateComprehensiveTotalPrice (.usageForecast doc) = .ok (.float64 t))
      ∧ (∀ doc : CloudProjectUsageCurrent,
          doc.HourlyUsage = h → doc.MonthlyUsage = m → doc.ResourcesUsage = rs →
          calculateComprehensiveCurrentTotalPrice (.usageCurrent doc) = .ok (.float64 t))
      ∧ (∀ doc : CloudProjectUsageHistory,
          doc.HourlyUsage = h → doc.MonthlyUsage = m → doc.ResourcesUsage = rs →
          calculateComprehensiveHistoricalTotalPrice (.usageHistory doc) = .ok (.float64 t))
      ∧ (∀ c ∈ hourlyResourceTypes, ∃ x,
          calculateForecastTotalPrice c (.val (.obj h)) = .ok (.float64 x) ∧ 0 ≤ x ∧ x ≤ g)
      ∧ 0 ≤ q ∧ q ≤ g
      ∧ (∀ ty, ∃ x,
          calculateResourcePrice ty (.val (.arr rs)) = .ok (.float64 x) ∧ 0 ≤ x ∧ x ≤ r)
      ∧ 0 ≤ g ∧ 0 ≤ s ∧ 0 ≤ r ∧ 0 ≤ t
      ∧ g ≤ t ∧ s ≤ t ∧ r ≤ t := by
  obtain ⟨p, q, hp, hq, hg, _⟩ := calculateCurrentGrandTotal_sum h
  have hpc : ∀ c, p c = extractTotalPriceFromArray (arrayUnder h c) "totalPrice" := by
    intro c
    have h1 := hp c
    rw [extractHourlyUsageField_arrayUnder] at h1
    injection h1 with h2
    injection h2 with h3
    exact h3.symm
  have hqv : q = extractTotalPriceFromArray (notebookArray h) "totalPrice" := by
    have h1 := hq
    rw [calculateCurrentQuantumPrice_notebookArray] at h1
    injection h1 with h2
    injection h2 with h3
    exact h3.symm
  have hP : ∀ c ∈ hourlyResourceTypes, 0 ≤ p c := by
    intro c hc
    rw [hpc, extractTotalPriceFromArray_eq_sumPrices]
    exact sumPrices_nonneg _ (hcat c hc)
  have hq0 : 0 ≤ q := by
    rw [hqv, extractTotalPriceFromArray_eq_sumPrices]
    exact sumPrices_nonneg _ hquantum
  obtain ⟨f1, _, f3⟩ := foldl_terms_le p hourlyResourceTypes hP 0 F64.zero_le_zero_f64
  have hg0 := F64.add_nonneg_of_nonneg _ _ f1 hq0
  have hFg := F64.le_add_right_of_nonneg _ _ f1 hq0
  have hqg := F64.le_add_left_of_nonneg _ _ f1 hq0
  have hs := calculateMonthlySavingsPlanPrice_arrayUnder m
  have hs0 : 0 ≤ extractNestedPriceFromArray (arrayUnder m "savingsPlan") "totalPrice" "value" := by
    rw [extractNestedPriceFromArray_eq_sumPrices]
    exact sumPrices_nonneg _ hsavings
  have hr : calculateResourcesUsagePrice (.val (.arr rs))
      = .ok (.float64 (extractTotalPriceFromArray rs "totalPrice")) := rfl
  have hr0 : 0 ≤ extractTotalPriceFromArray rs "totalPrice" := by
    rw [extractTotalPriceFromArray_eq_sumPrices]
    exact sumPrices_nonneg _ hres
  have t0 := F64.add_nonneg_of_nonneg _ _ F64.zero_le_zero_f64 hg0
  have t0g := F64.le_add_left_of_nonneg _ _ F64.zero_le_zero_f64 hg0
  have t1 := F64.add_nonneg_of_nonneg _ _ t0 hs0
  have t1a := F64.le_add_right_of_nonneg _ _ t0 hs0
  have t1s := F64.le_add_left_of_nonneg _ _ t0 hs0
  have t2 := F64.add_nonneg_of_nonneg _ _ t1 hr0
  have t2a := F64.le_add_right_of_nonneg _ _ t1 hr0
  have t2r := F64.le_add_left_of_nonneg _ _ t1 hr0
  refine ⟨_, q, _, _, _, ⟨hg, hg, hg⟩, ⟨hq, hq, hq⟩, hs, hr, ?_, ?_, ?_, ?_, hq0, hqg, ?_, hg0, hs0,
    hr0, t2, F64.le_chain _ _ _ t0g (F64.le_chain _ _ _ t1a t2a), F64.le_chain _ _ _ t1s t2a, t2r⟩
  · intro doc h1 h2 h3
    simp only [calculateComprehensiveTotalPrice, addToTotal, h1, h2, h3,
      calculateForecastGrandTotal_eq, hg, hs, hr]
  · intro doc h1 h2 h3
    simp only [calculateComprehensiveCurrentTotalPrice, addToTotal, h1, h2, h3, hg, hs, hr]
  · intro doc h1 h2 h3
    simp only [calculateComprehensiveHistoricalTotalPrice, addToTotal, h1, h2, h3,
      calculateHistoricalGrandTotal_eq, hg, hs, hr]
  · intro c hc
    exact ⟨p c, hp c, hP c hc, F64.le_chain _ _ _ (f3 c hc) hFg⟩
  · intro ty
    have hsub : List.Sublist
        ((rs.filter (fieldIsString "type" ty)).filterMap (fieldOf "totalPrice"))
        (rs.filterMap (fieldOf "totalPrice")) :=
      List.Sublist.filterMap _ (List.filter_sublist rs)
    refine ⟨extractPriceFromFilteredArray rs "type" ty "totalPrice", rfl, ?_, ?_⟩
    · rw [extractPriceFromFilteredArray_eq_filter, extractTotalPriceFromArray_eq_sumPrices]
      exact sumPrices_nonneg _ (fun x hx => hres x (hsub.subset hx))
    · rw [extractPriceFromFilteredArray_eq_filter, extractTotalPriceFromArray_eq_sumPrices,
        extractTotalPriceFromArray_eq_sumPrices]
      exact sumPrices_sublist _ _ hsub hres

/-- C29, for the document made of the sample hourlyUsage (volumes of `10` and
`5.5`, an instance of `100`), the sample savings plan (`4`) and the sample
resources (`3`, `1.2`, `2`): the hourly grand total is not negative and is at
most the comprehensive total. -/
theorem C29_monotone_totals_witness :
    ∃ g t : F64,
      calculateForecastGrandTotal (.val (.obj sampleHourly)) = .ok (.float64 g)
      ∧ (∀ doc : CloudProjectUsageForecast,
          doc.HourlyUsage = sampleHourly → doc.MonthlyUsage = sampleMonthly →
          doc.ResourcesUsage = sampleResources →
          calculateComprehensiveTotalPrice (.usageForecast doc) = .ok (.float64 t))
      ∧ 0 ≤ g ∧ g ≤ t :=
  let ⟨g, _, _, _, t, hg, _, _, _, ht, _, _, _, _, _, _, hg0, _, _, _, hgt, _, _⟩ :=
    C29_monotone_totals sampleHourly sampleMonthly sampleResources
      (by
        intro c hc p hp
        simp only [hourlyResourceTypes, List.mem_cons, List.mem_singleton, List.not_mem_nil,
          or_false] at hc
        rcases hc with rfl | rfl | rfl | rfl | rfl | rfl | rfl | rfl <;>
          simp [arrayUnder, sampleHourly, List.lookup, fieldOf] at hp
        · rcases hp with rfl | rfl <;> simp only [convertToFloat64] <;>
            (set_option exponentiation.threshold 3000 in decide)
        · subst hp
          simp only [convertToFloat64]
          set_option exponentiation.threshold 3000 in decide)
      (by
        intro p hp
        simp [notebookArray, sampleHourly, List.lookup] at hp)
      (by
        intro p hp
        simp [arrayUnder, sampleMonthly, List.lookup, nestedFieldOf] at hp
        subst hp
        simp only [convertToFloat64]
        set_option exponentiation.threshold 3000 in decide)
      (by
        intro p hp
        simp [sampleResources, List.lookup, fieldOf] at hp
        rcases hp with rfl | rfl | rfl <;> simp only [convertToFloat64] <;>
          (set_option exponentiation.threshold 3000 in decide))
  ⟨g, t, hg.1, ht, hg0, hgt⟩

/-! ### Degraded inputs give zero, empty or null -/

theorem extractUsageField_wrong (name : String) (d : Dyn) (hd : ∀ h, d ≠ .val (.obj h)) :
    extractUsageField name d = .ok .null := by
  cases d with
  | val v =>
    cases v with
    | obj h => exact absurd rfl (hd h)
    | _ => rfl
  | _ => rfl

theorem extractHourlyUsageField_wrong (c op : String) (d : Dyn)
    (hd : ∀ h, d ≠ .val (.obj h)) :
    extractHourlyUsageField c op d = .ok (zeroResult op) := by
  cases d with
  | val v =>
    cases v with
    | obj h => exact absurd rfl (hd h)
    | _ => rfl
  | _ => rfl

theorem extractHourlyUsageField_not_array (c op : String) (h : List (String × Value))
    (hl : ∀ l, h.lookup c ≠ some (.arr l)) :
    extractHourlyUsageField c op (.val (.obj h)) = .ok (zeroResult op) := by
  cases hc : List.lookup c h with
  | none => simp only [extractHourlyUsageField, hc]
  | some v =>
    cases v with
    | arr l => exact absurd hc (hl l)
    | _ => simp only [extractHourlyUsageField, hc]

theorem calculateCurrentQuantumPrice_wrong (d : Dyn) (hd : ∀ h, d ≠ .val (.obj h)) :
    calculateCurrentQuantumPrice d = .ok (.float64 0) := by
  cases d with
  | val v =>
    cases v with
    | obj h => exact absurd rfl (hd h)
    | _ => rfl
  | _ => rfl

theorem calculateCurrentQuantumPrice_no_notebook (h : List (String × Value))
    (hq : ∀ q l, h.lookup "quantum" = some (.obj q) → q.lookup "notebook" ≠ some (.arr l)) :
    calculateCurrentQuantumPrice (.val (.obj h)) = .ok (.float64 0) := by
  cases hl : List.lookup "quantum" h with
  | none => simp only [calculateCurrentQuantumPrice, hl]
  | some v =>
    cases v with
    | obj q =>
      cases hn : List.lookup "notebook" q with
      | none => simp only [calculateCurrentQuantumPrice, hl, hn]
      | some w =>
        cases w with
        | arr l => exact absurd hn (hq q l hl)
        | _ => simp only [calculateCurrentQuantumPrice, hl, hn]
    | _ => simp only [calculateCurrentQuantumPrice, hl]

theorem calculateCurrentGrandTotal_wrong (d : Dyn) (hd : ∀ h, d ≠ .val (.obj h)) :
    calculateCurrentGrandTotal d = .ok (.float64 0) := by
  cases d with
  | val v =>
    cases v with
    | obj h => exact absurd rfl (hd h)
    | _ => rfl
  | _ => rfl

theorem calculateMonthlySavingsPlanPrice_wrong (d : Dyn) (hd : ∀ m, d ≠ .val (.obj m)) :
    calculateMonthlySavingsPlanPrice d = .ok (.float64 0) := by
  cases d with
  | val v =>
    cases v with
    | obj h => exact absurd rfl (hd h)
    | _ => rfl
  | _ => rfl

theorem calculateMonthlySavingsPlanPrice_not_array (m : List (String × Value))
    (hl : ∀ l, m.lookup "savingsPlan" ≠ some (.arr l)) :
    calculateMonthlySavingsPlanPrice (.val (.obj m)) = .ok (.float64 0) := by
  cases hc : List.lookup "savingsPlan" m with
  | none => simp only [calculateMonthlySavingsPlanPrice, hc]
  | some v =>
    cases v with
    | arr l => exact absurd hc (hl l)
    | _ => simp only [calculateMonthlySavingsPlanPrice, hc]

theorem calculateResourcesUsagePrice_wrong (d : Dyn) (hd : ∀ rs, d ≠ .val (.arr rs)) :
    calculateResourcesUsagePrice d = .ok (.float64 0) := by
  cases d with
  | val v =>
    cases v with
    | arr rs => exact absurd rfl (hd rs)
    | _ => rfl
  | _ => rfl

theorem calculateResourcePrice_wrong (t : String) (d : Dyn) (hd : ∀ rs, d ≠ .val (.arr rs)) :
    calculateResourcePrice t d = .ok (.float64 0) := by
  cases d with
  | val v =>
    cases v with
    | arr rs => exact absurd rfl (hd rs)
    | _ => rfl
  | _ => rfl

theorem calculateComprehensiveTotalPrice_wrong (d : Dyn) (hd : ∀ r, d ≠ .usageForecast r) :
    calculateComprehensiveTotalPrice d = .ok (.float64 0) := by
  cases d with
  | usageForecast r => exact absurd rfl (hd r)
  | val v => cases v <;> rfl
  | _ => rfl

theorem calculateComprehensiveCurrentTotalPrice_wrong (d : Dyn)
    (hd : ∀ r, d ≠ .usageCurrent r) :
    calculateComprehensiveCurrentTotalPrice d = .ok (.float64 0) := by
  cases d with
  | usageCurrent r => exact absurd rfl (hd r)
  | val v => cases v <;> rfl
  | _ => rfl

theorem calculateComprehensiveHistoricalTotalPrice_wrong (d : Dyn)
    (hd : ∀ r, d ≠ .usageHistory r) :
    calculateComprehensiveHistoricalTotalPrice d = .ok (.float64 0) := by
  cases d with
  | usageHistory r => exact absurd rfl (hd r)
  | val v => cases v <;> rfl
  | _ => rfl

theorem extractor_wrong (extractor : TransformFunc)
    (hmem : extractor ∈ [extractFirstFlavorName, extractFlatFeeTotalPrice, extractFlatFeeCurrency,
      extractOverQuotaQuantity, extractOverQuotaUnitPrice, extractFlavorTotalPrice,
      extractFlavorSavedAmount, extractUsageCoverage, extractUsageUtilization,
      extractConsumptionSize, extractCumulPlanSize, extractSubscriptionID,
      extractSubscriptionSize, extractSubscriptionBegin, extractSubscriptionEnd,
      extractPlanName]) (d : Dyn) (hd : ∀ f rest, d ≠ .flavors (f :: rest)) :
    extractor d = .ok .null := by
  refine mem_extractors_cases (fun extractor => extractor d = .ok .null) extractor hmem ?_
  refine ⟨?_, ?_, ?_, ?_, ?_, ?_, ?_, ?_, ?_, ?_, ?_, ?_, ?_, ?_, ?_, ?_⟩ <;>
    (cases d with
     | val v => cases v <;> rfl
     | flavors fs =>
       cases fs with
       | nil => rfl
       | cons f rest => exact absurd rfl (hd f rest)
     | _ => rfl)

theorem grandTotal_foldl_skip (h : List (String × Value))
    (hl : ∀ c l, h.lookup c ≠ some (.arr l)) (cats : List String) (acc : F64) :
    cats.foldl (fun grandTotal resourceType =>
      match h.lookup resourceType with
      | some (.arr resourceList) =>
        grandTotal + extractTotalPriceFromArray resourceList "totalPrice"
      | _ => grandTotal) acc = acc := by
  induction cats generalizing acc with
  | nil => rfl
  | cons c rest ih =>
    simp only [List.foldl_cons]
    cases hc : List.lookup c h with
    | none => exact ih acc
    | some v =>
      cases v with
      | arr l => exact absurd hc (hl c l)
      | _ => exact ih acc

theorem calculateCurrentGrandTotal_no_array (h : List (String × Value))
    (hl : ∀ c l, h.lookup c ≠ some (.arr l))
    (hq : ∀ q l, h.lookup "quantum" = some (.obj q) → q.lookup "notebook" ≠ some (.arr l)) :
    calculateCurrentGrandTotal (.val (.obj h)) = .ok (.float64 0) := by
  simp only [calculateCurrentGrandTotal]
  erw [grandTotal_foldl_skip h hl hourlyResourceTypes 0]
  cases hc : List.lookup "quantum" h with
  | none => rfl
  | some v =>
    cases v with
    | obj q =>
      cases hn : List.lookup "notebook" q with
      | none => simp only [hn]
      | some w =>
        cases w with
        | arr l => exact absurd hn (hq q l hc)
        | _ => simp only [hn]
    | _ => rfl

theorem extractTotalPriceFromArray_zero_price (rs1 rs2 : List Value) (e p : Value)
    (f : String) (he : fieldOf f e = some p) (hp : convertToFloat64 p = 0) :
    extractTotalPriceFromArray (rs1 ++ e :: rs2) f = extractTotalPriceFromArray (rs1 ++ rs2) f := by
  simp only [extractTotalPriceFromArray_eq_sumPrices, List.filterMap_append,
    List.filterMap_cons, he]
  rw [sumPrices_append_cons, sumPrices_append, hp, F64.add_posZero _ (sumPrices_ne_negZero _)]

theorem extractTotalPriceFromArray_no_price (rs1 rs2 : List Value) (e : Value)
    (f : String) (he : fieldOf f e = none) :
    extractTotalPriceFromArray (rs1 ++ e :: rs2) f = extractTotalPriceFromArray (rs1 ++ rs2) f := by
  simp only [extractTotalPriceFromArray_eq_sumPrices, List.filterMap_append,
    List.filterMap_cons, he]

theorem extractNestedPriceFromArray_zero_price (rs1 rs2 : List Value) (e p : Value)
    (f g : String) (he : nestedFieldOf f g e = some p) (hp : convertToFloat64 p = 0) :
    extractNestedPriceFromArray (rs1 ++ e :: rs2) f g
      = extractNestedPriceFromArray (rs1 ++ rs2) f g := by
  simp only [extractNestedPriceFromArray_eq_sumPrices, List.filterMap_append,
    List.filterMap_cons, he]
  rw [sumPrices_append_cons, sumPrices_append, hp, F64.add_posZero _ (sumPrices_ne_negZero _)]

theorem extractNestedPriceFromArray_no_price (rs1 rs2 : List Value) (e : Value)
    (f g : String) (he : nestedFieldOf f g e = none) :
    extractNestedPriceFromArray (rs1 ++ e :: rs2) f g
      = extractNestedPriceFromArray (rs1 ++ rs2) f g := by
  simp only [extractNestedPriceFromArray_eq_sumPrices, List.filterMap_append,
    List.filterMap_cons, he]

theorem extractPriceFromFilteredArray_other_type (rs1 rs2 : List Value) (e : Value)
    (ff t f : String) (he : fieldIsString ff t e = false) :
    extractPriceFromFilteredArray (rs1 ++ e :: rs2) ff t f
      = extractPriceFromFilteredArray (rs1 ++ rs2) ff t f := by
  simp only [extractPriceFromFilteredArray_eq_filter, List.filter_append, List.filter_cons, he,
    Bool.false_eq_true, if_false]

theorem extractPriceFromFilteredArray_no_price (rs1 rs2 : List Value) (e : Value)
    (ff t f : String) (he : fieldOf f e = none) :
    extractPriceFromFilteredArray (rs1 ++ e :: rs2) ff t f
      = extractPriceFromFilteredArray (rs1 ++ rs2) ff t f := by
  cases hb : fieldIsString ff t e with
  | false => exact extractPriceFromFilteredArray_other_type rs1 rs2 e ff t f hb
  | true =>
    simp only [extractPriceFromFilteredArray_eq_filter, List.filter_append, List.filter_cons, hb,
      if_true]
    exact extractTotalPriceFromArray_no_price _ _ e f he

theorem extractPriceFromFilteredArray_zero_price (rs1 rs2 : List Value) (e p : Value)
    (ff t f : String) (he : fieldOf f e = some p) (hp : convertToFloat64 p = 0) :
    extractPriceFromFilteredArray (rs1 ++ e :: rs2) ff t f
      = extractPriceFromFilteredArray (rs1 ++ rs2) ff t f := by
  cases hb : fieldIsString ff t e with
  | false => exact extractPriceFromFilteredArray_other_type rs1 rs2 e ff t f hb
  | true =>
    simp only [extractPriceFromFilteredArray_eq_filter, List.filter_append, List.filter_cons, hb,
      if_true]
    exact extractTotalPriceFromArray_zero_price _ _ e p f he hp

theorem calculateComprehensiveTotalPrice_empty (r : CloudProjectUsageForecast)
    (h1 : r.HourlyUsage = []) (h2 : r.MonthlyUsage = []) (h3 : r.ResourcesUsage = []) :
    calculateComprehensiveTotalPrice (.usageForecast r) = .ok (.float64 0) := by
  simp only [calculateComprehensiveTotalPrice, h1, h2, h3]
  rfl

theorem calculateComprehensiveCurrentTotalPrice_empty (r : CloudProjectUsageCurrent)
    (h1 : r.HourlyUsage = []) (h2 : r.MonthlyUsage = []) (h3 : r.ResourcesUsage = []) :
    calculateComprehensiveCurrentTotalPrice (.usageCurrent r) = .ok (.float64 0) := by
  simp only [calculateComprehensiveCurrentTotalPrice, h1, h2, h3]
  rfl

theorem calculateComprehensiveHistoricalTotalPrice_empty (r : CloudProjectUsageHistory)
    (h1 : r.HourlyUsage = []) (h2 : r.MonthlyUsage = []) (h3 : r.ResourcesUsage = []) :
    calculateComprehensiveHistoricalTotalPrice (.usageHistory r) = .ok (.float64 0) := by
  simp only [calculateComprehensiveHistoricalTotalPrice, h1, h2, h3]
  rfl

/-- C16: no projection reports an error, and a degraded input gives a zero, an
empty or a null value.  For every input `d` each transform returns a value with
a nil error (the totals: a `float64`).  When `d` is nil or of the wrong type
(not a map for the hourly, quantum, grand-total and savings-plan transforms,
not an array for the resources transforms, not the usage record for the
comprehensive totals, not a non-empty flavors slice for the flavor extractors),
the details and the flavor columns are null, the counts are the `int` zero and
the totals are `0.0`.  Inside a map, a missing key and a value of the wrong
shape give the same null or zero, and a usage record whose maps and array are
nil or empty has the comprehensive total `0.0`.  In a summed array an entry
that is not a mapping or has no price is skipped, and a price that is not a
number (null, a boolean, an array, a mapping, a string that `ParseFloat`
rejects, such as `n/a`) adds `0.0`: the total is the same with the entry and
without it; in the total of one resource type an entry whose `type` is not
that string is skipped as well. -/
theorem C16_no_error (d : Dyn) :
    ((∀ name, ∃ v, extractUsageField name d = .ok v)
      ∧ (∀ c op, ∃ v, extractHourlyUsageField c op d = .ok v)
      ∧ (∀ t, ∃ x, calculateResourcePrice t d = .ok (.float64 x))
      ∧ (∀ price ∈ [calculateCurrentQuantumPrice, calculateForecastQuantumPrice,
            calculateHistoricalQuantumPrice, calculateCurrentGrandTotal,
            calculateForecastGrandTotal, calculateHistoricalGrandTotal,
            calculateMonthlySavingsPlanPrice, calculateResourcesUsagePrice,
            calculateComprehensiveCurrentTotalPrice, calculateComprehensiveTotalPrice,
            calculateComprehensiveHistoricalTotalPrice],
          ∃ x, price d = .ok (.float64 x))
      ∧ (∀ extractor ∈ [extractFirstFlavorName, extractFlatFeeTotalPrice,
          extractFlatFeeCurrency, extractOverQuotaQuantity, extractOverQuotaUnitPrice,
          extractFlavorTotalPrice, extractFlavorSavedAmount, extractUsageCoverage,
          extractUsageUtilization, extractConsumptionSize, extractCumulPlanSize,
          extractSubscriptionID, extractSubscriptionSize, extractSubscriptionBegin,
          extractSubscriptionEnd, extractPlanName],
          ∃ v, extractor d = .ok v))
    ∧ ((∀ h, d ≠ .val (.obj h)) →
        (∀ name, extractUsageField name d = .ok .null)
        ∧ (∀ c, extractHourlyUsageField c "totalPrice" d = .ok (.float64 0)
            ∧ calculateForecastTotalPrice c d = .ok (.float64 0)
            ∧ extractHourlyUsageField c "count" d = .ok (.int 0)
            ∧ calculateUsageCount c d = .ok (.int 0))
        ∧ (∀ c op, op ≠ "count" → extractHourlyUsageField c op d = .ok (.float64 0))
        ∧ (∀ price ∈ [calculateCurrentQuantumPrice, calculateForecastQuantumPrice,
            calculateHistoricalQuantumPrice, calculateCurrentGrandTotal,
            calculateForecastGrandTotal, calculateHistoricalGrandTotal,
            calculateMonthlySavingsPlanPrice],
            price d = .ok (.float64 0)))
    ∧ ((∀ rs, d ≠ .val (.arr rs)) →
        calculateResourcesUsagePrice d = .ok (.float64 0)
        ∧ ∀ t, calculateResourcePrice t d = .ok (.float64 0))
    ∧ ((∀ r, d ≠ .usageCurrent r) →
        calculateComprehensiveCurrentTotalPrice d = .ok (.float64 0))
    ∧ ((∀ r, d ≠ .usageForecast r) → calculateComprehensiveTotalPrice d = .ok (.float64 0))
    ∧ ((∀ r, d ≠ .usageHistory r) →
        calculateComprehensiveHistoricalTotalPrice d = .ok (.float64 0))
    ∧ ((∀ f rest, d ≠ .flavors (f :: rest)) →
        ∀ extractor ∈ [extractFirstFlavorName, extractFlatFeeTotalPrice,
          extractFlatFeeCurrency, extractOverQuotaQuantity, extractOverQuotaUnitPrice,
          extractFlavorTotalPrice, extractFlavorSavedAmount, extractUsageCoverage,
          extractUsageUtilization, extractConsumptionSize, extractCumulPlanSize,
          extractSubscriptionID, extractSubscriptionSize, extractSubscriptionBegin,
          extractSubscriptionEnd, extractPlanName],
          extractor d = .ok .null)
    ∧ (∀ (h : List (String × Value)) (c : String),
        (h.lookup c = none → extractUsageField c (.val (.obj h)) = .ok .null)
        ∧ ((∀ l, h.lookup c ≠ some (.arr l)) →
            extractHourlyUsageField c "totalPrice" (.val (.obj h)) = .ok (.float64 0)
            ∧ extractHourlyUsageField c "count" (.val (.obj h)) = .ok (.int 0)
            ∧ ∀ op, op ≠ "count" →
                extractHourlyUsageField c op (.val (.obj h)) = .ok (.float64 0))
        ∧ (∀ l op, h.lookup c = some (.arr l) → op ≠ "totalPrice" → op ≠ "count" →
            extractHourlyUsageField c op (.val (.obj h)) = .ok (.float64 0)))
    ∧ (∀ h : List (String × Value),
        (∀ q l, h.lookup "quantum" = some (.obj q) → q.lookup "notebook" ≠ some (.arr l)) →
        (calculateCurrentQuantumPrice (.val (.obj h)) = .ok (.float64 0)
          ∧ calculateForecastQuantumPrice (.val (.obj h)) = .ok (.float64 0)
          ∧ calculateHistoricalQuantumPrice (.val (.obj h)) = .ok (.float64 0))
        ∧ ((∀ c l, h.lookup c ≠ some (.arr l)) →
            calculateCurrentGrandTotal (.val (.obj h)) = .ok (.float64 0)
            ∧ calculateForecastGrandTotal (.val (.obj h)) = .ok (.float64 0)
            ∧ calculateHistoricalGrandTotal (.val (.obj h)) = .ok (.float64 0)))
    ∧ (∀ m : List (String × Value), (∀ l, m.lookup "savingsPlan" ≠ some (.arr l)) →
        calculateMonthlySavingsPlanPrice (.val (.obj m)) = .ok (.float64 0))
    ∧ (calculateResourcesUsagePrice (.val (.arr [])) = .ok (.float64 0)
        ∧ ∀ t, calculateResourcePrice t (.val (.arr [])) = .ok (.float64 0))
    ∧ ((∀ r : CloudProjectUsageCurrent,
          r.HourlyUsage = [] → r.MonthlyUsage = [] → r.ResourcesUsage = [] →
          calculateComprehensiveCurrentTotalPrice (.usageCurrent r) = .ok (.float64 0))
        ∧ (∀ r : CloudProjectUsageForecast,
          r.HourlyUsage = [] → r.MonthlyUsage = [] → r.ResourcesUsage = [] →
          calculateComprehensiveTotalPrice (.usageForecast r) = .ok (.float64 0))
        ∧ (∀ r : CloudProjectUsageHistory,
          r.HourlyUsage = [] → r.MonthlyUsage = [] → r.ResourcesUsage = [] →
          calculateComprehensiveHistoricalTotalPrice (.usageHistory r) = .ok (.float64 0)))
    ∧ (∀ (f : FlavorUsage) (rest : List FlavorUsage),
        (f.Periods = [] →
          ∀ extractor ∈ [extractUsageCoverage, extractUsageUtilization, extractConsumptionSize,
            extractCumulPlanSize], extractor (.flavors (f :: rest)) = .ok .null)
        ∧ (f.Subscriptions = [] →
          ∀ extractor ∈ [extractSubscriptionID, extractSubscriptionSize,
            extractSubscriptionBegin, extractSubscriptionEnd],
            extractor (.flavors (f :: rest)) = .ok .null)
        ∧ (f.Fees.FlatFee.Details = [] → extractPlanName (.flavors (f :: rest)) = .ok .null))
    ∧ (∀ (rs1 rs2 : List Value) (e : Value) (f g : String),
        (fieldOf f e = none →
          extractTotalPriceFromArray (rs1 ++ e :: rs2) f
            = extractTotalPriceFromArray (rs1 ++ rs2) f)
        ∧ (∀ p, fieldOf f e = some p → convertToFloat64 p = 0 →
          extractTotalPriceFromArray (rs1 ++ e :: rs2) f
            = extractTotalPriceFromArray (rs1 ++ rs2) f)
        ∧ (nestedFieldOf f g e = none →
          extractNestedPriceFromArray (rs1 ++ e :: rs2) f g
            = extractNestedPriceFromArray (rs1 ++ rs2) f g)
        ∧ (∀ p, nestedFieldOf f g e = some p → convertToFloat64 p = 0 →
          extractNestedPriceFromArray (rs1 ++ e :: rs2) f g
            = extractNestedPriceFromArray (rs1 ++ rs2) f g))
    ∧ (∀ (rs1 rs2 : List Value) (e : Value) (t : String),
        (fieldIsString "type" t e = false →
          extractPriceFromFilteredArray (rs1 ++ e :: rs2) "type" t "totalPrice"
            = extractPriceFromFilteredArray (rs1 ++ rs2) "type" t "totalPrice")
        ∧ (fieldOf "totalPrice" e = none →
          extractPriceFromFilteredArray (rs1 ++ e :: rs2) "type" t "totalPrice"
            = extractPriceFromFilteredArray (rs1 ++ rs2) "type" t "totalPrice")
        ∧ (∀ p, fieldOf "totalPrice" e = some p → convertToFloat64 p = 0 →
          extractPriceFromFilteredArray (rs1 ++ e :: rs2) "type" t "totalPrice"
            = extractPriceFromFilteredArray (rs1 ++ rs2) "type" t "totalPrice"))
    ∧ (convertToFloat64 .null = 0 ∧ (∀ b, convertToFloat64 (.bool b) = 0)
        ∧ (∀ l, convertToFloat64 (.arr l) = 0) ∧ (∀ m, convertToFloat64 (.obj m) = 0)
        ∧ convertToFloat64 (.str "") = 0 ∧ convertToFloat64 (.str "n/a") = 0
        ∧ ∀ s, parseFloat s = none → convertToFloat64 (.str s) = 0)
    ∧ (extractTotalPriceFromArray [] "totalPrice" = 0
        ∧ extractNestedPriceFromArray [] "totalPrice" "value" = 0
        ∧ ∀ t, extractPriceFromFilteredArray [] "type" t "totalPrice" = 0) := by
  have hzero_count : zeroResult "count" = .int 0 := rfl
  have hzero : ∀ op, op ≠ "count" → zeroResult op = .float64 0 := by
    intro op hop
    simp only [zeroResult, OperationCount, hop, if_false]
  have hzero_total : zeroResult "totalPrice" = .float64 0 := hzero _ (by decide)
  have hnull : parseOrZero "<nil>" = 0 := by decide
  have hbool : ∀ b : Bool, parseOrZero (if b then "true" else "false") = 0 := by decide
  have harr : parseOrZero "[" = 0 := by decide
  have hobj : parseOrZero "map[" = 0 := by decide
  have hna : parseOrZero "n/a" = 0 := by decide
  have hempty : parseOrZero "" = 0 := by decide
  refine ⟨⟨fun name => extractUsageField_ok name d,
      fun c op => extractHourlyUsageField_ok c op d,
      fun t => calculateResourcePrice_float t d, ?_, fun e he => extractor_ok e he d⟩,
    ?_, ?_, calculateComprehensiveCurrentTotalPrice_wrong d,
    calculateComprehensiveTotalPrice_wrong d, calculateComprehensiveHistoricalTotalPrice_wrong d,
    fun hd e he => extractor_wrong e he d hd, ?_, ?_,
    calculateMonthlySavingsPlanPrice_not_array, ⟨rfl, fun _ => rfl⟩,
    ⟨calculateComprehensiveCurrentTotalPrice_empty, calculateComprehensiveTotalPrice_empty,
      calculateComprehensiveHistoricalTotalPrice_empty⟩, ?_, ?_,
    fun rs1 rs2 e t => ⟨extractPriceFromFilteredArray_other_type rs1 rs2 e _ t _,
      extractPriceFromFilteredArray_no_price rs1 rs2 e _ t _,
      fun p => extractPriceFromFilteredArray_zero_price rs1 rs2 e p _ t _⟩,
    ⟨hnull, hbool, fun _ => harr, fun _ => hobj, hempty, hna, ?_⟩, ⟨rfl, rfl, fun _ => rfl⟩⟩
  · intro price hmem
    simp only [List.mem_cons, List.mem_singleton, List.not_mem_nil, or_false] at hmem
    rcases hmem with h | h | h | h | h | h | h | h | h | h | h <;> subst h
    · exact calculateCurrentQuantumPrice_float d
    · exact calculateCurrentQuantumPrice_float d
    · exact calculateCurrentQuantumPrice_float d
    · exact calculateCurrentGrandTotal_float d
    · exact calculateCurrentGrandTotal_float d
    · exact calculateCurrentGrandTotal_float d
    · exact calculateMonthlySavingsPlanPrice_float d
    · exact calculateResourcesUsagePrice_float d
    · exact calculateComprehensiveCurrentTotalPrice_float d
    · exact calculateComprehensiveTotalPrice_float d
    · exact calculateComprehensiveHistoricalTotalPrice_float d
  · intro hd
    refine ⟨fun name => extractUsageField_wrong name d hd, ?_, ?_, ?_⟩
    · intro c
      have h1 := extractHourlyUsageField_wrong c "totalPrice" d hd
      have h2 := extractHourlyUsageField_wrong c "count" d hd
      rw [hzero_total] at h1
      rw [hzero_count] at h2
      exact ⟨h1, h1, h2, h2⟩
    · intro c op hop
      rw [extractHourlyUsageField_wrong c op d hd, hzero op hop]
    · intro price hmem
      simp only [List.mem_cons, List.mem_singleton, List.not_mem_nil, or_false] at hmem
      rcases hmem with h | h | h | h | h | h | h <;> subst h
      · exact calculateCurrentQuantumPrice_wrong d hd
      · exact calculateCurrentQuantumPrice_wrong d hd
      · exact calculateCurrentQuantumPrice_wrong d hd
      · exact calculateCurrentGrandTotal_wrong d hd
      · exact calculateCurrentGrandTotal_wrong d hd
      · exact calculateCurrentGrandTotal_wrong d hd
      · exact calculateMonthlySavingsPlanPrice_wrong d hd
  · intro hd
    exact ⟨calculateResourcesUsagePrice_wrong d hd, fun t => calculateResourcePrice_wrong t d hd⟩
  · intro h c
    refine ⟨?_, ?_, ?_⟩
    · intro hl
      simp only [extractUsageField, hl]
    · intro hl
      have h1 := extractHourlyUsageField_not_array c "totalPrice" h hl
      have h2 := extractHourlyUsageField_not_array c "count" h hl
      rw [hzero_total] at h1
      rw [hzero_count] at h2
      refine ⟨h1, h2, fun op hop => ?_⟩
      rw [extractHourlyUsageField_not_array c op h hl, hzero op hop]
    · intro l op hl h1 h2
      simp only [extractHourlyUsageField, hl, OperationTotalPrice, OperationCount, h1, h2,
        if_false]
  · intro h hq
    have hq1 := calculateCurrentQuantumPrice_no_notebook h hq
    refine ⟨⟨hq1, hq1, hq1⟩, fun hl => ?_⟩
    have hg := calculateCurrentGrandTotal_no_array h hl hq
    exact ⟨hg, hg, hg⟩
  · intro f rest
    refine ⟨?_, ?_, ?_⟩
    · intro hp extractor hmem
      simp only [List.mem_cons, List.mem_singleton, List.not_mem_nil, or_false] at hmem
      rcases hmem with h | h | h | h <;> subst h
      · simp only [extractUsageCoverage, hp]
      · simp only [extractUsageUtilization, hp]
      · simp only [extractConsumptionSize, hp]
      · simp only [extractCumulPlanSize, hp]
    · intro hs extractor hmem
      simp only [List.mem_cons, List.mem_singleton, List.not_mem_nil, or_false] at hmem
      rcases hmem with h | h | h | h <;> subst h
      · simp only [extractSubscriptionID, hs]
      · simp only [extractSubscriptionSize, hs]
      · simp only [extractSubscriptionBegin, hs]
      · simp only [extractSubscriptionEnd, hs]
    · intro hd
      simp only [extractPlanName, hd]
  · intro rs1 rs2 e f g
    exact ⟨extractTotalPriceFromArray_no_price rs1 rs2 e f,
      fun p => extractTotalPriceFromArray_zero_price rs1 rs2 e p f,
      extractNestedPriceFromArray_no_price rs1 rs2 e f g,
      fun p => extractNestedPriceFromArray_zero_price rs1 rs2 e p f g⟩
  · intro s hs
    simp [convertToFloat64, parseOrZero, hs]

/-- C16, at a value of the wrong type (a string where the hourlyUsage map is
expected): the detail is null, the category total and the grand total are
`0.0` and the count is `0`. -/
theorem C16_no_error_witness :
    extractUsageField "volume" (.val (.str "none")) = .ok .null
    ∧ extractHourlyUsageField "volume" "totalPrice" (.val (.str "none")) = .ok (.float64 0)
    ∧ extractHourlyUsageField "volume" "count" (.val (.str "none")) = .ok (.int 0)
    ∧ calculateForecastGrandTotal (.val (.str "none")) = .ok (.float64 0) :=
  ⟨((C16_no_error (.val (.str "none"))).2.1 (fun h hd => by cases hd)).1 "volume",
   (((C16_no_error (.val (.str "none"))).2.1 (fun h hd => by cases hd)).2.1 "volume").1,
   (((C16_no_error (.val (.str "none"))).2.1 (fun h hd => by cases hd)).2.1 "volume").2.2.1,
   ((C16_no_error (.val (.str "none"))).2.1 (fun h hd => by cases hd)).2.2.2
     calculateForecastGrandTotal (by simp)⟩

/-! ### Decimal texts followed by more -/

theorem readMantissa_stop (c : Char) (r : List Char) (st : Mantissa)
    (h1 : c ≠ '_') (h2 : decDigit c = none) (h3 : c = '.' → st.sawdot = true) :
    readMantissa false (c :: r) st = (st, c :: r) := by
  rw [readMantissa]
  by_cases hdot : c = '.'
  · simp [h1, hdot, h3 hdot]
  · simp [h1, hdot, h2]

/-- The digit loop on a decimal text followed by a byte that ends it. -/
theorem readMantissa_decimal_tail (ip fp : List (Fin 10)) (c : Char) (r : List Char)
    (h1 : c ≠ '_') (h2 : decDigit c = none) (h3 : c = '.' → fp ≠ []) :
    ∃ st, readMantissa false
        (ip.map digitChar ++ (if fp.isEmpty then [] else '.' :: fp.map digitChar) ++ c :: r)
        ⟨0, 0, 0, false, false, false⟩ = (st, c :: r)
      ∧ st.digits = digitsValue (ip ++ fp)
      ∧ (if st.sawdot then st.dp else (st.nd : Int)) - st.nd = -(fp.length : Int)
      ∧ st.underscores = false
      ∧ (ip ≠ [] → st.sawdigits = true) := by
  obtain ⟨a1, a2, a3, a4, a5, a6⟩ :=
    feedDigits_spec ip ⟨0, 0, 0, false, false, false⟩ (fun _ => rfl)
  rw [List.append_assoc, readMantissa_digits]
  cases fp with
  | nil =>
    have hstop := readMantissa_stop c r (ip.foldl feedDigit ⟨0, 0, 0, false, false, false⟩) h1 h2
      (fun hdot => absurd rfl (h3 hdot))
    simp only [List.isEmpty_nil, if_true, List.nil_append]
    rw [hstop]
    refine ⟨_, rfl, ?_, ?_, a4, a5⟩
    · simpa [digitsValue] using a1
    · simp only [a3]; simp
  | cons e fr =>
    have hdot : readMantissa false ('.' :: ((e :: fr).map digitChar ++ c :: r))
        (ip.foldl feedDigit ⟨0, 0, 0, false, false, false⟩)
        = readMantissa false ((e :: fr).map digitChar ++ c :: r)
          { ip.foldl feedDigit ⟨0, 0, 0, false, false, false⟩ with
            sawdot := true
            dp := (ip.foldl feedDigit ⟨0, 0, 0, false, false, false⟩).nd } := by
      rw [readMantissa]
      simp [a3]
    obtain ⟨b1, b2, b3, b4, b5, b6⟩ :=
      feedDigits_spec (e :: fr)
        { ip.foldl feedDigit ⟨0, 0, 0, false, false, false⟩ with
          sawdot := true
          dp := (ip.foldl feedDigit ⟨0, 0, 0, false, false, false⟩).nd } a6
    simp only [List.isEmpty_cons, Bool.false_eq_true, if_false, List.cons_append]
    rw [hdot, readMantissa_digits]
    have hstop := readMantissa_stop c r ((e :: fr).foldl feedDigit
        { ip.foldl feedDigit ⟨0, 0, 0, false, false, false⟩ with
          sawdot := true
          dp := (ip.foldl feedDigit ⟨0, 0, 0, false, false, false⟩).nd }) h1 h2
      (fun _ => by rw [b3])
    rw [hstop]
    refine ⟨_, rfl, ?_, ?_, ?_, ?_⟩
    · rw [b1]
      simp only [digitsValue, List.foldl_append]
      rw [a1]
    · rw [b3]
      simp only [if_true]
      rw [b2]
      simp
    · rw [b4]; exact a4
    · intro _
      exact b5 (by simp)

theorem hexMarker_decimal_tail (ip fp : List (Fin 10)) (c : Char) (r : List Char)
    (hip : ip ≠ []) (hx : c ≠ 'x') (hX : c ≠ 'X') :
    hexMarker (ip.map digitChar ++ (if fp.isEmpty then [] else '.' :: fp.map digitChar)
      ++ c :: r) = false := by
  cases ip with
  | nil => exact absurd rfl hip
  | cons d0 ip1 =>
    cases ip1 with
    | nil =>
      cases fp with
      | nil => exact hexMarker_second _ c _ hx hX
      | cons e fr => exact hexMarker_second _ '.' _ (by decide) (by decide)
    | cons d1 ip2 =>
      obtain ⟨_, _, _, _, _, _, _, _, hx1, hX1⟩ := digitChar_ne_special d1
      exact hexMarker_second _ _ _ hx1 hX1

theorem parseFloat_number (neg : Bool) (d0 : Fin 10) (rest s3 : List Char) (st : Mantissa)
    (hhex : hexMarker (digitChar d0 :: rest) = false)
    (hr : readMantissa false (digitChar d0 :: rest) ⟨0, 0, 0, false, false, false⟩ = (st, s3))
    (hsaw : st.sawdigits = true) :
    parseFloat (String.mk ((if neg then ['-'] else []) ++ digitChar d0 :: rest))
      = readExponent neg false st ((if neg then ['-'] else []) ++ digitChar d0 :: rest) s3 := by
  obtain ⟨_, _, h3, h4, _⟩ := digitChar_ne_special d0
  cases neg with
  | true =>
    simp [parseFloat, toList_mk, special_minus_digit, readNumber, hhex, hr, hsaw]
  | false =>
    simp [parseFloat, toList_mk, special_digit, readNumber, h3, h4, hhex, hr, hsaw]

/-- A decimal text followed by more is read up to the byte `c` that ends the
digits, and the rest goes to the exponent part. -/
theorem parseFloat_decimal_tail (neg : Bool) (ip fp : List (Fin 10)) (c : Char)
    (r : List Char) (hip : ip ≠ []) (h1 : c ≠ '_') (h2 : decDigit c = none)
    (h3 : c = '.' → fp ≠ []) (hx : c ≠ 'x') (hX : c ≠ 'X') :
    ∃ st, parseFloat (String.mk ((decimalText neg ip fp).toList ++ c :: r))
        = readExponent neg false st ((decimalText neg ip fp).toList ++ c :: r) (c :: r)
      ∧ st.digits = digitsValue (ip ++ fp)
      ∧ (if st.sawdot then st.dp else (st.nd : Int)) - st.nd = -(fp.length : Int)
      ∧ st.underscores = false := by
  obtain ⟨st, hr, hdig, hscale, hund, hsaw⟩ := readMantissa_decimal_tail ip fp c r h1 h2 h3
  have hhex := hexMarker_decimal_tail ip fp c r hip hx hX
  obtain ⟨d0, ip1, rfl⟩ : ∃ d0 ip1, ip = d0 :: ip1 := by
    cases ip with
    | nil => exact absurd rfl hip
    | cons d0 ip1 => exact ⟨d0, ip1, rfl⟩
  simp only [List.map_cons, List.cons_append] at hr hhex
  have := parseFloat_number neg d0 _ (c :: r) st hhex hr (hsaw hip)
  have hs : (decimalText neg (d0 :: ip1) fp).toList ++ c :: r
      = (if neg then ['-'] else []) ++ digitChar d0
        :: ((ip1.map digitChar ++ (if fp.isEmpty then [] else '.' :: fp.map digitChar))
          ++ c :: r) := by
    simp only [decimalText, toList_mk, List.map_cons, List.append_assoc, List.cons_append]
  refine ⟨st, ?_, hdig, hscale, hund⟩
  rw [hs]
  exact this

/-- A decimal text followed by a byte that can neither continue the number nor
open an exponent is not accepted. -/
theorem parseFloat_reject_tail (neg : Bool) (ip fp : List (Fin 10)) (c : Char)
    (r : List Char) (hip : ip ≠ []) (h2 : decDigit c = none)
    (hc : c ∉ ['_', 'e', 'E', 'x', 'X']) (h3 : c = '.' → fp ≠ []) :
    parseFloat (String.mk ((decimalText neg ip fp).toList ++ c :: r)) = none := by
  simp only [List.mem_cons, List.mem_singleton, List.not_mem_nil, or_false, not_or] at hc
  obtain ⟨c1, c2, c3, c4, c5⟩ := hc
  obtain ⟨st, hp, _⟩ := parseFloat_decimal_tail neg ip fp c r hip c1 h2 h3 c4 c5
  rw [hp]
  simp [readExponent, c2, c3]

/-! ### Exponents -/

theorem foldl_digits_le (ed : List (Fin 10)) (e : Nat) :
    e ≤ ed.foldl (fun n d => n * 10 + d.val) e := by
  induction ed generalizing e with
  | nil => exact le_rfl
  | cons d rest ih =>
    simp only [List.foldl_cons]
    exact le_trans (by omega) (ih (e * 10 + d.val))

theorem readExpDigits_digits (ed : List (Fin 10)) (e : Nat) (u : Bool)
    (h : ed.foldl (fun n d => n * 10 + d.val) e < 10000) :
    readExpDigits (ed.map digitChar) e u = (ed.foldl (fun n d => n * 10 + d.val) e, u, []) := by
  induction ed generalizing e with
  | nil => rfl
  | cons d rest ih =>
    obtain ⟨h1, _⟩ := digitChar_ne_special d
    simp only [List.foldl_cons] at h
    have he : e < 10000 := by
      have := foldl_digits_le rest (e * 10 + d.val)
      omega
    simp only [List.map_cons, List.foldl_cons]
    rw [readExpDigits]
    simp only [h1, if_false, decDigit_digitChar, he, if_true]
    exact ih _ h

theorem decDigit_e : decDigit 'e' = none ∧ decDigit 'E' = none := by decide

theorem parseFloat_exponent_core (neg : Bool) (ip fp : List (Fin 10)) (c : Char)
    (hce : c = 'e' ∨ c = 'E') (signChars : List Char) (sgn : Int)
    (hs : (signChars = [] ∧ sgn = 1) ∨ (signChars = ['+'] ∧ sgn = 1)
      ∨ (signChars = ['-'] ∧ sgn = -1))
    (ed : List (Fin 10)) (hip : ip ≠ []) (hed : ed ≠ []) (hlt : digitsValue ed < 10000) :
    parseFloat (String.mk ((decimalText neg ip fp).toList
        ++ c :: (signChars ++ ed.map digitChar)))
      = rangeChecked (F64.ofDecimal neg (digitsValue (ip ++ fp))
          (-(fp.length : Int) + sgn * (digitsValue ed : Int))) := by
  have hexp : readExpDigits (ed.map digitChar) 0 false = (digitsValue ed, false, []) :=
    readExpDigits_digits ed 0 false hlt
  obtain ⟨e0, ed1, rfl⟩ : ∃ e0 ed1, ed = e0 :: ed1 := by
    cases ed with
    | nil => exact absurd rfl hed
    | cons e0 ed1 => exact ⟨e0, ed1, rfl⟩
  obtain ⟨_, _, hp, hm, _⟩ := digitChar_ne_special e0
  have hd0 : (decDigit (digitChar e0)).isNone = false := by
    rw [decDigit_digitChar]; rfl
  have hc1 : c ≠ '_' := by rcases hce with rfl | rfl <;> decide
  have hc2 : decDigit c = none := by rcases hce with rfl | rfl <;> decide
  have hc3 : c ≠ '.' := by rcases hce with rfl | rfl <;> decide
  have hc4 : c ≠ 'x' := by rcases hce with rfl | rfl <;> decide
  have hc5 : c ≠ 'X' := by rcases hce with rfl | rfl <;> decide
  obtain ⟨st, hparse, hdig, hscale, hund⟩ := parseFloat_decimal_tail neg ip fp c
    (signChars ++ (e0 :: ed1).map digitChar) hip hc1 hc2 (fun h => absurd h hc3) hc4 hc5
  have hconv : ∀ (txt : List Char) (e : Int), convertMantissa neg false st txt e false
      = rangeChecked (F64.ofDecimal neg (digitsValue (ip ++ fp)) (-(fp.length : Int) + e)) := by
    intro txt e
    simp only [convertMantissa, Bool.false_and, Bool.false_eq_true, if_false, hdig, hscale]
  rw [hparse]
  simp only [List.map_cons] at hexp ⊢
  rcases hs with ⟨rfl, rfl⟩ | ⟨rfl, rfl⟩ | ⟨rfl, rfl⟩
  · simp only [List.nil_append]
    rw [readExponent]
    simp only [hce, Bool.false_eq_true, false_and, not_false_eq_true, true_and, false_or,
      if_true, hm, hp, or_self, if_false, hd0, hund, hexp, hconv]
  · simp only [List.singleton_append]
    rw [readExponent]
    simp only [hce, Bool.false_eq_true, false_and, not_false_eq_true, true_and, false_or,
      if_true, true_or, hd0, hund, hexp, hconv]
    simp
  · simp only [List.singleton_append]
    rw [readExponent]
    simp only [hce, Bool.false_eq_true, false_and, not_false_eq_true, true_and, false_or,
      if_true, or_true, hd0, hund, hexp, hconv]
    simp

/-- A decimal text followed by `e` or `E`, an optional sign and an exponent
below 10000 is read as the binary64 nearest to the number times that power of
ten, unless that is an infinity. -/
theorem parseFloat_exponentText (neg : Bool) (ip fp : List (Fin 10)) (upper : Bool)
    (esign : Option Bool) (ed : List (Fin 10)) (hip : ip ≠ []) (hed : ed ≠ [])
    (hlt : digitsValue ed < 10000) :
    parseFloat (exponentText neg ip fp upper esign ed)
      = rangeChecked (F64.ofDecimal neg (digitsValue (ip ++ fp))
          (-(fp.length : Int)
            + (if esign = some true then -1 else 1) * (digitsValue ed : Int))) := by
  have hech : (if upper then 'E' else 'e') = 'e' ∨ (if upper then 'E' else 'e') = 'E' := by
    cases upper
    · exact Or.inl rfl
    · exact Or.inr rfl
  cases esign with
  | none =>
    exact parseFloat_exponent_core neg ip fp _ hech [] 1 (Or.inl ⟨rfl, rfl⟩) ed hip hed hlt
  | some s =>
    cases s with
    | false =>
      exact parseFloat_exponent_core neg ip fp _ hech ['+'] 1 (Or.inr (Or.inl ⟨rfl, rfl⟩))
        ed hip hed hlt
    | true =>
      exact parseFloat_exponent_core neg ip fp _ hech ['-'] (-1) (Or.inr (Or.inr ⟨rfl, rfl⟩))
        ed hip hed hlt

/-! ### The words `inf`, `infinity` and `nan` -/

theorem list_length_three (up : List Bool) (h : up.length = 3) :
    ∃ a b c, up = [a, b, c] := by
  match up, h with
  | [a, b, c], _ => exact ⟨a, b, c, rfl⟩

theorem list_length_eight (up : List Bool) (h : up.length = 8) :
    ∃ a b c d e f g i, up = [a, b, c, d, e, f, g, i] := by
  match up, h with
  | [a, b, c, d, e, f, g, i], _ => exact ⟨a, b, c, d, e, f, g, i, rfl⟩

theorem parseFloat_inf (up : List Bool) (h : up.length = 3) :
    parseFloat (String.mk (caseVariant "inf" up)) = some (F64.inf false)
    ∧ parseFloat (String.mk ('+' :: caseVariant "inf" up)) = some (F64.inf false)
    ∧ parseFloat (String.mk ('-' :: caseVariant "inf" up)) = some (F64.inf true) := by
  obtain ⟨a, b, c, rfl⟩ := list_length_three up h
  cases a <;> cases b <;> cases c <;> decide

theorem parseFloat_nan (up : List Bool) (h : up.length = 3) :
    parseFloat (String.mk (caseVariant "nan" up)) = some F64.nan := by
  obtain ⟨a, b, c, rfl⟩ := list_length_three up h
  cases a <;> cases b <;> cases c <;> decide

theorem parseFloat_infinity (up : List Bool) (h : up.length = 8) :
    parseFloat (String.mk (caseVariant "infinity" up)) = some (F64.inf false)
    ∧ parseFloat (String.mk ('+' :: caseVariant "infinity" up)) = some (F64.inf false)
    ∧ parseFloat (String.mk ('-' :: caseVariant "infinity" up)) = some (F64.inf true) := by
  obtain ⟨a, b, c, d, e, f, g, i, rfl⟩ := list_length_eight up h
  cases a <;> cases b <;> cases c <;> cases d <;> cases e <;> cases f <;> cases g <;> cases i <;>
    decide

/-! ### What the normaliser does with strings -/

theorem parseOrZero_of_some (s : String) (v : F64) (h : parseFloat s = some v) :
    parseOrZero s = v := by
  have hne : s ≠ "" := by
    intro hs
    subst hs
    have : parseFloat "" = none := by decide
    rw [this] at h
    cases h
  simp only [parseOrZero, hne, ne_eq, not_false_eq_true, if_true, h]

theorem parseOrZero_of_none (s : String) (h : parseFloat s = none) : parseOrZero s = 0 := by
  simp only [parseOrZero, h]
  split <;> rfl

theorem parseOrZero_rangeChecked (s : String) (v : F64) (h : parseFloat s = rangeChecked v) :
    ((∀ b, v ≠ F64.inf b) → parseOrZero s = v) ∧ (∀ b, v = F64.inf b → parseOrZero s = 0) := by
  constructor
  · intro hfin
    apply parseOrZero_of_some
    rw [h]
    cases v with
    | inf b => exact absurd rfl (hfin b)
    | _ => rfl
  · intro b hb
    apply parseOrZero_of_none
    rw [h, hb]
    rfl

/-- C12, amended: `convertToFloat64` returns `0.0` for null, booleans, arrays,
objects, times, the empty string and every string that `strconv.ParseFloat`
does not accept: in particular every string whose first character is not a
digit and none of `+ - . _ i I n N` (`abc`, ` 3.5`), and every decimal text
followed by more when the first byte of the rest is not a digit, not one of
`_ e E x X` and not the first `.` of the number (`12abc`, `3,5`, `1.2.3`); also
`--1`, `1e` and `0x10`.  It does not return `0.0` for every string that is not
decimal-formatted: `inf` and `infinity`, in any letter case and with an
optional sign, give an infinity, and `nan` in any letter case gives NaN; a
decimal text followed by `e` or `E`, an optional sign and an exponent below
10000 gives the binary64 nearest to the number times that power of ten (`1e3`
gives `1000`), or `0.0` when that overflows; the hexadecimal float `0x1p4`
gives `16` and `1_000` gives `1000`. -/
theorem C12_zero_for_rejected :
    (convertToFloat64 .null = 0
      ∧ (∀ b, convertToFloat64 (.bool b) = 0)
      ∧ (∀ items, convertToFloat64 (.arr items) = 0)
      ∧ (∀ fields, convertToFloat64 (.obj fields) = 0)
      ∧ (∀ t, convertToFloat64 (.timePtr t) = 0)
      ∧ convertToFloat64 (.str "") = 0
      ∧ convertToFloat64 (.number "") = 0)
    ∧ (∀ s, parseFloat s = none →
        convertToFloat64 (.str s) = 0 ∧ convertToFloat64 (.number s) = 0)
    ∧ (∀ (c : Char) (cs : List Char), c ∉ ['+', '-', '.', '_', 'i', 'I', 'n', 'N'] →
        decDigit c = none →
        parseFloat (String.mk (c :: cs)) = none
        ∧ convertToFloat64 (.str (String.mk (c :: cs))) = 0)
    ∧ (∀ (neg : Bool) (ip fp : List (Fin 10)) (c : Char) (r : List Char), ip ≠ [] →
        decDigit c = none → c ∉ ['_', 'e', 'E', 'x', 'X'] → (c = '.' → fp ≠ []) →
        parseFloat (String.mk ((decimalText neg ip fp).toList ++ c :: r)) = none
        ∧ convertToFloat64 (.str (String.mk ((decimalText neg ip fp).toList ++ c :: r))) = 0)
    ∧ (convertToFloat64 (.str "abc") = 0
      ∧ convertToFloat64 (.str " 3.5") = 0
      ∧ convertToFloat64 (.str "12abc") = 0
      ∧ convertToFloat64 (.str "3,5") = 0
      ∧ convertToFloat64 (.str "1.2.3") = 0
      ∧ convertToFloat64 (.str "--1") = 0
      ∧ convertToFloat64 (.str "1e") = 0
      ∧ convertToFloat64 (.str "0x10") = 0)
    ∧ (∀ up : List Bool, up.length = 3 →
        convertToFloat64 (.str (String.mk (caseVariant "inf" up))) = F64.inf false
        ∧ convertToFloat64 (.str (String.mk ('+' :: caseVariant "inf" up))) = F64.inf false
        ∧ convertToFloat64 (.str (String.mk ('-' :: caseVariant "inf" up))) = F64.inf true
        ∧ convertToFloat64 (.str (String.mk (caseVariant "nan" up))) = F64.nan)
    ∧ (∀ up : List Bool, up.length = 8 →
        convertToFloat64 (.str (String.mk (caseVariant "infinity" up))) = F64.inf false
        ∧ convertToFloat64 (.str (String.mk ('+' :: caseVariant "infinity" up)))
            = F64.inf false
        ∧ convertToFloat64 (.str (String.mk ('-' :: caseVariant "infinity" up)))
            = F64.inf true)
    ∧ (∀ (neg : Bool) (ip fp : List (Fin 10)) (upper : Bool) (esign : Option Bool)
        (ed : List (Fin 10)), ip ≠ [] → ed ≠ [] → digitsValue ed < 10000 →
        ((∀ b, F64.ofDecimal neg (digitsValue (ip ++ fp))
            (-(fp.length : Int) + (if esign = some true then -1 else 1) * (digitsValue ed : Int))
              ≠ F64.inf b) →
          convertToFloat64 (.str (exponentText neg ip fp upper esign ed))
            = F64.ofDecimal neg (digitsValue (ip ++ fp))
                (-(fp.length : Int)
                  + (if esign = some true then -1 else 1) * (digitsValue ed : Int)))
        ∧ (∀ b, F64.ofDecimal neg (digitsValue (ip ++ fp))
            (-(fp.length : Int) + (if esign = some true then -1 else 1) * (digitsValue ed : Int))
              = F64.inf b →
          convertToFloat64 (.str (exponentText neg ip fp upper esign ed)) = 0))
    ∧ (String.mk (caseVariant "infinity" [true, false, false, false, false, false, false, false])
          = "Infinity"
      ∧ convertToFloat64 (.str "Infinity") = F64.inf false
      ∧ exponentText false [1] [] false none [3] = "1e3"
      ∧ convertToFloat64 (.str "1e3") = F64.ofInt 1000
      ∧ convertToFloat64 (.str "-12.5E-02") = F64.ofDecimal true 125 (-3)
      ∧ convertToFloat64 (.str "0x1p4") = F64.ofInt 16
      ∧ convertToFloat64 (.str "1_000") = F64.ofInt 1000
      ∧ F64.inf false ≠ 0 ∧ F64.ofInt 1000 ≠ 0 ∧ F64.ofDecimal true 125 (-3) ≠ 0
      ∧ F64.ofInt 16 ≠ 0) := by
  have hrej : ∀ s, parseFloat s = none →
      convertToFloat64 (.str s) = 0 ∧ convertToFloat64 (.number s) = 0 :=
    fun s hs => ⟨parseOrZero_of_none s hs, parseOrZero_of_none s hs⟩
  have harr : parseOrZero "[" = 0 := by decide
  have hobj : parseOrZero "map[" = 0 := by decide
  have htime : parseOrZero "0001-01-01 00:00:00 +0000 UTC" = 0 := by decide
  have hnil : parseOrZero "<nil>" = 0 := by decide
  refine ⟨⟨by decide, by decide, fun _ => harr, fun _ => hobj, ?_, by decide, by decide⟩, hrej,
    ?_, ?_, ⟨by decide, by decide, by decide, by decide, by decide, by decide, by decide,
      by decide⟩, ?_, ?_, ?_, ⟨by decide, by decide, by decide, by decide, by decide, by decide,
      by decide, by decide, by decide, by decide, by decide⟩⟩
  · intro t
    cases t
    · exact hnil
    · exact htime
  · intro c cs hc hd
    have h := parseFloat_reject_first c cs hc hd
    exact ⟨h, (hrej _ h).1⟩
  · intro neg ip fp c r hip hd hc hdot
    have h := parseFloat_reject_tail neg ip fp c r hip hd hc hdot
    exact ⟨h, (hrej _ h).1⟩
  · intro up hup
    obtain ⟨h1, h2, h3⟩ := parseFloat_inf up hup
    exact ⟨parseOrZero_of_some _ _ h1, parseOrZero_of_some _ _ h2, parseOrZero_of_some _ _ h3,
      parseOrZero_of_some _ _ (parseFloat_nan up hup)⟩
  · intro up hup
    obtain ⟨h1, h2, h3⟩ := parseFloat_infinity up hup
    exact ⟨parseOrZero_of_some _ _ h1, parseOrZero_of_some _ _ h2, parseOrZero_of_some _ _ h3⟩
  · intro neg ip fp upper esign ed hip hed hlt
    exact parseOrZero_rangeChecked _ _
      (parseFloat_exponentText neg ip fp upper esign ed hip hed hlt)

/-- C12 amended, at the string `$5`, at `12abc`, at `Inf` and at `2e1`. -/
theorem C12_zero_for_rejected_witness :
    (parseFloat (String.mk ('$' :: ['5'])) = none
      ∧ convertToFloat64 (.str (String.mk ('$' :: ['5']))) = 0)
    ∧ (parseFloat (String.mk ((decimalText false [1, 2] []).toList ++ 'a' :: ['b', 'c'])) = none
      ∧ convertToFloat64
          (.str (String.mk ((decimalText false [1, 2] []).toList ++ 'a' :: ['b', 'c']))) = 0)
    ∧ convertToFloat64 (.str (String.mk (caseVariant "inf" [true, false, false])))
        = F64.inf false
    ∧ convertToFloat64 (.str (exponentText false [2] [] false none [1]))
        = F64.ofDecimal false (digitsValue ([2] ++ []))
            (-((([] : List (Fin 10)).length : Nat) : Int)
              + (if (none : Option Bool) = some true then -1 else 1)
                * ((digitsValue [1] : Nat) : Int)) :=
  ⟨C12_zero_for_rejected.2.2.1 '$' ['5'] (by decide) (by decide),
   C12_zero_for_rejected.2.2.2.1 false [1, 2] [] 'a' ['b', 'c'] (by simp) (by decide)
     (by decide) (by decide),
   (C12_zero_for_rejected.2.2.2.2.2.1 [true, false, false] rfl).1,
   (C12_zero_for_rejected.2.2.2.2.2.2.2.1 false [2] [] false none [1] (by simp) (by simp)
     (by decide)).1 (by decide)⟩

end Ovh
